import Mathlib

/-!
# TagParser: Vorbis comments and ADTS streams

A shallow embedding of `vorbis/vorbiscomment.cpp`, `vorbis/vorbiscommentfield.h` and
`adts/adtsstream.cpp`.

Conventions of the embedding:

* a `std::string` or a buffer of `char` is a `List Nat` of byte values;
* machine integers are `Nat`, reduced `% 2 ^ w` where the C++ type truncates;
* a C++ member function that mutates `*this`, the stream and the `Diagnostics`
  it is given becomes a function returning all of them next to an `Outcome`,
  which is either a normal return or the exception that left the function.
-/

namespace TagParser

/-! ## Bytes and byte order -/

/-- A `std::string` / `char` buffer: the list of its byte values. -/
abbrev Bytes := List Nat

/-- The bytes of an ASCII literal. -/
def ascii (s : String) : Bytes := s.toList.map Char.toNat

/-- `CppUtilities::LE::toUInt32`: four bytes, least significant first. -/
def LE.toUInt32 (b : Bytes) : Nat :=
  (b.getD 0 0 + 256 * b.getD 1 0 + 65536 * b.getD 2 0 + 16777216 * b.getD 3 0) % 2 ^ 32

/-- `CppUtilities::BE::toUInt64`: eight bytes, most significant first. -/
def BE.toUInt64 (b : Bytes) : Nat :=
  (b.foldl (fun acc x => acc * 256 + x) 0) % 2 ^ 64

/-- `BinaryWriter::writeUInt32LE`: the four bytes written for a 32-bit value.
The argument is converted to `std::uint32_t` at the call, hence the reduction. -/
def writeUInt32LE (n : Nat) : Bytes :=
  let v := n % 2 ^ 32
  [v % 256, v / 256 % 256, v / 65536 % 256, v / 16777216 % 256]

/-! ## Diagnostics and exceptions -/

/-- The level of a diagnostic message (`DiagLevel`). -/
inductive DiagLevel where
  | Debug
  | Information
  | Warning
  | Critical
deriving DecidableEq, Repr

/-- One record of the `Diagnostics` collector: level, message, context. -/
structure DiagMessage where
  level : DiagLevel
  message : String
  context : String
deriving DecidableEq, Repr

/-- The append-only collector `Diagnostics`; `emplace_back` appends at the end. -/
abbrev Diagnostics := List DiagMessage

/-- Modelled from the spec: the exception classes of `exceptions.h`, which is not
among the sources. Section 7 and the design notes name `Failure`,
`NoDataFoundException`, `InvalidDataException`, `TruncatedDataException` and the
conversion error; `IosFailure` is the `std::ios_base::failure` of the documented
`\throws` lines. -/
inductive Exn where
  | Failure
  | NoDataFound
  | InvalidData
  | TruncatedData
  | Conversion
  | IosFailure
deriving DecidableEq, Repr

/-- Modelled from the spec: which exceptions a `catch (const Failure &)` handler
catches. The parsing exceptions of the taxonomy derive from `Failure`; a stream
failure and a conversion error do not. -/
def Exn.isFailure : Exn → Bool
  | .Failure | .NoDataFound | .InvalidData | .TruncatedData => true
  | .Conversion | .IosFailure => false

/-- How a call ended: it returned a value, or an exception left it. -/
inductive Outcome (α : Type) where
  | returned (a : α)
  | threw (e : Exn)
deriving DecidableEq, Repr

/-! ## Streams -/

/-- A seekable input stream over a byte sequence: the content and the read position. -/
structure IStream where
  data : Bytes
  pos : Nat
deriving DecidableEq, Repr

/-- The call `stream.read(buf, n)`: the next `n` bytes and the advanced stream, or
`none` when fewer than `n` bytes are left (the stream then fails, which the
callers report as `std::ios_base::failure`). -/
def IStream.read (s : IStream) (n : Nat) : Option (Bytes × IStream) :=
  if s.pos + n ≤ s.data.length then
    some ((s.data.drop s.pos).take n, { s with pos := s.pos + n })
  else none

/-- The call `stream.ignore()`: skips one byte when there is one; at the end of the
stream only the end-of-file bit is set and the position stays. -/
def IStream.ignore (s : IStream) : IStream :=
  if s.pos < s.data.length then { s with pos := s.pos + 1 } else s

/-- The call `stream.tellg()` as `std::uint64_t`. -/
def IStream.tellg (s : IStream) : Nat := s.pos % 2 ^ 64

/-! ## Tag values and fields -/

/-- Modelled from the spec: the kind of content of a `TagValue` ("text w/ encoding,
integer, date, picture"); `tagvalue.h` is not among the sources. -/
inductive TagDataType where
  | Undefined
  | Text
  | Integer
  | Picture
  | Binary
deriving DecidableEq, Repr

/-- Modelled from the spec: the text encodings of a `TagValue`. -/
inductive TagTextEncoding where
  | Latin1
  | Utf8
  | Utf16LittleEndian
  | Utf16BigEndian
  | Unspecified
deriving DecidableEq, Repr

/-- Modelled from the spec: `TagValue`, a typed scalar/binary variant: the type, the
text encoding and the stored bytes. -/
structure TagValue where
  type : TagDataType
  encoding : TagTextEncoding
  data : Bytes
deriving DecidableEq, Repr

/-- The value `TagValue::empty()`. -/
def TagValue.empty : TagValue := ⟨.Undefined, .Latin1, []⟩

/-- The test `TagValue::isEmpty()`: no data is stored. -/
def TagValue.isEmpty (v : TagValue) : Bool := v.data.isEmpty

/-- The call `assignData(data, length, type, encoding)` as used by the parser. -/
def TagValue.assignData (data : Bytes) (type : TagDataType) (encoding : TagTextEncoding) :
    TagValue := ⟨type, encoding, data⟩

/-- A text value stored as UTF-8. -/
def TagValue.utf8 (data : Bytes) : TagValue := ⟨.Text, .Utf8, data⟩

/-- Modelled from the spec: `TagValue::toString`, the UTF-8 string of a value. Text
stored as UTF-8 is its own bytes. Values that would need transcoding or formatting
are outside this model and are reported as not convertible (`none` stands for the
conversion error). -/
def TagValue.toString (v : TagValue) : Option Bytes :=
  if v.type = .Text ∧ v.encoding = .Utf8 then some v.data else none

/-- A `VorbisCommentField`: the identifier (`IdentifierType = std::string`) and the
value. The additional type info is not used by Vorbis fields. -/
structure VorbisCommentField where
  id : Bytes
  value : TagValue
deriving DecidableEq, Repr

/-- The flags `VorbisCommentFlags` as the 8-bit mask of the enum. -/
abbrev VorbisCommentFlags := Nat

/-- Regular parsing/making. -/
def VorbisCommentFlags.None : VorbisCommentFlags := 0x0
/-- Skips the signature when parsing and making. -/
def VorbisCommentFlags.NoSignature : VorbisCommentFlags := 0x1
/-- No framing byte is expected when parsing or made when making. -/
def VorbisCommentFlags.NoFramingByte : VorbisCommentFlags := 0x2
/-- Skips all covers when making. -/
def VorbisCommentFlags.NoCovers : VorbisCommentFlags := 0x4

/-- The `operator&` of `VorbisCommentFlags`: the bitwise and of the two masks,
converted to `bool`. -/
def VorbisCommentFlags.and (lhs rhs : VorbisCommentFlags) : Bool :=
  ((lhs % 256) &&& (rhs % 256)) != 0

/-- The `operator|` of `VorbisCommentFlags`. -/
def VorbisCommentFlags.or (lhs rhs : VorbisCommentFlags) : VorbisCommentFlags :=
  (lhs % 256) ||| (rhs % 256)

/-! ## The case-insensitive field map -/

/-- Modelled from the spec: `CaseInsensitiveCharComparer::toLower`; "identifier
comparisons are case-insensitive ASCII", the letters `A`..`Z` are folded. -/
def CaseInsensitiveCharComparer.toLower (c : Nat) : Nat :=
  if 65 ≤ c ∧ c ≤ 90 then c + 32 else c

/-- The algorithm `std::lexicographical_compare` with a comparison `lt`. -/
def lexicographicalCompare (lt : Nat → Nat → Bool) : Bytes → Bytes → Bool
  | [], [] => false
  | [], _ :: _ => true
  | _ :: _, [] => false
  | a :: as, b :: bs =>
    if lt a b then true
    else if lt b a then false
    else lexicographicalCompare lt as bs

/-- Modelled from the spec: `CaseInsensitiveStringComparer`, the ordering of the field
map ("case-insensitive multimap of tag fields"): lexicographic on the folded
characters. -/
def CaseInsensitiveStringComparer (lhs rhs : Bytes) : Bool :=
  lexicographicalCompare
    (fun a b => decide (CaseInsensitiveCharComparer.toLower a < CaseInsensitiveCharComparer.toLower b))
    lhs rhs

/-- Two keys are equivalent for the map when neither orders before the other. -/
def keyEquiv (a b : Bytes) : Bool :=
  !CaseInsensitiveStringComparer a b && !CaseInsensitiveStringComparer b a

/-- The `std::multimap<std::string, VorbisCommentField, CaseInsensitiveStringComparer>`
of a tag: its entries in iteration order (ordered by key, equivalent keys in
insertion order). -/
abbrev FieldMap := List (Bytes × VorbisCommentField)

/-- The position `upper_bound(k)`: the number of leading entries whose key is not
greater than `k`. -/
def FieldMap.upperBound (m : FieldMap) (k : Bytes) : Nat :=
  (m.takeWhile (fun e => !CaseInsensitiveStringComparer k e.1)).length

/-- The position `lower_bound(k)`: the number of leading entries whose key is less
than `k`. -/
def FieldMap.lowerBound (m : FieldMap) (k : Bytes) : Nat :=
  (m.takeWhile (fun e => CaseInsensitiveStringComparer e.1 k)).length

/-- The calls `emplace(key, field)` and `insert(pair)`: a multimap puts the new
entry at the upper bound of its key, behind the entries with an equivalent key. -/
def FieldMap.insert (m : FieldMap) (e : Bytes × VorbisCommentField) : FieldMap :=
  m.take (m.upperBound e.1) ++ e :: m.drop (m.upperBound e.1)

/-- The call `find(k)`: an entry with a key equivalent to `k`, here the first one in
iteration order, or `none` for `end()`. -/
def FieldMap.find (m : FieldMap) (k : Bytes) : Option (Bytes × VorbisCommentField) :=
  List.find? (fun e => keyEquiv e.1 k) m

/-- The call `equal_range(k)`: the entries from the lower to the upper bound. -/
def FieldMap.equalRange (m : FieldMap) (k : Bytes) : FieldMap :=
  (m.drop (m.lowerBound k)).take (m.upperBound k - m.lowerBound k)

/-- The call `erase(first, end)` on the iterators of `equal_range(k)`: the entries
between the lower and the upper bound of `k` are removed. -/
def FieldMap.eraseRange (m : FieldMap) (k : Bytes) : FieldMap :=
  m.take (m.lowerBound k) ++ m.drop (m.upperBound k)

/-! ## Vorbis comment identifiers and known fields -/

namespace VorbisCommentIds

/-- Modelled from the spec: the identifiers of `vorbiscommentids.h`, which is not among
the sources. The spec names `DATE` and `YEAR`; the others are the field names of
the Vorbis comment convention. -/
def album : Bytes := ascii "ALBUM"
/-- Modelled from the spec: identifier of the artist. -/
def artist : Bytes := ascii "ARTIST"
/-- Modelled from the spec: identifier of the comment. -/
def comment : Bytes := ascii "COMMENT"
/-- Modelled from the spec: identifier of a cover. -/
def cover : Bytes := ascii "METADATA_BLOCK_PICTURE"
/-- Modelled from the spec: the official identifier `DATE`. -/
def date : Bytes := ascii "DATE"
/-- Modelled from the spec: the inofficial identifier `YEAR`. -/
def year : Bytes := ascii "YEAR"
/-- Modelled from the spec: identifier of the title. -/
def title : Bytes := ascii "TITLE"
/-- Modelled from the spec: identifier of the genre. -/
def genre : Bytes := ascii "GENRE"
/-- Modelled from the spec: identifier of the track position. -/
def trackNumber : Bytes := ascii "TRACKNUMBER"
/-- Modelled from the spec: identifier of the disk position. -/
def diskNumber : Bytes := ascii "DISCNUMBER"
/-- Modelled from the spec: identifier of the part number. -/
def partNumber : Bytes := ascii "PARTNUMBER"
/-- Modelled from the spec: identifier of the composer. -/
def composer : Bytes := ascii "COMPOSER"
/-- Modelled from the spec: identifier of the encoder. -/
def encoder : Bytes := ascii "ENCODER"
/-- Modelled from the spec: identifier of the encoder settings. -/
def encoderSettings : Bytes := ascii "ENCODER_OPTIONS"
/-- Modelled from the spec: identifier of the description. -/
def description : Bytes := ascii "DESCRIPTION"
/-- Modelled from the spec: identifier of the grouping. -/
def grouping : Bytes := ascii "GROUPING"
/-- Modelled from the spec: identifier of the record label. -/
def label : Bytes := ascii "LABEL"
/-- Modelled from the spec: identifier of the performers. -/
def performer : Bytes := ascii "PERFORMER"
/-- Modelled from the spec: identifier of the language. -/
def language : Bytes := ascii "LANGUAGE"
/-- Modelled from the spec: identifier of the lyricist. -/
def lyricist : Bytes := ascii "LYRICIST"
/-- Modelled from the spec: identifier of the lyrics. -/
def lyrics : Bytes := ascii "LYRICS"
/-- Modelled from the spec: identifier of the album artist. -/
def albumArtist : Bytes := ascii "ALBUMARTIST"

end VorbisCommentIds

/-- Modelled from the spec: the enumeration `KnownField` (section 4.5), with the members
the source names; `Other` stands for the further members behind the ellipsis. -/
inductive KnownField where
  | Invalid
  | Album
  | Artist
  | Comment
  | Cover
  | RecordDate
  | Year
  | Title
  | Genre
  | TrackPosition
  | DiskPosition
  | PartNumber
  | Composer
  | Encoder
  | EncoderSettings
  | Description
  | Grouping
  | RecordLabel
  | Performers
  | Language
  | Lyricist
  | Lyrics
  | AlbumArtist
  | Vendor
  | Other (code : Nat)
deriving DecidableEq, Repr

/-- A `VorbisComment`: the vendor (`m_vendor`), the field map (`fields()`) and the
size in bytes found by the last parse (`m_size`). -/
structure VorbisComment where
  vendor : TagValue
  fields : FieldMap
  size : Nat
deriving DecidableEq, Repr

/-- A freshly constructed `VorbisComment`. -/
def VorbisComment.fresh : VorbisComment := ⟨TagValue.empty, [], 0⟩

/-- The function `VorbisComment::internallyGetFieldId`. -/
def VorbisComment.internallyGetFieldId : KnownField → Bytes
  | .Album => VorbisCommentIds.album
  | .Artist => VorbisCommentIds.artist
  | .Comment => VorbisCommentIds.comment
  | .Cover => VorbisCommentIds.cover
  | .RecordDate => VorbisCommentIds.date
  | .Year => VorbisCommentIds.date
  | .Title => VorbisCommentIds.title
  | .Genre => VorbisCommentIds.genre
  | .TrackPosition => VorbisCommentIds.trackNumber
  | .DiskPosition => VorbisCommentIds.diskNumber
  | .PartNumber => VorbisCommentIds.partNumber
  | .Composer => VorbisCommentIds.composer
  | .Encoder => VorbisCommentIds.encoder
  | .EncoderSettings => VorbisCommentIds.encoderSettings
  | .Description => VorbisCommentIds.description
  | .Grouping => VorbisCommentIds.grouping
  | .RecordLabel => VorbisCommentIds.label
  | .Performers => VorbisCommentIds.performer
  | .Language => VorbisCommentIds.language
  | .Lyricist => VorbisCommentIds.lyricist
  | .Lyrics => VorbisCommentIds.lyrics
  | .AlbumArtist => VorbisCommentIds.albumArtist
  | _ => []

/-- Modelled from the spec: `FieldMapBasedTag::value`, the field-map based lookup
(`fieldmapbasedtag.h` is not among the sources): the value of the first field
stored under the identifier of the known field, or the empty value. -/
def FieldMapBasedTag.value (tag : VorbisComment) (field : KnownField) : TagValue :=
  match FieldMap.find tag.fields (VorbisComment.internallyGetFieldId field) with
  | some e => e.2.value
  | none => TagValue.empty

/-- The function `VorbisComment::value`. -/
def VorbisComment.value (tag : VorbisComment) : KnownField → TagValue
  | .Vendor => tag.vendor
  | field => FieldMapBasedTag.value tag field

/-! ## Parsing a Vorbis comment -/

/-- What a call of `VorbisCommentField::parse(stream, maxSize, diag)` leaves behind:
the parsed field or the exception, the stream, the remaining `maxSize` (passed by
reference) and the diagnostics. -/
structure FieldParseResult where
  outcome : Outcome VorbisCommentField
  stream : IStream
  maxSize : Nat
  diag : Diagnostics
deriving DecidableEq, Repr

/-- The behaviour of `VorbisCommentField::parse` on a fresh field, as a function of
the stream, the remaining `maxSize` and the diagnostics. Its definition is in
`vorbiscommentfield.cpp`, not among the sources, so `internalParse` takes it as an
argument. -/
abbrev FieldParser := IStream → Nat → Diagnostics → FieldParseResult

/-- What a call of `VorbisComment::internalParse` leaves behind. -/
structure ParseResult where
  tag : VorbisComment
  stream : IStream
  diag : Diagnostics
  outcome : Outcome Unit
deriving DecidableEq, Repr

/-- Modelled from the spec: the macro `CHECK_MAX_SIZE(n)` of `exceptions.h`: a length
exceeding the remaining maximum size is a `TruncatedDataException` (`none`);
otherwise the remaining maximum size shrinks by `n`. -/
def checkMaxSize (maxSize n : Nat) : Option Nat :=
  if maxSize < n then none else some (maxSize - n)

/-- The context string of the diagnostics of `internalParse`. -/
def parseContext : String := "parsing Vorbis comment"

/-- The signature test of `internalParse` on the buffer `char sig[8]` after seven
bytes were read into it: `sig7` are those bytes and `last` is `sig[7]`, which is
never written. -/
def signatureMatches (sig7 : Bytes) (last : Nat) : Bool :=
  (BE.toUInt64 (sig7 ++ [last]) &&& 0xffffffffffffff00) == 0x03766F7262697300

/-- The loop `for (i = 0; i < fieldCount; ++i)` of `internalParse`: `n` is the number
of iterations still to run. -/
def VorbisComment.parseFields (parse : FieldParser) :
    Nat → VorbisComment → IStream → Nat → Diagnostics → ParseResult
  | 0, tag, stream, _, diag => ⟨tag, stream, diag, .returned ()⟩
  | n + 1, tag, stream, maxSize, diag =>
    let r := parse stream maxSize diag
    match r.outcome with
    | .returned field =>
      -- fields().emplace(field.id(), move(field))
      VorbisComment.parseFields parse n
        { tag with fields := FieldMap.insert tag.fields (field.id, field) }
        r.stream r.maxSize r.diag
    | .threw e =>
      if e = .TruncatedData then
        -- catch (const TruncatedDataException &) throws again
        ⟨tag, r.stream, r.diag, .threw .TruncatedData⟩
      else if e.isFailure then
        -- catch (const Failure &): nothing to do
        VorbisComment.parseFields parse n tag r.stream r.maxSize r.diag
      else
        ⟨tag, r.stream, r.diag, .threw e⟩

/-- The block `turn "YEAR" into "DATE" (unless "DATE" exists)` of `internalParse`.
The iterators of a multimap stay valid across `insert`, so the loop visits the
entries that were in the range of `YEAR` before it started, and the final `erase`
removes that range. -/
def normalizeYear (m : FieldMap) : FieldMap :=
  if (FieldMap.find m VorbisCommentIds.date).isNone then
    let range := FieldMap.equalRange m VorbisCommentIds.year
    let m1 := range.foldl (fun acc e => FieldMap.insert acc (VorbisCommentIds.date, e.2)) m
    FieldMap.eraseRange m1 VorbisCommentIds.year
  else m

/-- The narrowing `static_cast<std::uint32_t>(tellg() - startOffset)` of 64-bit
unsigned values. -/
def sizeSince (stream : IStream) (startOffset : Nat) : Nat :=
  ((stream.tellg + 2 ^ 64 - startOffset) % 2 ^ 64) % 2 ^ 32

/-- The part of `internalParse` behind the signature: vendor, field count, fields,
framing byte, size and the normalisation of `YEAR`. -/
def VorbisComment.parseAfterSignature (parse : FieldParser) (tag : VorbisComment)
    (stream : IStream) (maxSize : Nat) (flags : VorbisCommentFlags) (diag : Diagnostics)
    (startOffset : Nat) : ParseResult :=
  -- read vendor (length prefixed string)
  match checkMaxSize maxSize 4 with
  | none => ⟨tag, stream, diag, .threw .TruncatedData⟩
  | some maxSize1 =>
  match stream.read 4 with
  | none => ⟨tag, stream, diag, .threw .IosFailure⟩
  | some (sig, stream1) =>
  let vendorSize := LE.toUInt32 sig
  if vendorSize ≤ maxSize1 then
    match stream1.read vendorSize with
    | none => ⟨tag, stream1, diag, .threw .IosFailure⟩
    | some (buff, stream2) =>
    let tag1 := { tag with vendor := TagValue.assignData buff .Text .Utf8 }
    let maxSize2 := maxSize1 - vendorSize
    -- read field count
    match checkMaxSize maxSize2 4 with
    | none => ⟨tag1, stream2, diag, .threw .TruncatedData⟩
    | some maxSize3 =>
    match stream2.read 4 with
    | none => ⟨tag1, stream2, diag, .threw .IosFailure⟩
    | some (sig2, stream3) =>
    let fieldCount := LE.toUInt32 sig2
    let r := VorbisComment.parseFields parse fieldCount tag1 stream3 maxSize3 diag
    match r.outcome with
    | .threw e => ⟨r.tag, r.stream, r.diag, .threw e⟩
    | .returned _ =>
      let stream4 :=
        if !(VorbisCommentFlags.and flags VorbisCommentFlags.NoFramingByte) then r.stream.ignore
        else r.stream
      let tag2 := { r.tag with size := sizeSince stream4 startOffset }
      ⟨{ tag2 with fields := normalizeYear tag2.fields }, stream4, r.diag, .returned ()⟩
  else
    ⟨tag, stream1, diag ++ [⟨.Critical, "Vendor information is truncated.", parseContext⟩],
      .threw .TruncatedData⟩

/-- The `try` block of `internalParse`. The byte `sig[7]` is never written; the mask
of the signature test clears it, so it is taken as `0` here. -/
def VorbisComment.internalParseTry (parse : FieldParser) (tag : VorbisComment)
    (stream : IStream) (maxSize : Nat) (flags : VorbisCommentFlags) (diag : Diagnostics)
    (startOffset : Nat) : ParseResult :=
  if VorbisCommentFlags.and flags VorbisCommentFlags.NoSignature then
    VorbisComment.parseAfterSignature parse tag stream maxSize flags diag startOffset
  else
    match checkMaxSize maxSize 7 with
    | none => ⟨tag, stream, diag, .threw .TruncatedData⟩
    | some maxSize1 =>
    match stream.read 7 with
    | none => ⟨tag, stream, diag, .threw .IosFailure⟩
    | some (sig, stream1) =>
    if signatureMatches sig 0 then
      VorbisComment.parseAfterSignature parse tag stream1 maxSize1 flags diag startOffset
    else
      ⟨tag, stream1, diag ++ [⟨.Critical, "Signature is invalid.", parseContext⟩],
        .threw .InvalidData⟩

/-- The handler `catch (const TruncatedDataException &)` of `internalParse`, applied to
what the `try` block left behind: the size is recorded, a Critical diagnostic is
added and the exception is thrown again; anything else passes unchanged. -/
def VorbisComment.catchTruncated (startOffset : Nat) (r : ParseResult) : ParseResult :=
  match r.outcome with
  | .threw .TruncatedData =>
    ⟨{ r.tag with size := sizeSince r.stream startOffset }, r.stream,
      r.diag ++ [⟨.Critical, "Vorbis comment is truncated.", parseContext⟩],
      .threw .TruncatedData⟩
  | _ => r

/-- The function `VorbisComment::internalParse` for a `std::istream`: the `try` block
and its handler. -/
def VorbisComment.internalParse (parse : FieldParser) (tag : VorbisComment)
    (stream : IStream) (maxSize : Nat) (flags : VorbisCommentFlags) (diag : Diagnostics) :
    ParseResult :=
  let startOffset := stream.tellg
  VorbisComment.catchTruncated startOffset
    (VorbisComment.internalParseTry parse tag stream maxSize flags diag startOffset)

/-- Modelled from the spec: `VorbisCommentField::parse` (section 4.5 and the byte format
of section 6): a field is `LE32 fieldLen fieldBytes` with `fieldBytes` of the form
`KEY=VALUE`; the key runs up to the first `=`, the value is UTF-8 text. A declared
length exceeding the remaining maximum size is Critical and a `TruncatedDataException`
(the spec gives the level, not the wording of the two messages). -/
def VorbisCommentField.parse : FieldParser := fun stream maxSize diag =>
  match checkMaxSize maxSize 4 with
  | none =>
    ⟨.threw .TruncatedData, stream, maxSize,
      diag ++ [⟨.Critical, "Field expected.", "parsing Vorbis comment field"⟩]⟩
  | some maxSize1 =>
  match stream.read 4 with
  | none => ⟨.threw .IosFailure, stream, maxSize1, diag⟩
  | some (buff, stream1) =>
  let size := LE.toUInt32 buff
  if size ≤ maxSize1 then
    match stream1.read size with
    | none => ⟨.threw .IosFailure, stream1, maxSize1 - size, diag⟩
    | some (data, stream2) =>
    let id := data.takeWhile (fun c => c != 61)
    let value :=
      if id.length + 1 < size then TagValue.utf8 (data.drop (id.length + 1))
      else TagValue.empty
    ⟨.returned ⟨id, value⟩, stream2, maxSize1 - size, diag⟩
  else
    ⟨.threw .TruncatedData, stream1, maxSize1,
      diag ++ [⟨.Critical, "Field is truncated.", "parsing Vorbis comment field"⟩]⟩

/-! ## Making a Vorbis comment -/

/-- A seekable output stream: the content and the write position. -/
structure OStream where
  data : Bytes
  pos : Nat
deriving DecidableEq, Repr

/-- Writing bytes at the write position: they replace what is stored there and
extend the content at its end. -/
def OStream.write (s : OStream) (b : Bytes) : OStream :=
  ⟨s.data.take s.pos ++ b ++ s.data.drop (s.pos + b.length), s.pos + b.length⟩

/-- The call `stream.tellp()`. -/
def OStream.tellp (s : OStream) : Nat := s.pos

/-- The call `stream.seekp(offset)`. -/
def OStream.seekp (s : OStream) (offset : Nat) : OStream := { s with pos := offset }

/-- What a call of `VorbisCommentField::make(writer, flags, diag)` leaves behind: the
returned flag or the exception, the bytes it wrote at the write position and the
diagnostics. -/
structure FieldMakeResult where
  outcome : Outcome Bool
  written : Bytes
  diag : Diagnostics
deriving DecidableEq, Repr

/-- The behaviour of `VorbisCommentField::make`, defined in `vorbiscommentfield.cpp`,
which is not among the sources; `VorbisComment::make` takes it as an argument. -/
abbrev FieldMaker := VorbisCommentField → VorbisCommentFlags → Diagnostics → FieldMakeResult

/-- What a call of `VorbisComment::make` leaves behind. -/
structure MakeResult where
  stream : OStream
  diag : Diagnostics
  outcome : Outcome Unit
deriving DecidableEq, Repr

/-- What the field loop of `VorbisComment::make` leaves behind. -/
structure MakeFieldsResult where
  stream : OStream
  fieldsWritten : Nat
  diag : Diagnostics
  outcome : Outcome Unit
deriving DecidableEq, Repr

/-- The loop `for (auto i : fields())` of `VorbisComment::make`; `fieldsWritten` is a
`std::uint32_t`. -/
def VorbisComment.makeFields (fieldMake : FieldMaker) (flags : VorbisCommentFlags) :
    FieldMap → OStream → Nat → Diagnostics → MakeFieldsResult
  | [], stream, fieldsWritten, diag => ⟨stream, fieldsWritten, diag, .returned ()⟩
  | (_, field) :: rest, stream, fieldsWritten, diag =>
    if !field.value.isEmpty then
      let r := fieldMake field flags diag
      let stream1 := stream.write r.written
      match r.outcome with
      | .returned true =>
        VorbisComment.makeFields fieldMake flags rest stream1 ((fieldsWritten + 1) % 2 ^ 32) r.diag
      | .returned false =>
        VorbisComment.makeFields fieldMake flags rest stream1 fieldsWritten r.diag
      | .threw e =>
        if e.isFailure then
          VorbisComment.makeFields fieldMake flags rest stream1 fieldsWritten r.diag
        else ⟨stream1, fieldsWritten, r.diag, .threw e⟩
    else
      VorbisComment.makeFields fieldMake flags rest stream fieldsWritten diag

/-- The signature written by `VorbisComment::make`: `0x03` and `vorbis`. -/
def makeSignature : Bytes := [0x03, 0x76, 0x6F, 0x72, 0x62, 0x69, 0x73]

/-- The function `VorbisComment::make`. -/
def VorbisComment.make (fieldMake : FieldMaker) (tag : VorbisComment) (stream : OStream)
    (flags : VorbisCommentFlags) (diag : Diagnostics) : MakeResult :=
  -- prepare making
  let vendor : Bytes := (tag.vendor.toString).getD []
  let diag1 : Diagnostics :=
    match tag.vendor.toString with
    | some _ => diag
    | none =>
      diag ++ [⟨.Warning, "Can not convert the assigned vendor to string.",
        "making Vorbis comment"⟩]
  -- write signature
  let stream1 :=
    if !(VorbisCommentFlags.and flags VorbisCommentFlags.NoSignature) then
      stream.write makeSignature
    else stream
  -- write vendor
  let stream2 := (stream1.write (writeUInt32LE vendor.length)).write vendor
  -- write field count later
  let fieldCountOffset := stream2.tellp
  let stream3 := stream2.write (writeUInt32LE 0)
  -- write fields
  let r := VorbisComment.makeFields fieldMake flags tag.fields stream3 0 diag1
  match r.outcome with
  | .threw e => ⟨r.stream, r.diag, .threw e⟩
  | .returned _ =>
    -- write field count
    let framingByteOffset := r.stream.tellp
    let stream4 :=
      ((r.stream.seekp fieldCountOffset).write (writeUInt32LE r.fieldsWritten)).seekp
        framingByteOffset
    -- write framing byte
    let stream5 :=
      if !(VorbisCommentFlags.and flags VorbisCommentFlags.NoFramingByte) then
        stream4.write [0x01]
      else stream4
    ⟨stream5, r.diag, .returned ()⟩

/-- Modelled from the spec: `VorbisCommentField::make` (section 4.5 and the byte format
of section 6): a cover is skipped under `NoCovers`; a field whose value can not be
converted emits a Warning (the spec gives the level, not the wording) and fails;
otherwise `LE32 fieldLen` and `KEY=VALUE` are written. -/
def VorbisCommentField.make : FieldMaker := fun field flags diag =>
  if keyEquiv field.id VorbisCommentIds.cover
      && VorbisCommentFlags.and flags VorbisCommentFlags.NoCovers then
    ⟨.returned false, [], diag⟩
  else
    match field.value.toString with
    | none =>
      ⟨.threw .Failure, [],
        diag ++ [⟨.Warning, "Assigned value can not be converted appropriately.",
          "making Vorbis comment field"⟩]⟩
    | some valueString =>
      ⟨.returned true,
        writeUInt32LE (valueString.length + field.id.length + 1) ++ field.id ++ [61]
          ++ valueString, diag⟩

/-! ## ADTS streams -/

/-- Modelled from the spec: the values an `AdtsFrame` offers after `parseHeader`
(`adtsframe.h` is not among the sources): the MPEG-4 audio object type, the
sampling-frequency index and the channel configuration of the ADTS header. -/
structure AdtsFrame where
  mpeg4AudioObjectId : Nat
  mpeg4SamplingFrequencyIndex : Nat
  mpeg4ChannelConfig : Nat
deriving DecidableEq, Repr

/-- A static array of the program as `sizeof` and indexing see it: the entries and the
size of one entry in bytes. -/
structure StaticTable where
  entries : List Nat
  elemBytes : Nat
deriving DecidableEq, Repr

/-- The value of `sizeof(table)` for an array: the size in bytes. -/
def StaticTable.sizeof (t : StaticTable) : Nat := t.elemBytes * t.entries.length

/-- What `AdtsStream::internalParseHeader` uses and `adtsstream.cpp` does not define:
the array `mpeg4SamplingFrequencyTable`, `Mpeg4AudioObjectIds::idToMediaFormat`,
`Mpeg4ChannelConfigs::channelCount` and `AdtsFrame::parseHeader` (which reads from
the stream and returns the frame or throws). -/
structure AdtsCollaborators where
  mpeg4SamplingFrequencyTable : StaticTable
  idToMediaFormat : Nat → Nat
  channelCount : Nat → Nat
  parseHeader : IStream → Outcome AdtsFrame × IStream

/-- The members of an `AdtsStream` that `internalParseHeader` reads or writes; the
input stream is `none` when `m_istream` is null. -/
structure AdtsStream where
  istream : Option IStream
  startOffset : Nat
  size : Nat
  format : Nat
  channelConfig : Nat
  channelCount : Nat
  samplingFrequency : Nat
  firstFrame : AdtsFrame
deriving DecidableEq, Repr

/-- How `AdtsStream::internalParseHeader` ended: it returned, an exception left it, or
it read an array element outside the array (undefined behaviour in C++). -/
inductive HeaderOutcome where
  | returned
  | threw (e : Exn)
  | outOfBoundsRead (index : Nat)
deriving DecidableEq, Repr

/-- What a call of `AdtsStream::internalParseHeader` leaves behind. -/
structure HeaderResult where
  track : AdtsStream
  diag : Diagnostics
  outcome : HeaderOutcome
deriving DecidableEq, Repr

/-- The call `seekg(offset, ios_base::end)` with a negative offset `-back`; `none`
when the position would lie before the start of the stream. -/
def IStream.seekgEnd (s : IStream) (back : Nat) : Option IStream :=
  if back ≤ s.data.length then some { s with pos := s.data.length - back } else none

/-- The call `seekg(offset, ios_base::beg)`. -/
def IStream.seekgBeg (s : IStream) (offset : Nat) : IStream := { s with pos := offset }

/-- The call `BinaryReader::readUInt24BE`: three bytes, most significant first. -/
def IStream.readUInt24BE (s : IStream) : Option (Nat × IStream) :=
  match s.read 3 with
  | none => none
  | some (b, s1) => some ((b.getD 0 0 * 65536 + b.getD 1 0 * 256 + b.getD 2 0) % 2 ^ 24, s1)

/-- Subtraction of `std::uint64_t` values. -/
def sub64 (a b : Nat) : Nat := (a % 2 ^ 64 + 2 ^ 64 - b % 2 ^ 64) % 2 ^ 64

/-- Addition of `std::uint64_t` values. -/
def add64 (a b : Nat) : Nat := (a + b) % 2 ^ 64

/-- The function `AdtsStream::internalParseHeader`. The diagnostics are passed through:
the function marks the argument as unused. -/
def AdtsStream.internalParseHeader (env : AdtsCollaborators) (track : AdtsStream)
    (diag : Diagnostics) : HeaderResult :=
  match track.istream with
  | none => ⟨track, diag, .threw .NoDataFound⟩
  | some stream =>
  -- get size
  match stream.seekgEnd 128 with
  | none => ⟨track, diag, .threw .IosFailure⟩
  | some stream1 =>
  match stream1.readUInt24BE with
  | none => ⟨{ track with istream := some stream1 }, diag, .threw .IosFailure⟩
  | some (tagMark, stream2) =>
  let size :=
    if tagMark = 0x544147 then sub64 (sub64 stream2.tellg 3) track.startOffset
    else sub64 (add64 stream2.tellg 125) track.startOffset
  let stream3 := stream2.seekgBeg track.startOffset
  let track1 := { track with size := size, istream := some stream3 }
  -- parse frame header
  match env.parseHeader stream3 with
  | (.threw e, stream4) => ⟨{ track1 with istream := some stream4 }, diag, .threw e⟩
  | (.returned frame, stream4) =>
  let track2 := { track1 with istream := some stream4, firstFrame := frame }
  let track3 := { track2 with format := env.idToMediaFormat frame.mpeg4AudioObjectId }
  let track4 := { track3 with channelConfig := frame.mpeg4ChannelConfig }
  let track5 := { track4 with channelCount := env.channelCount track4.channelConfig }
  let sampleRateIndex := frame.mpeg4SamplingFrequencyIndex % 256
  if sampleRateIndex < env.mpeg4SamplingFrequencyTable.sizeof then
    match env.mpeg4SamplingFrequencyTable.entries.get? sampleRateIndex with
    | some frequency => ⟨{ track5 with samplingFrequency := frequency }, diag, .returned⟩
    | none => ⟨track5, diag, .outOfBoundsRead sampleRateIndex⟩
  else
    ⟨{ track5 with samplingFrequency := 0 }, diag, .returned⟩

/-- Modelled from the spec: `AdtsFrame::parseHeader` by the bit layout of section 6:
twelve sync bits and version/layer/protection in the first two bytes, then
profile (2 bits), sampling-frequency index (4 bits), private (1 bit) and channel
configuration (3 bits); the audio object type is the profile plus one. Seven
header bytes are read. -/
def AdtsFrame.parseHeader (stream : IStream) : Outcome AdtsFrame × IStream :=
  match stream.read 7 with
  | none => (.threw .IosFailure, stream)
  | some (b, stream1) =>
    (.returned
      { mpeg4AudioObjectId := b.getD 2 0 / 64 % 4 + 1
        mpeg4SamplingFrequencyIndex := b.getD 2 0 / 4 % 16
        mpeg4ChannelConfig := b.getD 2 0 % 2 * 4 + b.getD 3 0 / 64 % 4 },
      stream1)

/-- Modelled from the spec: the array `mpeg4SamplingFrequencyTable`, whose definition is
not among the sources: the "static table" of sample rates, here the thirteen
frequencies MPEG-4 assigns to the indices 0 to 12, stored as `std::uint32_t`. -/
def mpeg4SamplingFrequencyTable : StaticTable :=
  ⟨[96000, 88200, 64000, 48000, 44100, 32000, 24000, 22050, 16000, 12000, 11025, 8000, 7350], 4⟩

/-- Collaborators for concrete evaluations: the table above, the spec-modelled frame
header and identity stand-ins for the two lookups that do not matter here. -/
def sampleCollaborators : AdtsCollaborators :=
  ⟨mpeg4SamplingFrequencyTable, fun id => id, fun config => config, AdtsFrame.parseHeader⟩

/-! ## Known fields of a Vorbis comment -/

/-- The table `fieldMap` of `VorbisComment::internallyGetKnownField`, in the order of
its initializer list. -/
def VorbisComment.knownFieldMap : List (Bytes × KnownField) :=
  [ (VorbisCommentIds.album, .Album),
    (VorbisCommentIds.artist, .Artist),
    (VorbisCommentIds.comment, .Comment),
    (VorbisCommentIds.cover, .Cover),
    (VorbisCommentIds.date, .RecordDate),
    (VorbisCommentIds.year, .RecordDate),
    (VorbisCommentIds.title, .Title),
    (VorbisCommentIds.genre, .Genre),
    (VorbisCommentIds.trackNumber, .TrackPosition),
    (VorbisCommentIds.diskNumber, .DiskPosition),
    (VorbisCommentIds.partNumber, .PartNumber),
    (VorbisCommentIds.composer, .Composer),
    (VorbisCommentIds.encoder, .Encoder),
    (VorbisCommentIds.encoderSettings, .EncoderSettings),
    (VorbisCommentIds.description, .Description),
    (VorbisCommentIds.grouping, .Grouping),
    (VorbisCommentIds.label, .RecordLabel),
    (VorbisCommentIds.performer, .Performers),
    (VorbisCommentIds.lyricist, .Lyricist),
    (VorbisCommentIds.lyrics, .Lyrics),
    (VorbisCommentIds.albumArtist, .AlbumArtist) ]

/-- The function `VorbisComment::internallyGetKnownField`: `find` in the
`std::map<string, KnownField, CaseInsensitiveStringComparer>` built from the table.
The keys of the table are pairwise inequivalent, so the map holds every entry and
the entry found is the one whose key is equivalent to `id`. -/
def VorbisComment.internallyGetKnownField (id : Bytes) : KnownField :=
  match VorbisComment.knownFieldMap.find? (fun e => keyEquiv e.1 id) with
  | some e => e.2
  | none => .Invalid

/-- Modelled from the spec: `VorbisComment::setVendor` of `vorbiscomment.h`, which is not
among the sources: the vendor is replaced. -/
def VorbisComment.setVendor (tag : VorbisComment) (vendor : TagValue) : VorbisComment :=
  { tag with vendor := vendor }

/-- The function `VorbisComment::setValue`: the returned flag and the tag afterwards.
`FieldMapBasedTag::setValue` is defined in `fieldbasedtag.h`, which is not among the
sources, and is taken as the argument `baseSetValue`. -/
def VorbisComment.setValue
    (baseSetValue : VorbisComment → KnownField → TagValue → Bool × VorbisComment)
    (tag : VorbisComment) (field : KnownField) (value : TagValue) : Bool × VorbisComment :=
  match field with
  | .Vendor => (true, tag.setVendor value)
  | _ => baseSetValue tag field value

/-! ## MediaFileInfo -/

/-- The enum `ParsingStatus`. -/
inductive ParsingStatus where
  | NotParsedYet
  | Ok
  | NotSupported
  | CriticalFailure
deriving DecidableEq, Repr

/-- Modelled from the spec: the enum `ElementPosition` (`BeforeData`, `AfterData`, `Keep`);
its declaration is not among the sources. -/
inductive ElementPosition where
  | BeforeData
  | AfterData
  | Keep
deriving DecidableEq, Repr

/-- Modelled from the spec: what `MediaFileInfo` uses of an `AbstractContainer`
(`abstractcontainer.h` is not among the sources): the value of its `trackCount()`. -/
structure AbstractContainer where
  trackCount : Nat
deriving DecidableEq, Repr

/-- Modelled from the spec: an `AbstractTrack`, the parsed stream descriptor (format,
channel count, sampling frequency). -/
structure AbstractTrack where
  format : Nat
  channelCount : Nat
  samplingFrequency : Nat
deriving DecidableEq, Repr

/-- Modelled from the spec: an `Id3v1Tag`, by its bytes. -/
structure Id3v1Tag where
  data : Bytes
deriving DecidableEq, Repr

/-- Modelled from the spec: an `Id3v2Tag`, by its bytes. -/
structure Id3v2Tag where
  data : Bytes
deriving DecidableEq, Repr

/-- The data members of `MediaFileInfo`; a `std::unique_ptr` is an `Option`, `none` for
the null pointer. -/
structure MediaFileInfo where
  m_containerParsingStatus : ParsingStatus
  m_containerFormat : Nat
  m_containerOffset : Nat
  m_paddingSize : Nat
  m_actualExistingId3v1Tag : Bool
  m_actualId3v2TagOffsets : List Nat
  m_container : Option AbstractContainer
  m_tracksParsingStatus : ParsingStatus
  m_singleTrack : Option AbstractTrack
  m_tagsParsingStatus : ParsingStatus
  m_id3v1Tag : Option Id3v1Tag
  m_id3v2Tags : List Id3v2Tag
  m_chaptersParsingStatus : ParsingStatus
  m_attachmentsParsingStatus : ParsingStatus
  m_backupDirectory : Bytes
  m_saveFilePath : Bytes
  m_writingApplication : Bytes
  m_minPadding : Nat
  m_maxPadding : Nat
  m_preferredPadding : Nat
  m_tagPosition : ElementPosition
  m_indexPosition : ElementPosition
  m_forceFullParse : Bool
  m_forceRewrite : Bool
  m_forceTagPosition : Bool
  m_forceIndexPosition : Bool
deriving DecidableEq, Repr

namespace MediaFileInfo

/-- The function `MediaFileInfo::containerParsingStatus`. -/
def containerParsingStatus (s : MediaFileInfo) : ParsingStatus := s.m_containerParsingStatus
/-- The function `MediaFileInfo::tagsParsingStatus`. -/
def tagsParsingStatus (s : MediaFileInfo) : ParsingStatus := s.m_tagsParsingStatus
/-- The function `MediaFileInfo::tracksParsingStatus`. -/
def tracksParsingStatus (s : MediaFileInfo) : ParsingStatus := s.m_tracksParsingStatus
/-- The function `MediaFileInfo::chaptersParsingStatus`. -/
def chaptersParsingStatus (s : MediaFileInfo) : ParsingStatus := s.m_chaptersParsingStatus
/-- The function `MediaFileInfo::attachmentsParsingStatus`. -/
def attachmentsParsingStatus (s : MediaFileInfo) : ParsingStatus :=
  s.m_attachmentsParsingStatus

/-- The function `MediaFileInfo::trackCount`. -/
def trackCount (s : MediaFileInfo) : Nat :=
  if s.m_singleTrack.isSome then 1
  else
    match s.m_container with
    | some container => container.trackCount
    | none => 0

/-- The function `MediaFileInfo::backupDirectory`. -/
def backupDirectory (s : MediaFileInfo) : Bytes := s.m_backupDirectory
/-- The function `MediaFileInfo::setBackupDirectory`. -/
def setBackupDirectory (s : MediaFileInfo) (backupDirectory : Bytes) : MediaFileInfo :=
  { s with m_backupDirectory := backupDirectory }
/-- The function `MediaFileInfo::saveFilePath`. -/
def saveFilePath (s : MediaFileInfo) : Bytes := s.m_saveFilePath
/-- The function `MediaFileInfo::setSaveFilePath`. -/
def setSaveFilePath (s : MediaFileInfo) (saveFilePath : Bytes) : MediaFileInfo :=
  { s with m_saveFilePath := saveFilePath }
/-- The function `MediaFileInfo::writingApplication`. -/
def writingApplication (s : MediaFileInfo) : Bytes := s.m_writingApplication
/-- The function `MediaFileInfo::setWritingApplication`; both overloads assign the
string they are given. -/
def setWritingApplication (s : MediaFileInfo) (writingApplication : Bytes) : MediaFileInfo :=
  { s with m_writingApplication := writingApplication }
/-- The function `MediaFileInfo::isForcingFullParse`. -/
def isForcingFullParse (s : MediaFileInfo) : Bool := s.m_forceFullParse
/-- The function `MediaFileInfo::setForceFullParse`. -/
def setForceFullParse (s : MediaFileInfo) (forceFullParse : Bool) : MediaFileInfo :=
  { s with m_forceFullParse := forceFullParse }
/-- The function `MediaFileInfo::isForcingRewrite`. -/
def isForcingRewrite (s : MediaFileInfo) : Bool := s.m_forceRewrite
/-- The function `MediaFileInfo::setForceRewrite`. -/
def setForceRewrite (s : MediaFileInfo) (forceRewrite : Bool) : MediaFileInfo :=
  { s with m_forceRewrite := forceRewrite }
/-- The function `MediaFileInfo::minPadding`. -/
def minPadding (s : MediaFileInfo) : Nat := s.m_minPadding
/-- The function `MediaFileInfo::setMinPadding`. -/
def setMinPadding (s : MediaFileInfo) (minPadding : Nat) : MediaFileInfo :=
  { s with m_minPadding := minPadding }
/-- The function `MediaFileInfo::maxPadding`. -/
def maxPadding (s : MediaFileInfo) : Nat := s.m_maxPadding
/-- The function `MediaFileInfo::setMaxPadding`. -/
def setMaxPadding (s : MediaFileInfo) (maxPadding : Nat) : MediaFileInfo :=
  { s with m_maxPadding := maxPadding }
/-- The function `MediaFileInfo::preferredPadding`. -/
def preferredPadding (s : MediaFileInfo) : Nat := s.m_preferredPadding
/-- The function `MediaFileInfo::setPreferredPadding`. -/
def setPreferredPadding (s : MediaFileInfo) (preferredPadding : Nat) : MediaFileInfo :=
  { s with m_preferredPadding := preferredPadding }
/-- The function `MediaFileInfo::tagPosition`. -/
def tagPosition (s : MediaFileInfo) : ElementPosition := s.m_tagPosition
/-- The function `MediaFileInfo::setTagPosition`. -/
def setTagPosition (s : MediaFileInfo) (tagPosition : ElementPosition) : MediaFileInfo :=
  { s with m_tagPosition := tagPosition }
/-- The function `MediaFileInfo::forceTagPosition`. -/
def forceTagPosition (s : MediaFileInfo) : Bool := s.m_forceTagPosition
/-- The function `MediaFileInfo::setForceTagPosition`. -/
def setForceTagPosition (s : MediaFileInfo) (forceTagPosition : Bool) : MediaFileInfo :=
  { s with m_forceTagPosition := forceTagPosition }
/-- The function `MediaFileInfo::indexPosition`. -/
def indexPosition (s : MediaFileInfo) : ElementPosition := s.m_indexPosition
/-- The function `MediaFileInfo::setIndexPosition`. -/
def setIndexPosition (s : MediaFileInfo) (indexPosition : ElementPosition) : MediaFileInfo :=
  { s with m_indexPosition := indexPosition }
/-- The function `MediaFileInfo::forceIndexPosition`. -/
def forceIndexPosition (s : MediaFileInfo) : Bool := s.m_forceIndexPosition
/-- The function `MediaFileInfo::setForceIndexPosition`. -/
def setForceIndexPosition (s : MediaFileInfo) (forceIndexPosition : Bool) : MediaFileInfo :=
  { s with m_forceIndexPosition := forceIndexPosition }

end MediaFileInfo

/-! ## MatroskaContainer -/

/-- The non-static data members of a `MatroskaContainer`; element pointers and owned
objects are given by identifying numbers. -/
structure MatroskaContainer where
  m_maxIdLength : Nat
  m_maxSizeLength : Nat
  m_tracksElements : List Nat
  m_segmentInfoElements : List Nat
  m_tagsElements : List Nat
  m_chaptersElements : List Nat
  m_attachmentsElements : List Nat
  m_seekInfos : List Nat
  m_editionEntries : List Nat
  m_attachments : List Nat
  m_segmentCount : Nat
deriving DecidableEq, Repr

/-- The state of a program with Matroska containers: the static data member
`MatroskaContainer::m_maxFullParseSize`, which exists once, and the instances. -/
structure MatroskaProgram where
  m_maxFullParseSize : Nat
  containers : List MatroskaContainer
deriving DecidableEq, Repr

/-- The function `MatroskaContainer::maxIdLength`. -/
def MatroskaContainer.maxIdLength (c : MatroskaContainer) : Nat := c.m_maxIdLength
/-- The function `MatroskaContainer::maxSizeLength`. -/
def MatroskaContainer.maxSizeLength (c : MatroskaContainer) : Nat := c.m_maxSizeLength
/-- The function `MatroskaContainer::seekInfos`. -/
def MatroskaContainer.seekInfos (c : MatroskaContainer) : List Nat := c.m_seekInfos
/-- The function `MatroskaContainer::attachmentCount`. -/
def MatroskaContainer.attachmentCount (c : MatroskaContainer) : Nat := c.m_attachments.length
/-- The function `MatroskaContainer::segmentCount`. -/
def MatroskaContainer.segmentCount (c : MatroskaContainer) : Nat :=
  c.m_segmentInfoElements.length

/-- The static function `MatroskaContainer::maxFullParseSize`. -/
def MatroskaContainer.maxFullParseSize (p : MatroskaProgram) : Nat := p.m_maxFullParseSize

/-- The function `MatroskaContainer::setMaxFullParseSize`, a non-static member called on
the instance number `_self`; it assigns the static member. -/
def MatroskaContainer.setMaxFullParseSize (p : MatroskaProgram) (_self : Nat)
    (maxFullParseSize : Nat) : MatroskaProgram :=
  { p with m_maxFullParseSize := maxFullParseSize }

/-! ## Notions used in the statements -/

/-- The folded key of an identifier: the order of the field map compares these. -/
def ciKey (s : Bytes) : List Nat := s.map CaseInsensitiveCharComparer.toLower

/-- The ordering invariant of the field map: the entries are ordered by their keys. -/
def FieldMap.Sorted (m : FieldMap) : Prop :=
  m.Pairwise (fun x y => ciKey x.1 ≤ ciKey y.1)

/-- The signature step of `internalParse` when it passes: the stream and the remaining
maximum size behind it. Under `NoSignature` nothing is read; otherwise seven bytes
of the maximum size are used up, seven bytes are read and they pass the signature
test. `none` when the step does not pass. -/
def signatureStep (flags : VorbisCommentFlags) (stream : IStream) (maxSize : Nat) :
    Option (IStream × Nat) :=
  if VorbisCommentFlags.and flags VorbisCommentFlags.NoSignature then some (stream, maxSize)
  else if 7 ≤ maxSize then
    match stream.read 7 with
    | some (sig, stream1) => if signatureMatches sig 0 then some (stream1, maxSize - 7) else none
    | none => none
  else none

/-- The fields which the loop of `internalParse` parses successfully, in the order of
the input: the loop of `parseFields` with the parsed fields collected in a list
instead of being put into the map. -/
def VorbisComment.parsedFields (parse : FieldParser) :
    Nat → IStream → Nat → Diagnostics → List VorbisCommentField
  | 0, _, _, _ => []
  | n + 1, stream, maxSize, diag =>
    let r := parse stream maxSize diag
    match r.outcome with
    | .returned field => field :: VorbisComment.parsedFields parse n r.stream r.maxSize r.diag
    | .threw e =>
      if e = .TruncatedData then []
      else if e.isFailure then VorbisComment.parsedFields parse n r.stream r.maxSize r.diag
      else []

/-- The state in which the field loop of `internalParse` starts, when the parse gets
that far: the field count, the stream behind the field count and the remaining
maximum size. -/
def VorbisComment.fieldLoopStart (flags : VorbisCommentFlags) (stream : IStream)
    (maxSize : Nat) : Option (Nat × IStream × Nat) :=
  match signatureStep flags stream maxSize with
  | none => none
  | some (stream1, maxSize1) =>
  if 4 ≤ maxSize1 then
    match stream1.read 4 with
    | none => none
    | some (sig, stream2) =>
    if LE.toUInt32 sig ≤ maxSize1 - 4 then
      match stream2.read (LE.toUInt32 sig) with
      | none => none
      | some (_, stream3) =>
      if 4 ≤ maxSize1 - 4 - LE.toUInt32 sig then
        match stream3.read 4 with
        | none => none
        | some (sig2, stream4) =>
          some (LE.toUInt32 sig2, stream4, maxSize1 - 4 - LE.toUInt32 sig - 4)
      else none
    else none
  else none

/-- The fields of an input: those which the field loop of `internalParse` parses
successfully from it, in input order (none when the parse does not reach the loop). -/
def VorbisComment.inputFields (parse : FieldParser) (stream : IStream) (maxSize : Nat)
    (flags : VorbisCommentFlags) (diag : Diagnostics) : List VorbisCommentField :=
  match VorbisComment.fieldLoopStart flags stream maxSize with
  | none => []
  | some (n, stream1, maxSize1) => VorbisComment.parsedFields parse n stream1 maxSize1 diag

/-- The bytes of one field in a Vorbis comment block: `LE32 fieldLen` and `KEY=VALUE`,
for the identifier and the stored bytes of the value. -/
def serializeField (f : VorbisCommentField) : Bytes :=
  writeUInt32LE (f.value.data.length + f.id.length + 1) ++ f.id ++ [61] ++ f.value.data

/-- The bytes of the fields of a map, in the order of the map. -/
def serializeFields : FieldMap → Bytes
  | [] => []
  | e :: rest => serializeField e.2 ++ serializeFields rest

/-- The byte format of a Vorbis comment block (section 6 of the spec) for a vendor
string and a field map: `[0x03 "vorbis"]? LE32 vendorLen vendorBytes LE32 fieldCount
( LE32 fieldLen fieldBytes )^fieldCount [0x01]?`, the optional parts by the flags. -/
def commentBlock (flags : VorbisCommentFlags) (vendor : Bytes) (fields : FieldMap) : Bytes :=
  (if !(VorbisCommentFlags.and flags VorbisCommentFlags.NoSignature) then makeSignature else [])
    ++ writeUInt32LE vendor.length ++ vendor ++ writeUInt32LE fields.length
    ++ serializeFields fields
    ++ (if !(VorbisCommentFlags.and flags VorbisCommentFlags.NoFramingByte) then [0x01] else [])

/-- The twelve settings of a `MediaFileInfo`, as the getters return them. -/
def MediaFileInfo.settings (s : MediaFileInfo) :
    Bytes × Bytes × Bytes × Bool × Bool × Nat × Nat × Nat × ElementPosition × Bool ×
      ElementPosition × Bool :=
  (s.backupDirectory, s.saveFilePath, s.writingApplication, s.isForcingFullParse,
    s.isForcingRewrite, s.minPadding, s.maxPadding, s.preferredPadding, s.tagPosition,
    s.forceTagPosition, s.indexPosition, s.forceIndexPosition)

/-- The rest of a `MediaFileInfo`: the five parsing statuses, the container format,
offset and padding size, and the container, track and tag members. -/
def MediaFileInfo.parsedState (s : MediaFileInfo) :
    ParsingStatus × ParsingStatus × ParsingStatus × ParsingStatus × ParsingStatus ×
      Nat × Nat × Nat × Bool × List Nat × Option AbstractContainer × Option AbstractTrack ×
      Option Id3v1Tag × List Id3v2Tag :=
  (s.containerParsingStatus, s.tagsParsingStatus, s.tracksParsingStatus,
    s.chaptersParsingStatus, s.attachmentsParsingStatus, s.m_containerFormat,
    s.m_containerOffset, s.m_paddingSize, s.m_actualExistingId3v1Tag,
    s.m_actualId3v2TagOffsets, s.m_container, s.m_singleTrack, s.m_id3v1Tag, s.m_id3v2Tags)

/-- The string `vendor` of `VorbisComment::make`: the converted vendor, empty when the
conversion fails. -/
def VorbisComment.vendorString (tag : VorbisComment) : Bytes :=
  (tag.vendor.toString).getD []

/-- The diagnostics of `VorbisComment::make` in front of the field loop. -/
def VorbisComment.makeDiag (tag : VorbisComment) (diag : Diagnostics) : Diagnostics :=
  match tag.vendor.toString with
  | some _ => diag
  | none =>
    diag ++ [⟨.Warning, "Can not convert the assigned vendor to string.",
      "making Vorbis comment"⟩]

/-- The calls of `VorbisCommentField::make` in the loop of `VorbisComment::make`, by
what they leave behind, in the order of the map: a field with an empty value is not
made; the loop ends with a call that throws something which is not a `Failure`. -/
def VorbisComment.fieldMakeResults (fieldMake : FieldMaker) (flags : VorbisCommentFlags) :
    FieldMap → Diagnostics → List FieldMakeResult
  | [], _ => []
  | (_, field) :: rest, diag =>
    if !field.value.isEmpty then
      match (fieldMake field flags diag).outcome with
      | .threw e =>
        if e.isFailure then
          fieldMake field flags diag ::
            VorbisComment.fieldMakeResults fieldMake flags rest (fieldMake field flags diag).diag
        else [fieldMake field flags diag]
      | .returned _ =>
        fieldMake field flags diag ::
          VorbisComment.fieldMakeResults fieldMake flags rest (fieldMake field flags diag).diag
    else VorbisComment.fieldMakeResults fieldMake flags rest diag

/-- The number of calls of `VorbisCommentField::make` which returned true. -/
def madeCount (results : List FieldMakeResult) : Nat :=
  (results.filter (fun r => decide (r.outcome = .returned true))).length

/-- The bytes written by the calls of `VorbisCommentField::make`, in order. -/
def madeBytes : List FieldMakeResult → Bytes
  | [] => []
  | r :: rest => r.written ++ madeBytes rest

/-! ## Sample inputs -/

/-- An ADTS file of 145 bytes: a seven byte frame header with the given
sampling-frequency index, ten bytes of payload and 128 trailing bytes which start
with `TAG` when `id3v1` is set. -/
def sampleAdtsFile (index : Nat) (id3v1 : Bool) : Bytes :=
  [0xFF, 0xF1, 64 + index * 4, 0x80, 0, 0, 0] ++ List.replicate 10 0
    ++ (if id3v1 then ascii "TAG" else [0, 0, 0]) ++ List.replicate 125 0

/-- A track which has not been parsed yet, on the given file. -/
def sampleTrack (file : Bytes) : AdtsStream :=
  ⟨some ⟨file, 0⟩, 0, 0, 0, 0, 0, 0, ⟨0, 0, 0⟩⟩

/-- The Vorbis comment of scenario S3: signature, vendor `Lavf58`, one field
`YEAR=2021` and the framing byte. -/
def sampleComment : Bytes :=
  [0x03] ++ ascii "vorbis" ++ [6, 0, 0, 0] ++ ascii "Lavf58" ++ [1, 0, 0, 0] ++ [9, 0, 0, 0]
    ++ ascii "YEAR=2021" ++ [0x01]

/-- A Vorbis comment with the two fields `DATE=2020` and `YEAR=2021`. -/
def sampleCommentDateYear : Bytes :=
  [0x03] ++ ascii "vorbis" ++ [6, 0, 0, 0] ++ ascii "Lavf58" ++ [2, 0, 0, 0]
    ++ [9, 0, 0, 0] ++ ascii "DATE=2020" ++ [9, 0, 0, 0] ++ ascii "YEAR=2021" ++ [0x01]

/-- A small tag: vendor `Lavf58`, an album and a date. -/
def sampleTag : VorbisComment :=
  ⟨TagValue.utf8 (ascii "Lavf58"),
    [(ascii "ALBUM", ⟨ascii "ALBUM", TagValue.utf8 (ascii "x")⟩),
     (ascii "date", ⟨ascii "date", TagValue.utf8 (ascii "2020")⟩)], 0⟩

/-- A vendor string of 2^32 bytes, each the letter `A`. -/
@[irreducible] def hugeVendor : Bytes := List.replicate (2 ^ 32) 65

/-- A tag without fields whose vendor is the text `hugeVendor`. -/
def hugeVendorTag : VorbisComment := ⟨TagValue.utf8 hugeVendor, [], 0⟩

/-- A `MediaFileInfo` on which nothing has been parsed: every part `NotParsedYet`, no
container, no single track, no tags. -/
def sampleMediaFileInfo : MediaFileInfo :=
  { m_containerParsingStatus := .NotParsedYet
    m_containerFormat := 0
    m_containerOffset := 0
    m_paddingSize := 0
    m_actualExistingId3v1Tag := false
    m_actualId3v2TagOffsets := []
    m_container := none
    m_tracksParsingStatus := .NotParsedYet
    m_singleTrack := none
    m_tagsParsingStatus := .NotParsedYet
    m_id3v1Tag := none
    m_id3v2Tags := []
    m_chaptersParsingStatus := .NotParsedYet
    m_attachmentsParsingStatus := .NotParsedYet
    m_backupDirectory := []
    m_saveFilePath := []
    m_writingApplication := []
    m_minPadding := 0
    m_maxPadding := 0
    m_preferredPadding := 0
    m_tagPosition := .BeforeData
    m_indexPosition := .BeforeData
    m_forceFullParse := false
    m_forceRewrite := true
    m_forceTagPosition := true
    m_forceIndexPosition := true }

/-- A field parser for the samples: `VorbisCommentField.parse`, except that a field
without identifier is refused with a Critical diagnostic and an
`InvalidDataException`. -/
def sampleStrictFieldParser : FieldParser := fun stream maxSize diag =>
  let r := VorbisCommentField.parse stream maxSize diag
  match r.outcome with
  | .returned field =>
    if field.id.isEmpty then
      ⟨.threw .InvalidData, r.stream, r.maxSize,
        r.diag ++ [⟨.Critical, "The field ID is empty.", "parsing Vorbis comment field"⟩]⟩
    else r
  | .threw _ => r

/-- A Vorbis comment which declares two fields: `=x`, which has no identifier, and
`YEAR=2021`. -/
def sampleCommentEmptyId : Bytes :=
  [0x03] ++ ascii "vorbis" ++ [6, 0, 0, 0] ++ ascii "Lavf58" ++ [2, 0, 0, 0] ++ [2, 0, 0, 0]
    ++ ascii "=x" ++ [9, 0, 0, 0] ++ ascii "YEAR=2021" ++ [0x01]

/-- A Vorbis comment which declares two fields: `YEAR=2021` and a field of 200 bytes of
which only two are there. -/
def sampleCommentTruncated : Bytes :=
  [0x03] ++ ascii "vorbis" ++ [6, 0, 0, 0] ++ ascii "Lavf58" ++ [2, 0, 0, 0] ++ [9, 0, 0, 0]
    ++ ascii "YEAR=2021" ++ [200, 0, 0, 0] ++ ascii "AB"

/-- A Vorbis comment without signature of 2^32 + 7 bytes: a vendor of 2^32 - 1 bytes and
the field count 1, but no field. -/
def hugeTruncatedComment : Bytes :=
  [255, 255, 255, 255] ++ hugeVendor.tail ++ [1, 0, 0, 0]

/-- A Vorbis comment with the two fields `Year=2021` and `ALBUM=x`. -/
def sampleCommentYearCased : Bytes :=
  [0x03] ++ ascii "vorbis" ++ [6, 0, 0, 0] ++ ascii "Lavf58" ++ [2, 0, 0, 0] ++ [9, 0, 0, 0]
    ++ ascii "Year=2021" ++ [7, 0, 0, 0] ++ ascii "ALBUM=x" ++ [0x01]

/-- A field map of 2^32 entries, each the field `A=x`. -/
@[irreducible] def hugeFieldMap : FieldMap :=
  List.replicate (2 ^ 32) (ascii "A", ⟨ascii "A", TagValue.utf8 (ascii "x")⟩)

/-- A tag with the vendor `x` and the fields of `hugeFieldMap`. -/
def hugeFieldsTag : VorbisComment := ⟨TagValue.utf8 (ascii "x"), hugeFieldMap, 0⟩

/-- A tag with four fields: an album, a comment with an empty value, a cover and a
title whose value is binary data. -/
def sampleMixedTag : VorbisComment :=
  ⟨TagValue.utf8 (ascii "Lavf58"),
    [(ascii "ALBUM", ⟨ascii "ALBUM", TagValue.utf8 (ascii "x")⟩),
     (ascii "COMMENT", ⟨ascii "COMMENT", TagValue.empty⟩),
     (ascii "METADATA_BLOCK_PICTURE",
       ⟨ascii "METADATA_BLOCK_PICTURE", TagValue.utf8 (ascii "p")⟩),
     (ascii "TITLE", ⟨ascii "TITLE", ⟨.Binary, .Latin1, [1, 2]⟩⟩)], 0⟩

/-! ## ADTS: size, sampling frequency and diagnostics -/

theorem uint24_is_tag (a b c : Nat) (ha : a < 256) (hb : b < 256) (hc : c < 256) :
    (a * 65536 + b * 256 + c) % 2 ^ 24 = 0x544147 ↔ [a, b, c] = [0x54, 0x41, 0x47] := by
  constructor
  · intro h
    have : a = 84 ∧ b = 65 ∧ c = 71 := by omega
    simp [this]
  · intro h
    simp only [List.cons.injEq, and_true] at h
    obtain ⟨rfl, rfl, rfl⟩ := h
    norm_num

/-- C8: on a file of at least 128 bytes whose start offset leaves room for the last
128 bytes, `internalParseHeader` sets the size to `fileLen - 128 - startOffset` when
the three bytes at `fileLen - 128` are `TAG`, and to `fileLen - startOffset`
otherwise, whatever the frame header parse does afterwards. -/
theorem AdtsStream.size_after_internalParseHeader (env : AdtsCollaborators)
    (track : AdtsStream) (diag : Diagnostics) (file : Bytes) (pos : Nat)
    (hstream : track.istream = some ⟨file, pos⟩)
    (hbytes : ∀ b ∈ file, b < 256)
    (hlen : 128 ≤ file.length) (h64 : file.length < 2 ^ 64)
    (hstart : track.startOffset ≤ file.length - 128) :
    (AdtsStream.internalParseHeader env track diag).track.size =
      if (file.drop (file.length - 128)).take 3 = [0x54, 0x41, 0x47]
      then file.length - 128 - track.startOffset
      else file.length - track.startOffset := by
  have hl : ((file.drop (file.length - 128)).take 3).length = 3 := by
    simp only [List.length_take, List.length_drop]; omega
  obtain ⟨a, b, c, habc⟩ := List.length_eq_three.mp hl
  have hmem : ∀ x ∈ [a, b, c], x < 256 := by
    intro x hx
    rw [← habc] at hx
    exact hbytes x (List.mem_of_mem_drop (List.mem_of_mem_take hx))
  have ha := hmem a (by simp)
  have hb := hmem b (by simp)
  have hc := hmem c (by simp)
  have hread : IStream.readUInt24BE ⟨file, file.length - 128⟩ =
      some ((a * 65536 + b * 256 + c) % 2 ^ 24, ⟨file, file.length - 128 + 3⟩) := by
    have : file.length - 128 + 3 ≤ file.length := by omega
    simp [IStream.readUInt24BE, IStream.read, this, habc]
  have hsize : (if (a * 65536 + b * 256 + c) % 2 ^ 24 = 0x544147
        then sub64 (sub64 (IStream.tellg ⟨file, file.length - 128 + 3⟩) 3) track.startOffset
        else sub64 (add64 (IStream.tellg ⟨file, file.length - 128 + 3⟩) 125) track.startOffset) =
      if (file.drop (file.length - 128)).take 3 = [0x54, 0x41, 0x47]
      then file.length - 128 - track.startOffset
      else file.length - track.startOffset := by
    rw [habc]
    simp only [uint24_is_tag a b c ha hb hc]
    simp only [sub64, add64, IStream.tellg]
    split <;> omega
  unfold AdtsStream.internalParseHeader
  simp only [hstream, IStream.seekgEnd, hlen, if_true, hread]
  rw [← hsize]
  cases hp : env.parseHeader (IStream.seekgBeg ⟨file, file.length - 128 + 3⟩ track.startOffset) with
  | mk o s4 =>
    cases o with
    | threw e => simp
    | returned frame =>
      simp only
      split
      · split <;> simp
      · simp

set_option maxRecDepth 100000 in
/-- Witness for C8: the sample file with an ID3v1 trailer has 145 bytes, so the size
found is 145 - 128 - 0 = 17. -/
theorem AdtsStream.size_after_internalParseHeader_witness :
    (sampleAdtsFile 4 true).length = 145 ∧
    (AdtsStream.internalParseHeader sampleCollaborators (sampleTrack (sampleAdtsFile 4 true))
        []).track.size =
      if ((sampleAdtsFile 4 true).drop ((sampleAdtsFile 4 true).length - 128)).take 3
          = [0x54, 0x41, 0x47]
      then (sampleAdtsFile 4 true).length - 128 - (sampleTrack (sampleAdtsFile 4 true)).startOffset
      else (sampleAdtsFile 4 true).length - (sampleTrack (sampleAdtsFile 4 true)).startOffset :=
  ⟨by decide,
    AdtsStream.size_after_internalParseHeader sampleCollaborators
      (sampleTrack (sampleAdtsFile 4 true)) [] (sampleAdtsFile 4 true) 0 rfl (by decide)
      (by decide) (by decide) (by decide)⟩

/-- The guard of the table lookup lets every index below `sizeof(table)` through. When
the index is a valid element index the sampling frequency is that entry. -/
theorem AdtsStream.samplingFrequency_of_valid_index (env : AdtsCollaborators)
    (track : AdtsStream) (diag : Diagnostics) (stream stream1 stream4 : IStream) (tagMark : Nat)
    (frame : AdtsFrame) (frequency : Nat)
    (hstream : track.istream = some stream)
    (hseek : stream.seekgEnd 128 = some stream1)
    (hread : stream1.readUInt24BE = some (tagMark, (⟨stream1.data, stream1.pos + 3⟩ : IStream)))
    (hframe : env.parseHeader (IStream.seekgBeg ⟨stream1.data, stream1.pos + 3⟩ track.startOffset)
      = (.returned frame, stream4))
    (helem : 1 ≤ env.mpeg4SamplingFrequencyTable.elemBytes)
    (hindex : frame.mpeg4SamplingFrequencyIndex < 16)
    (hentry : env.mpeg4SamplingFrequencyTable.entries.get? frame.mpeg4SamplingFrequencyIndex
      = some frequency) :
    (AdtsStream.internalParseHeader env track diag).outcome = .returned ∧
    (AdtsStream.internalParseHeader env track diag).track.samplingFrequency = frequency := by
  have hmod : frame.mpeg4SamplingFrequencyIndex % 256 = frame.mpeg4SamplingFrequencyIndex :=
    Nat.mod_eq_of_lt (by omega)
  have hlt : frame.mpeg4SamplingFrequencyIndex < env.mpeg4SamplingFrequencyTable.entries.length := by
    rcases List.get?_eq_some.mp hentry with ⟨h, _⟩
    exact h
  have hguard : frame.mpeg4SamplingFrequencyIndex < env.mpeg4SamplingFrequencyTable.sizeof := by
    unfold StaticTable.sizeof
    calc frame.mpeg4SamplingFrequencyIndex
        < env.mpeg4SamplingFrequencyTable.entries.length := hlt
      _ = 1 * env.mpeg4SamplingFrequencyTable.entries.length := (Nat.one_mul _).symm
      _ ≤ _ := Nat.mul_le_mul_right _ helem
  unfold AdtsStream.internalParseHeader
  simp only [hstream, hseek, hread, hframe, hmod, hguard, if_true, hentry, and_self]

/-- The guard compares the index with the size of the table in bytes, so an index from
the number of entries up to `sizeof` passes it and the element read lies outside
the array. -/
theorem AdtsStream.index_between_length_and_sizeof (env : AdtsCollaborators)
    (track : AdtsStream) (diag : Diagnostics) (stream stream1 stream4 : IStream) (tagMark : Nat)
    (frame : AdtsFrame)
    (hstream : track.istream = some stream)
    (hseek : stream.seekgEnd 128 = some stream1)
    (hread : stream1.readUInt24BE = some (tagMark, (⟨stream1.data, stream1.pos + 3⟩ : IStream)))
    (hframe : env.parseHeader (IStream.seekgBeg ⟨stream1.data, stream1.pos + 3⟩ track.startOffset)
      = (.returned frame, stream4))
    (hindex : frame.mpeg4SamplingFrequencyIndex < 16)
    (hout : env.mpeg4SamplingFrequencyTable.entries.length ≤ frame.mpeg4SamplingFrequencyIndex)
    (hguard : frame.mpeg4SamplingFrequencyIndex < env.mpeg4SamplingFrequencyTable.sizeof) :
    (AdtsStream.internalParseHeader env track diag).outcome
      = .outOfBoundsRead frame.mpeg4SamplingFrequencyIndex := by
  have hmod : frame.mpeg4SamplingFrequencyIndex % 256 = frame.mpeg4SamplingFrequencyIndex :=
    Nat.mod_eq_of_lt (by omega)
  have hnone : env.mpeg4SamplingFrequencyTable.entries.get? frame.mpeg4SamplingFrequencyIndex
      = none := List.get?_eq_none.mpr hout
  unfold AdtsStream.internalParseHeader
  simp only [hstream, hseek, hread, hframe, hmod, hguard, if_true, hnone]

set_option maxRecDepth 100000 in
/-- C9: with the table of thirteen 32-bit entries, a first frame whose
sampling-frequency index is 13 passes the guard (13 < 52 = `sizeof`) and the entry
read lies outside the table; the sampling frequency is not set to 0. -/
theorem AdtsStream.index_13_reads_outside_table :
    mpeg4SamplingFrequencyTable.entries.length = 13 ∧
    mpeg4SamplingFrequencyTable.sizeof = 52 ∧
    (AdtsStream.internalParseHeader sampleCollaborators
        (sampleTrack (sampleAdtsFile 13 false)) []).track.firstFrame.mpeg4SamplingFrequencyIndex
      = 13 ∧
    (AdtsStream.internalParseHeader sampleCollaborators
        (sampleTrack (sampleAdtsFile 13 false)) []).outcome = .outOfBoundsRead 13 := by
  decide

set_option maxRecDepth 100000 in
/-- C10 fails as stated: the first frame of the sample file has the sampling-frequency
index 13, outside the table of thirteen entries, and the diagnostics after the call
hold no entry at all, so no Warning. -/
theorem AdtsStream.no_warning_for_index_13 :
    mpeg4SamplingFrequencyTable.entries.length ≤
      (AdtsStream.internalParseHeader sampleCollaborators
        (sampleTrack (sampleAdtsFile 13 false)) []).track.firstFrame.mpeg4SamplingFrequencyIndex ∧
    ¬ ∃ d ∈ (AdtsStream.internalParseHeader sampleCollaborators
        (sampleTrack (sampleAdtsFile 13 false)) []).diag, d.level = DiagLevel.Warning := by
  decide

/-- C10 as amended: `internalParseHeader` never appends a diagnostic; the diagnostics it
was given come back unchanged for every track, whatever the sampling-frequency index
of the first frame is. -/
theorem AdtsStream.internalParseHeader_diag_unchanged (env : AdtsCollaborators)
    (track : AdtsStream) (diag : Diagnostics) :
    (AdtsStream.internalParseHeader env track diag).diag = diag := by
  unfold AdtsStream.internalParseHeader
  cases track.istream with
  | none => rfl
  | some stream =>
    dsimp only
    cases stream.seekgEnd 128 with
    | none => rfl
    | some stream1 =>
      dsimp only
      cases stream1.readUInt24BE with
      | none => rfl
      | some p =>
        obtain ⟨tagMark, stream2⟩ := p
        dsimp only
        split
        · rfl
        · split
          · split <;> rfl
          · rfl

/-! ## Vorbis comments: the signature -/

theorem land_high_mask (x : Nat) (hx : x < 2 ^ 64) :
    x &&& 0xffffffffffffff00 = x / 256 * 256 := by
  apply Nat.eq_of_testBit_eq
  intro i
  have hm : (0xffffffffffffff00 : Nat) = 2 ^ 8 * (2 ^ 56 - 1) := by norm_num
  have hd : x / 256 * 256 = 2 ^ 8 * (x >>> 8) := by
    rw [Nat.mul_comm, Nat.shiftRight_eq_div_pow]; norm_num
  rw [Nat.testBit_and, hm, hd, Nat.testBit_mul_pow_two, Nat.testBit_mul_pow_two,
    Nat.testBit_two_pow_sub_one, Nat.testBit_shiftRight]
  by_cases h8 : 8 ≤ i
  · have e : 8 + (i - 8) = i := by omega
    by_cases h64 : i < 64
    · have : i - 8 < 56 := by omega
      simp [h8, this, e]
    · have : ¬ (i - 8 < 56) := by omega
      have hb : x.testBit i = false :=
        Nat.testBit_lt_two_pow (lt_of_lt_of_le hx (Nat.pow_le_pow_right (by norm_num) (by omega)))
      simp [h8, this, e, hb]
  · simp [h8]

theorem signatureMatches_iff (sig7 : Bytes) (last : Nat) (hlen : sig7.length = 7)
    (hbytes : ∀ b ∈ sig7, b < 256) (hlast : last < 256) :
    signatureMatches sig7 last = true ↔ sig7 = makeSignature := by
  match sig7, hlen with
  | [a, b, c, d, e, f, g], _ =>
    have ha := hbytes a (by simp)
    have hb := hbytes b (by simp)
    have hc := hbytes c (by simp)
    have hd := hbytes d (by simp)
    have he := hbytes e (by simp)
    have hf := hbytes f (by simp)
    have hg := hbytes g (by simp)
    have hv : BE.toUInt64 ([a, b, c, d, e, f, g] ++ [last]) =
        (a * 2 ^ 48 + b * 2 ^ 40 + c * 2 ^ 32 + d * 2 ^ 24 + e * 2 ^ 16 + f * 2 ^ 8 + g) * 256
          + last := by
      simp only [BE.toUInt64, List.cons_append, List.nil_append, List.foldl_cons, List.foldl_nil]
      omega
    unfold signatureMatches
    rw [hv, land_high_mask _ (by omega)]
    simp only [makeSignature, beq_iff_eq, List.cons.injEq, and_true]
    constructor
    · intro h; omega
    · rintro ⟨rfl, rfl, rfl, rfl, rfl, rfl, rfl⟩
      omega

theorem VorbisComment.internalParse_with_signature (parse : FieldParser) (tag : VorbisComment)
    (stream : IStream) (maxSize : Nat) (flags : VorbisCommentFlags) (diag : Diagnostics)
    (sig : Bytes) (stream1 : IStream)
    (hflag : VorbisCommentFlags.and flags VorbisCommentFlags.NoSignature = false)
    (hmax : 7 ≤ maxSize) (hread : stream.read 7 = some (sig, stream1)) :
    VorbisComment.internalParse parse tag stream maxSize flags diag =
      if signatureMatches sig 0 then
        VorbisComment.catchTruncated stream.tellg
          (VorbisComment.parseAfterSignature parse tag stream1 (maxSize - 7) flags diag stream.tellg)
      else
        ⟨tag, stream1, diag ++ [⟨.Critical, "Signature is invalid.", parseContext⟩],
          .threw .InvalidData⟩ := by
  have hc : checkMaxSize maxSize 7 = some (maxSize - 7) := by
    simp [checkMaxSize, Nat.not_lt.mpr hmax]
  unfold VorbisComment.internalParse VorbisComment.internalParseTry
  simp only [hflag, hc, hread, Bool.false_eq_true, if_false]
  cases signatureMatches sig 0 with
  | true => simp only [if_true]
  | false => simp only [Bool.false_eq_true, if_false]; rfl

theorem VorbisComment.internalParse_without_signature (parse : FieldParser) (tag : VorbisComment)
    (stream : IStream) (maxSize : Nat) (flags : VorbisCommentFlags) (diag : Diagnostics)
    (hflag : VorbisCommentFlags.and flags VorbisCommentFlags.NoSignature = true) :
    VorbisComment.internalParse parse tag stream maxSize flags diag =
      VorbisComment.catchTruncated stream.tellg
        (VorbisComment.parseAfterSignature parse tag stream maxSize flags diag stream.tellg) := by
  unfold VorbisComment.internalParse VorbisComment.internalParseTry
  simp only [hflag, if_true]

theorem VorbisComment.internalParse_of_signatureStep (parse : FieldParser) (tag : VorbisComment)
    (stream : IStream) (maxSize : Nat) (flags : VorbisCommentFlags) (diag : Diagnostics)
    (stream1 : IStream) (maxSize1 : Nat)
    (hsig : signatureStep flags stream maxSize = some (stream1, maxSize1)) :
    VorbisComment.internalParse parse tag stream maxSize flags diag =
      VorbisComment.catchTruncated stream.tellg
        (VorbisComment.parseAfterSignature parse tag stream1 maxSize1 flags diag stream.tellg) := by
  unfold signatureStep at hsig
  cases hflag : VorbisCommentFlags.and flags VorbisCommentFlags.NoSignature with
  | true =>
    simp only [hflag, if_true, Option.some.injEq, Prod.mk.injEq] at hsig
    rw [← hsig.1, ← hsig.2]
    exact VorbisComment.internalParse_without_signature parse tag stream maxSize flags diag hflag
  | false =>
    simp only [hflag, Bool.false_eq_true, if_false] at hsig
    split at hsig
    · next hmax =>
      cases hread : stream.read 7 with
      | none => simp [hread] at hsig
      | some p =>
        obtain ⟨sig, s1⟩ := p
        simp only [hread] at hsig
        split at hsig
        · next hmatch =>
          simp only [Option.some.injEq, Prod.mk.injEq] at hsig
          rw [VorbisComment.internalParse_with_signature parse tag stream maxSize flags diag sig s1
            hflag hmax hread, hmatch, ← hsig.1, ← hsig.2]
          rfl
        · simp at hsig
    · simp at hsig

theorem VorbisComment.catchTruncated_outcome (startOffset : Nat) (r : ParseResult) :
    (VorbisComment.catchTruncated startOffset r).outcome = r.outcome := by
  unfold VorbisComment.catchTruncated
  split
  · next h => simp [h]
  · rfl

theorem VorbisComment.parseFields_threw (parse : FieldParser) :
    ∀ (n : Nat) (tag : VorbisComment) (stream : IStream) (maxSize : Nat) (diag : Diagnostics)
      (e : Exn),
      (VorbisComment.parseFields parse n tag stream maxSize diag).outcome = .threw e →
      e = .TruncatedData ∨ e.isFailure = false := by
  intro n
  induction n with
  | zero => intro tag stream maxSize diag e h; simp [VorbisComment.parseFields] at h
  | succ n ih =>
    intro tag stream maxSize diag e h
    unfold VorbisComment.parseFields at h
    dsimp only at h
    split at h
    · exact ih _ _ _ _ e h
    · next e1 _ =>
      split at h
      · simp only [Outcome.threw.injEq] at h
        exact Or.inl h.symm
      · split at h
        · exact ih _ _ _ _ e h
        · next hf =>
          simp only [Outcome.threw.injEq] at h
          subst h
          right
          simpa using hf

theorem VorbisComment.parseAfterSignature_threw (parse : FieldParser) (tag : VorbisComment)
    (stream : IStream) (maxSize : Nat) (flags : VorbisCommentFlags) (diag : Diagnostics)
    (startOffset : Nat) (e : Exn)
    (h : (VorbisComment.parseAfterSignature parse tag stream maxSize flags diag startOffset).outcome
      = .threw e) :
    e = .TruncatedData ∨ e.isFailure = false := by
  unfold VorbisComment.parseAfterSignature at h
  cases hc : checkMaxSize maxSize 4 with
  | none =>
    simp only [hc, Outcome.threw.injEq] at h
    exact Or.inl h.symm
  | some maxSize1 =>
    cases hr : stream.read 4 with
    | none =>
      simp only [hc, hr, Outcome.threw.injEq] at h
      exact Or.inr (h ▸ rfl)
    | some p =>
      obtain ⟨sig, stream1⟩ := p
      simp only [hc, hr] at h
      split at h
      · cases hv : stream1.read (LE.toUInt32 sig) with
        | none =>
          simp only [hv, Outcome.threw.injEq] at h
          exact Or.inr (h ▸ rfl)
        | some q =>
          obtain ⟨buff, stream2⟩ := q
          simp only [hv] at h
          cases hc2 : checkMaxSize (maxSize1 - LE.toUInt32 sig) 4 with
          | none =>
            simp only [hc2, Outcome.threw.injEq] at h
            exact Or.inl h.symm
          | some maxSize3 =>
            cases hr2 : stream2.read 4 with
            | none =>
              simp only [hc2, hr2, Outcome.threw.injEq] at h
              exact Or.inr (h ▸ rfl)
            | some q2 =>
              obtain ⟨sig2, stream3⟩ := q2
              simp only [hc2, hr2] at h
              split at h
              · next e1 he1 =>
                simp only [Outcome.threw.injEq] at h
                subst h
                exact VorbisComment.parseFields_threw parse _ _ _ _ _ _ he1
              · simp at h
      · simp only [Outcome.threw.injEq] at h
        exact Or.inl h.symm

/-- C5 fails as stated: with the first byte `0x04` in front of `vorbis` the parse of
the otherwise well-formed sample comment ends with `InvalidDataException` and the
Critical diagnostic "Signature is invalid."; the vendor is not read. -/
theorem VorbisComment.first_byte_04_rejected :
    VorbisComment.internalParse VorbisCommentField.parse VorbisComment.fresh
        ⟨0x04 :: sampleComment.tail, 0⟩ 35 VorbisCommentFlags.None [] =
      ⟨VorbisComment.fresh, ⟨0x04 :: sampleComment.tail, 7⟩,
        [⟨.Critical, "Signature is invalid.", parseContext⟩], .threw .InvalidData⟩ := by
  decide

/-- C5 as amended: when `NoSignature` is not set and seven bytes `b`, `vorbis` are read,
the signature is accepted exactly for `b = 0x03`: then parsing continues with the
vendor string behind the signature; for every other first byte, `0x04` and `0x05`
included, the parse fails with "Signature is invalid.". -/
theorem VorbisComment.signature_first_byte (parse : FieldParser) (tag : VorbisComment)
    (stream : IStream) (maxSize : Nat) (flags : VorbisCommentFlags) (diag : Diagnostics)
    (b : Nat) (stream1 : IStream)
    (hflag : VorbisCommentFlags.and flags VorbisCommentFlags.NoSignature = false)
    (hmax : 7 ≤ maxSize) (hb : b < 256)
    (hread : stream.read 7 = some (b :: ascii "vorbis", stream1)) :
    (b = 0x03 →
      VorbisComment.internalParse parse tag stream maxSize flags diag =
        VorbisComment.catchTruncated stream.tellg
          (VorbisComment.parseAfterSignature parse tag stream1 (maxSize - 7) flags diag
            stream.tellg)) ∧
    (b ≠ 0x03 →
      VorbisComment.internalParse parse tag stream maxSize flags diag =
        ⟨tag, stream1, diag ++ [⟨.Critical, "Signature is invalid.", parseContext⟩],
          .threw .InvalidData⟩) := by
  have hrest : ∀ x ∈ ascii "vorbis", x < 256 := by decide
  have hiff := signatureMatches_iff (b :: ascii "vorbis") 0 rfl
    (by
      intro x hx
      rcases List.mem_cons.mp hx with h | h
      · exact h ▸ hb
      · exact hrest x h)
    (by decide)
  rw [VorbisComment.internalParse_with_signature parse tag stream maxSize flags diag _ stream1
    hflag hmax hread]
  constructor
  · intro h3
    have : signatureMatches (b :: ascii "vorbis") 0 = true := hiff.mpr (by subst h3; decide)
    simp only [this, if_true]
  · intro h3
    have : signatureMatches (b :: ascii "vorbis") 0 = false := by
      cases hm : signatureMatches (b :: ascii "vorbis") 0 with
      | false => rfl
      | true =>
        have := hiff.mp hm
        simp only [makeSignature, List.cons.injEq] at this
        exact absurd this.1 h3
    simp only [this, Bool.false_eq_true, if_false]

/-- Witness for C5 as amended, on the sample comment and on the same bytes with the
first byte `0x05`. -/
theorem VorbisComment.signature_first_byte_witness :
    VorbisComment.internalParse VorbisCommentField.parse VorbisComment.fresh
        ⟨sampleComment, 0⟩ 35 VorbisCommentFlags.None [] =
      VorbisComment.catchTruncated 0
        (VorbisComment.parseAfterSignature VorbisCommentField.parse VorbisComment.fresh
          ⟨sampleComment, 7⟩ 28 VorbisCommentFlags.None [] 0) ∧
    VorbisComment.internalParse VorbisCommentField.parse VorbisComment.fresh
        ⟨0x05 :: sampleComment.tail, 0⟩ 35 VorbisCommentFlags.None [] =
      ⟨VorbisComment.fresh, ⟨0x05 :: sampleComment.tail, 7⟩,
        [⟨.Critical, "Signature is invalid.", parseContext⟩], .threw .InvalidData⟩ :=
  ⟨(VorbisComment.signature_first_byte VorbisCommentField.parse VorbisComment.fresh
      ⟨sampleComment, 0⟩ 35 VorbisCommentFlags.None [] 0x03 ⟨sampleComment, 7⟩
      (by decide) (by decide) (by decide) (by decide)).1 rfl,
   (VorbisComment.signature_first_byte VorbisCommentField.parse VorbisComment.fresh
      ⟨0x05 :: sampleComment.tail, 0⟩ 35 VorbisCommentFlags.None [] 0x05
      ⟨0x05 :: sampleComment.tail, 7⟩
      (by decide) (by decide) (by decide) (by decide)).2 (by decide)⟩

/-- C6: when `NoSignature` is not set, `maxSize >= 7` and the seven bytes read are not
`0x03 vorbis`, the parse ends with `InvalidDataException`; the tag (vendor, field
map, size) is unchanged and exactly one diagnostic, the Critical "Signature is
invalid.", is appended. When `NoSignature` is set, the parse goes on with the vendor
on the stream as given, with the whole maximum size, and never ends with
`InvalidDataException`. -/
theorem VorbisComment.invalid_signature (parse : FieldParser) (tag : VorbisComment)
    (stream : IStream) (maxSize : Nat) (flags : VorbisCommentFlags) (diag : Diagnostics) :
    (VorbisCommentFlags.and flags VorbisCommentFlags.NoSignature = false → 7 ≤ maxSize →
      ∀ (sig : Bytes) (stream1 : IStream), stream.read 7 = some (sig, stream1) →
        (∀ b ∈ sig, b < 256) → sig ≠ makeSignature →
        VorbisComment.internalParse parse tag stream maxSize flags diag =
          ⟨tag, stream1, diag ++ [⟨.Critical, "Signature is invalid.", parseContext⟩],
            .threw .InvalidData⟩) ∧
    (VorbisCommentFlags.and flags VorbisCommentFlags.NoSignature = true →
      VorbisComment.internalParse parse tag stream maxSize flags diag =
          VorbisComment.catchTruncated stream.tellg
            (VorbisComment.parseAfterSignature parse tag stream maxSize flags diag stream.tellg) ∧
        (VorbisComment.internalParse parse tag stream maxSize flags diag).outcome
          ≠ .threw .InvalidData) := by
  constructor
  · intro hflag hmax sig stream1 hread hbytes hne
    have hlen : sig.length = 7 := by
      unfold IStream.read at hread
      split at hread
      · simp only [Option.some.injEq, Prod.mk.injEq] at hread
        rw [← hread.1]
        simp only [List.length_take, List.length_drop]
        omega
      · simp at hread
    have hm : signatureMatches sig 0 = false := by
      cases hm : signatureMatches sig 0 with
      | false => rfl
      | true => exact absurd ((signatureMatches_iff sig 0 hlen hbytes (by decide)).mp hm) hne
    rw [VorbisComment.internalParse_with_signature parse tag stream maxSize flags diag sig stream1
      hflag hmax hread]
    simp only [hm, Bool.false_eq_true, if_false]
  · intro hflag
    have heq := VorbisComment.internalParse_without_signature parse tag stream maxSize flags diag
      hflag
    refine ⟨heq, ?_⟩
    rw [heq, VorbisComment.catchTruncated_outcome]
    intro h
    rcases VorbisComment.parseAfterSignature_threw parse tag stream maxSize flags diag _ _ h with
      h1 | h1
    · exact absurd h1 (by decide)
    · exact absurd h1 (by decide)

/-- Witness for C6: the sample comment with its `v` replaced, parsed with the
signature, and the sample comment without its signature parsed under `NoSignature`. -/
theorem VorbisComment.invalid_signature_witness :
    VorbisComment.internalParse VorbisCommentField.parse VorbisComment.fresh
        ⟨0x03 :: 0x56 :: (sampleComment.drop 2), 0⟩ 35 VorbisCommentFlags.None [] =
      ⟨VorbisComment.fresh, ⟨0x03 :: 0x56 :: (sampleComment.drop 2), 7⟩,
        [⟨.Critical, "Signature is invalid.", parseContext⟩], .threw .InvalidData⟩ ∧
    (VorbisComment.internalParse VorbisCommentField.parse VorbisComment.fresh
        ⟨sampleComment.drop 7, 0⟩ 28 VorbisCommentFlags.NoSignature []).outcome
      ≠ .threw .InvalidData :=
  ⟨(VorbisComment.invalid_signature VorbisCommentField.parse VorbisComment.fresh
      ⟨0x03 :: 0x56 :: (sampleComment.drop 2), 0⟩ 35 VorbisCommentFlags.None []).1
      (by decide) (by decide) (0x03 :: 0x56 :: ((sampleComment.drop 2).take 5))
      ⟨0x03 :: 0x56 :: (sampleComment.drop 2), 7⟩ (by decide) (by decide) (by decide),
   ((VorbisComment.invalid_signature VorbisCommentField.parse VorbisComment.fresh
      ⟨sampleComment.drop 7, 0⟩ 28 VorbisCommentFlags.NoSignature []).2 (by decide)).2⟩

/-! ## Vorbis comments: the vendor -/

theorem VorbisComment.parseAfterSignature_vendor_too_long (parse : FieldParser)
    (tag : VorbisComment) (stream : IStream) (maxSize : Nat) (flags : VorbisCommentFlags)
    (diag : Diagnostics) (startOffset : Nat) (lenBytes : Bytes) (stream1 : IStream)
    (hmax : 4 ≤ maxSize) (hread : stream.read 4 = some (lenBytes, stream1))
    (hlong : maxSize - 4 < LE.toUInt32 lenBytes) :
    VorbisComment.parseAfterSignature parse tag stream maxSize flags diag startOffset =
      ⟨tag, stream1, diag ++ [⟨.Critical, "Vendor information is truncated.", parseContext⟩],
        .threw .TruncatedData⟩ := by
  have hc : checkMaxSize maxSize 4 = some (maxSize - 4) := by
    simp [checkMaxSize, Nat.not_lt.mpr hmax]
  unfold VorbisComment.parseAfterSignature
  simp only [hc, hread, Nat.not_le.mpr hlong, if_false]

theorem VorbisComment.parseAfterSignature_vendor_fills_maxSize (parse : FieldParser)
    (tag : VorbisComment) (stream : IStream) (maxSize : Nat) (flags : VorbisCommentFlags)
    (diag : Diagnostics) (startOffset : Nat) (lenBytes buff : Bytes) (stream1 stream2 : IStream)
    (hmax : 4 ≤ maxSize) (hread : stream.read 4 = some (lenBytes, stream1))
    (hexact : LE.toUInt32 lenBytes = maxSize - 4)
    (hvendor : stream1.read (LE.toUInt32 lenBytes) = some (buff, stream2)) :
    VorbisComment.parseAfterSignature parse tag stream maxSize flags diag startOffset =
      ⟨{ tag with vendor := TagValue.assignData buff .Text .Utf8 }, stream2, diag,
        .threw .TruncatedData⟩ := by
  have hc : checkMaxSize maxSize 4 = some (maxSize - 4) := by
    simp [checkMaxSize, Nat.not_lt.mpr hmax]
  have hc2 : checkMaxSize (maxSize - 4 - LE.toUInt32 lenBytes) 4 = none := by
    simp [checkMaxSize, hexact]
  unfold VorbisComment.parseAfterSignature
  have hle : LE.toUInt32 lenBytes ≤ maxSize - 4 := by omega
  simp only [hc, hread, hle, if_true, hvendor, hc2]

/-- C7: behind the signature step, with the four length bytes of the vendor read, a
vendor length above the maximum size still remaining ends the parse with
`TruncatedDataException` and Critical diagnostics, the vendor and the field map
unchanged. A vendor length equal to the remaining maximum size passes the check: no
"Vendor information is truncated." is emitted and the vendor is assigned (the
remaining maximum size is then zero, so the field count that follows is reported
as truncated). -/
theorem VorbisComment.vendor_length_check (parse : FieldParser) (tag : VorbisComment)
    (stream : IStream) (maxSize : Nat) (flags : VorbisCommentFlags) (diag : Diagnostics)
    (stream1 : IStream) (maxSize1 : Nat) (lenBytes : Bytes) (stream2 : IStream)
    (hsig : signatureStep flags stream maxSize = some (stream1, maxSize1))
    (hmax : 4 ≤ maxSize1) (hread : stream1.read 4 = some (lenBytes, stream2)) :
    (maxSize1 - 4 < LE.toUInt32 lenBytes →
      VorbisComment.internalParse parse tag stream maxSize flags diag =
        ⟨{ tag with size := sizeSince stream2 stream.tellg }, stream2,
          diag ++ [⟨.Critical, "Vendor information is truncated.", parseContext⟩,
            ⟨.Critical, "Vorbis comment is truncated.", parseContext⟩],
          .threw .TruncatedData⟩) ∧
    (LE.toUInt32 lenBytes = maxSize1 - 4 →
      ∀ (buff : Bytes) (stream3 : IStream),
        stream2.read (LE.toUInt32 lenBytes) = some (buff, stream3) →
        VorbisComment.internalParse parse tag stream maxSize flags diag =
          ⟨{ vendor := TagValue.assignData buff .Text .Utf8, fields := tag.fields,
             size := sizeSince stream3 stream.tellg }, stream3,
            diag ++ [⟨.Critical, "Vorbis comment is truncated.", parseContext⟩],
            .threw .TruncatedData⟩) := by
  rw [VorbisComment.internalParse_of_signatureStep parse tag stream maxSize flags diag stream1
    maxSize1 hsig]
  constructor
  · intro hlong
    rw [VorbisComment.parseAfterSignature_vendor_too_long parse tag stream1 maxSize1 flags diag _
      lenBytes stream2 hmax hread hlong]
    simp [VorbisComment.catchTruncated]
  · intro hexact buff stream3 hvendor
    rw [VorbisComment.parseAfterSignature_vendor_fills_maxSize parse tag stream1 maxSize1 flags
      diag _ lenBytes buff stream2 stream3 hmax hread hexact hvendor]
    simp [VorbisComment.catchTruncated]

/-- Witness for C7 on the sample comment, whose vendor takes six bytes: with
`maxSize = 16` five bytes remain behind the signature and the length, with
`maxSize = 17` exactly six. -/
theorem VorbisComment.vendor_length_check_witness :
    VorbisComment.internalParse VorbisCommentField.parse VorbisComment.fresh
        ⟨sampleComment, 0⟩ 16 VorbisCommentFlags.None [] =
      ⟨⟨TagValue.empty, [], 11⟩, ⟨sampleComment, 11⟩,
        [⟨.Critical, "Vendor information is truncated.", parseContext⟩,
          ⟨.Critical, "Vorbis comment is truncated.", parseContext⟩],
        .threw .TruncatedData⟩ ∧
    VorbisComment.internalParse VorbisCommentField.parse VorbisComment.fresh
        ⟨sampleComment, 0⟩ 17 VorbisCommentFlags.None [] =
      ⟨⟨TagValue.utf8 (ascii "Lavf58"), [], 17⟩, ⟨sampleComment, 17⟩,
        [⟨.Critical, "Vorbis comment is truncated.", parseContext⟩],
        .threw .TruncatedData⟩ :=
  ⟨(VorbisComment.vendor_length_check VorbisCommentField.parse VorbisComment.fresh
      ⟨sampleComment, 0⟩ 16 VorbisCommentFlags.None [] ⟨sampleComment, 7⟩ 9 [6, 0, 0, 0]
      ⟨sampleComment, 11⟩ (by decide) (by decide) (by decide)).1 (by decide),
   (VorbisComment.vendor_length_check VorbisCommentField.parse VorbisComment.fresh
      ⟨sampleComment, 0⟩ 17 VorbisCommentFlags.None [] ⟨sampleComment, 7⟩ 10 [6, 0, 0, 0]
      ⟨sampleComment, 11⟩ (by decide) (by decide) (by decide)).2 (by decide)
      (ascii "Lavf58") ⟨sampleComment, 17⟩ (by decide)⟩

/-! ## The field map -/

theorem lexicographicalCompare_toLower_iff (a b : Bytes) :
    CaseInsensitiveStringComparer a b = true ↔ ciKey a < ciKey b := by
  unfold CaseInsensitiveStringComparer ciKey
  induction a generalizing b with
  | nil =>
    cases b with
    | nil => simp [lexicographicalCompare]
    | cons y ys => simp [lexicographicalCompare, List.nil_lt_cons]
  | cons x xs ih =>
    cases b with
    | nil => simp [lexicographicalCompare]
    | cons y ys =>
      simp only [lexicographicalCompare, List.map_cons, decide_eq_true_eq]
      by_cases h1 : CaseInsensitiveCharComparer.toLower x < CaseInsensitiveCharComparer.toLower y
      · simp only [h1, if_true, true_iff]
        exact List.Lex.rel h1
      · by_cases h2 : CaseInsensitiveCharComparer.toLower y < CaseInsensitiveCharComparer.toLower x
        · simp only [h1, h2, if_true, if_false, Bool.false_eq_true, false_iff]
          intro h
          have := lt_asymm h (List.Lex.rel h2)
          exact this
        · have heq : CaseInsensitiveCharComparer.toLower x = CaseInsensitiveCharComparer.toLower y := by
            omega
          simp only [h1, h2, if_false, ih ys]
          rw [heq]
          constructor
          · intro h; exact List.Lex.cons h
          · intro h
            cases h with
            | cons h' => exact h'
            | rel h' => exact absurd h' (lt_irrefl _)

theorem comparer_eq_false_iff (a b : Bytes) :
    CaseInsensitiveStringComparer a b = false ↔ ciKey b ≤ ciKey a := by
  rw [← not_lt, ← lexicographicalCompare_toLower_iff]
  simp

theorem keyEquiv_iff (a b : Bytes) : keyEquiv a b = true ↔ ciKey a = ciKey b := by
  unfold keyEquiv
  simp only [Bool.and_eq_true, Bool.not_eq_true', comparer_eq_false_iff]
  constructor
  · rintro ⟨h1, h2⟩; exact le_antisymm h2 h1
  · intro h; exact ⟨le_of_eq h.symm, le_of_eq h⟩

theorem takeWhile_dropWhile_eq_filter {α : Type} (p : α → Bool) (R : α → α → Prop)
    (hR : ∀ x y, R x y → p y = true → p x = true) :
    ∀ l : List α, l.Pairwise R →
      l.takeWhile p = l.filter p ∧ l.dropWhile p = l.filter (fun x => !p x) := by
  intro l
  induction l with
  | nil => intro _; simp
  | cons x xs ih =>
    intro h
    rw [List.pairwise_cons] at h
    obtain ⟨hx, hxs⟩ := h
    obtain ⟨ih1, ih2⟩ := ih hxs
    cases hp : p x with
    | true =>
      simp only [List.takeWhile_cons, List.dropWhile_cons, hp, if_true, List.filter_cons,
        Bool.not_true, Bool.false_eq_true, if_false, ih1, ih2, and_self]
    | false =>
      have hall : ∀ y ∈ xs, p y = false := by
        intro y hy
        cases hpy : p y with
        | false => rfl
        | true => rw [hR x y (hx y hy) hpy] at hp; exact absurd hp (by simp)
      have h1 : xs.filter p = [] := List.filter_eq_nil_iff.mpr (by
        intro y hy; simp [hall y hy])
      have h2 : xs.filter (fun x => !p x) = xs := List.filter_eq_self.mpr (by
        intro y hy; simp [hall y hy])
      simp only [List.takeWhile_cons, List.dropWhile_cons, hp, Bool.false_eq_true, if_false,
        List.filter_cons, h1, Bool.not_false, if_true, h2, and_self]

theorem take_length_takeWhile {α : Type} (p : α → Bool) (l : List α) :
    l.take (l.takeWhile p).length = l.takeWhile p := by
  have h := @List.take_left _ (l.takeWhile p) (l.dropWhile p)
  rwa [List.takeWhile_append_dropWhile] at h

theorem drop_length_takeWhile {α : Type} (p : α → Bool) (l : List α) :
    l.drop (l.takeWhile p).length = l.dropWhile p := by
  have h := @List.drop_left _ (l.takeWhile p) (l.dropWhile p)
  rwa [List.takeWhile_append_dropWhile] at h

theorem FieldMap.take_upperBound (m : FieldMap) (k : Bytes) (hm : FieldMap.Sorted m) :
    m.take (FieldMap.upperBound m k) = m.filter (fun e => decide (ciKey e.1 ≤ ciKey k)) ∧
    m.drop (FieldMap.upperBound m k) = m.filter (fun e => decide (ciKey k < ciKey e.1)) := by
  unfold FieldMap.upperBound
  rw [take_length_takeWhile, drop_length_takeWhile]
  have h := takeWhile_dropWhile_eq_filter
    (fun e : Bytes × VorbisCommentField => !CaseInsensitiveStringComparer k e.1)
    (fun x y => ciKey x.1 ≤ ciKey y.1)
    (by
      intro x y hxy hy
      simp only [Bool.not_eq_true', comparer_eq_false_iff] at hy ⊢
      exact le_trans hxy hy) m hm
  rw [h.1, h.2]
  constructor
  · apply List.filter_congr
    intro e _
    cases hc : CaseInsensitiveStringComparer k e.1 with
    | false =>
      have := (comparer_eq_false_iff k e.1).mp hc
      simp [hc, this, not_lt.mpr this]
    | true =>
      have := (lexicographicalCompare_toLower_iff k e.1).mp hc
      simp [hc, this, not_le.mpr this]
  · apply List.filter_congr
    intro e _
    cases hc : CaseInsensitiveStringComparer k e.1 with
    | false =>
      have := (comparer_eq_false_iff k e.1).mp hc
      simp [hc, this, not_lt.mpr this]
    | true =>
      have := (lexicographicalCompare_toLower_iff k e.1).mp hc
      simp [hc, this, not_le.mpr this]

theorem FieldMap.take_lowerBound (m : FieldMap) (k : Bytes) (hm : FieldMap.Sorted m) :
    m.take (FieldMap.lowerBound m k) = m.filter (fun e => decide (ciKey e.1 < ciKey k)) ∧
    m.drop (FieldMap.lowerBound m k) = m.filter (fun e => decide (ciKey k ≤ ciKey e.1)) := by
  unfold FieldMap.lowerBound
  rw [take_length_takeWhile, drop_length_takeWhile]
  have h := takeWhile_dropWhile_eq_filter
    (fun e : Bytes × VorbisCommentField => CaseInsensitiveStringComparer e.1 k)
    (fun x y => ciKey x.1 ≤ ciKey y.1)
    (by
      intro x y hxy hy
      simp only [lexicographicalCompare_toLower_iff] at hy ⊢
      exact lt_of_le_of_lt hxy hy) m hm
  rw [h.1, h.2]
  constructor
  · apply List.filter_congr
    intro e _
    cases hc : CaseInsensitiveStringComparer e.1 k with
    | false =>
      have := (comparer_eq_false_iff e.1 k).mp hc
      simp [hc, this, not_lt.mpr this]
    | true =>
      have := (lexicographicalCompare_toLower_iff e.1 k).mp hc
      simp [hc, this, not_le.mpr this]
  · apply List.filter_congr
    intro e _
    cases hc : CaseInsensitiveStringComparer e.1 k with
    | false =>
      have := (comparer_eq_false_iff e.1 k).mp hc
      simp [hc, this, not_lt.mpr this]
    | true =>
      have := (lexicographicalCompare_toLower_iff e.1 k).mp hc
      simp [hc, this, not_le.mpr this]

theorem FieldMap.insert_perm (m : FieldMap) (e : Bytes × VorbisCommentField) :
    (FieldMap.insert m e).Perm (e :: m) := by
  unfold FieldMap.insert
  have h : (m.take (FieldMap.upperBound m e.1) ++ e :: m.drop (FieldMap.upperBound m e.1)).Perm
      (e :: (m.take (FieldMap.upperBound m e.1) ++ m.drop (FieldMap.upperBound m e.1))) :=
    List.perm_middle
  rwa [List.take_append_drop] at h

theorem FieldMap.length_insert (m : FieldMap) (e : Bytes × VorbisCommentField) :
    (FieldMap.insert m e).length = m.length + 1 := by
  rw [(FieldMap.insert_perm m e).length_eq, List.length_cons]

theorem FieldMap.filter_insert_of_false (m : FieldMap) (e : Bytes × VorbisCommentField)
    (q : Bytes × VorbisCommentField → Bool) (hq : q e = false) :
    (FieldMap.insert m e).filter q = m.filter q := by
  unfold FieldMap.insert
  rw [List.filter_append, List.filter_cons, hq]
  simp only [Bool.false_eq_true, if_false]
  rw [← List.filter_append, List.take_append_drop]

theorem FieldMap.filter_equiv_insert (m : FieldMap) (e : Bytes × VorbisCommentField)
    (k : Bytes) (hm : FieldMap.Sorted m) (hk : keyEquiv e.1 k = true) :
    (FieldMap.insert m e).filter (fun x => keyEquiv x.1 k) =
      m.filter (fun x => keyEquiv x.1 k) ++ [e] := by
  have hke := (keyEquiv_iff e.1 k).mp hk
  have hB : (m.drop (FieldMap.upperBound m e.1)).filter (fun x => keyEquiv x.1 k) = [] := by
    rw [(FieldMap.take_upperBound m e.1 hm).2]
    apply List.filter_eq_nil_iff.mpr
    intro x hx
    have hx2 := (List.mem_filter.mp hx).2
    simp only [decide_eq_true_eq] at hx2
    intro hxk
    have := (keyEquiv_iff x.1 k).mp hxk
    rw [this, hke] at hx2
    exact lt_irrefl _ hx2
  have hsplit : m.filter (fun x => keyEquiv x.1 k) =
      (m.take (FieldMap.upperBound m e.1)).filter (fun x => keyEquiv x.1 k) := by
    conv => lhs; rw [← List.take_append_drop (FieldMap.upperBound m e.1) m]
    rw [List.filter_append, hB, List.append_nil]
  unfold FieldMap.insert
  rw [List.filter_append, List.filter_cons, hk, hB, hsplit]
  simp

theorem FieldMap.insert_sorted (m : FieldMap) (e : Bytes × VorbisCommentField)
    (hm : FieldMap.Sorted m) : FieldMap.Sorted (FieldMap.insert m e) := by
  have hA : ∀ x ∈ m.take (FieldMap.upperBound m e.1), ciKey x.1 ≤ ciKey e.1 := by
    intro x hx
    rw [(FieldMap.take_upperBound m e.1 hm).1] at hx
    simpa using (List.mem_filter.mp hx).2
  have hB : ∀ x ∈ m.drop (FieldMap.upperBound m e.1), ciKey e.1 < ciKey x.1 := by
    intro x hx
    rw [(FieldMap.take_upperBound m e.1 hm).2] at hx
    simpa using (List.mem_filter.mp hx).2
  unfold FieldMap.Sorted FieldMap.insert
  rw [List.pairwise_append]
  refine ⟨List.Pairwise.sublist (List.take_sublist _ _) hm, ?_, ?_⟩
  · rw [List.pairwise_cons]
    exact ⟨fun x hx => le_of_lt (hB x hx), List.Pairwise.sublist (List.drop_sublist _ _) hm⟩
  · intro x hx y hy
    rcases List.mem_cons.mp hy with h | h
    · rw [h]; exact hA x hx
    · exact le_trans (hA x hx) (le_of_lt (hB y h))

theorem FieldMap.equalRange_eq_filter (m : FieldMap) (k : Bytes) (hm : FieldMap.Sorted m) :
    FieldMap.equalRange m k = m.filter (fun e => keyEquiv e.1 k) := by
  have hlo := FieldMap.take_lowerBound m k hm
  have hup := FieldMap.take_upperBound m k hm
  -- the part below the lower bound lies below the upper bound
  have hle : FieldMap.lowerBound m k ≤ FieldMap.upperBound m k := by
    have h1 : (m.take (FieldMap.lowerBound m k)).length = FieldMap.lowerBound m k := by
      rw [List.length_take]; unfold FieldMap.lowerBound
      exact Nat.min_eq_left (List.Sublist.length_le (List.takeWhile_sublist _))
    have h2 : (m.take (FieldMap.upperBound m k)).length = FieldMap.upperBound m k := by
      rw [List.length_take]; unfold FieldMap.upperBound
      exact Nat.min_eq_left (List.Sublist.length_le (List.takeWhile_sublist _))
    rw [← h1, ← h2, hlo.1, hup.1]
    apply List.Sublist.length_le
    apply List.monotone_filter_right
    intro e he
    simp only [decide_eq_true_eq] at he ⊢
    exact le_of_lt he
  unfold FieldMap.equalRange
  have hdt : (m.drop (FieldMap.lowerBound m k)).take (FieldMap.upperBound m k - FieldMap.lowerBound m k)
      = (m.take (FieldMap.upperBound m k)).drop (FieldMap.lowerBound m k) := by
    rw [List.drop_take]
  rw [hdt, hup.1]
  -- dropping the entries below the key from the sorted part up to the key
  have hs : FieldMap.Sorted (m.filter (fun e => decide (ciKey e.1 ≤ ciKey k))) :=
    List.Pairwise.sublist (List.filter_sublist _) hm
  have hlo2 := FieldMap.take_lowerBound _ k hs
  have hsame : FieldMap.lowerBound (m.filter (fun e => decide (ciKey e.1 ≤ ciKey k))) k
      = FieldMap.lowerBound m k := by
    have h1 : (m.take (FieldMap.lowerBound m k)).length = FieldMap.lowerBound m k := by
      rw [List.length_take]; unfold FieldMap.lowerBound
      exact Nat.min_eq_left (List.Sublist.length_le (List.takeWhile_sublist _))
    have h3 : ((m.filter (fun e => decide (ciKey e.1 ≤ ciKey k))).take
        (FieldMap.lowerBound (m.filter (fun e => decide (ciKey e.1 ≤ ciKey k))) k)).length
        = FieldMap.lowerBound (m.filter (fun e => decide (ciKey e.1 ≤ ciKey k))) k := by
      rw [List.length_take]; unfold FieldMap.lowerBound
      exact Nat.min_eq_left (List.Sublist.length_le (List.takeWhile_sublist _))
    rw [← h1, ← h3, hlo.1, hlo2.1, List.filter_filter]
    congr 1
    apply List.filter_congr
    intro e _
    by_cases h : ciKey e.1 < ciKey k
    · simp [h, le_of_lt h]
    · simp [h]
  rw [← hsame, hlo2.2, List.filter_filter]
  apply List.filter_congr
  intro e _
  by_cases h : ciKey e.1 = ciKey k
  · simp [h, (keyEquiv_iff e.1 k).mpr h]
  · have hne : keyEquiv e.1 k = false := by
      cases hq : keyEquiv e.1 k with
      | false => rfl
      | true => exact absurd ((keyEquiv_iff e.1 k).mp hq) h
    rw [hne]
    simp only [Bool.and_eq_false_imp, decide_eq_true_eq, decide_eq_false_iff_not]
    intro h1 h2
    exact h (le_antisymm h2 h1)

theorem FieldMap.eraseRange_eq_filter (m : FieldMap) (k : Bytes) (hm : FieldMap.Sorted m) :
    FieldMap.eraseRange m k = m.filter (fun e => !keyEquiv e.1 k) := by
  have hlo := FieldMap.take_lowerBound m k hm
  have hup := FieldMap.take_upperBound m k hm
  unfold FieldMap.eraseRange
  rw [hlo.1, hup.2]
  conv => rhs; rw [← List.take_append_drop (FieldMap.upperBound m k) m]
  rw [List.filter_append, hup.1, hup.2, List.filter_filter, List.filter_filter]
  congr 1
  · apply List.filter_congr
    intro e _
    by_cases h : ciKey e.1 < ciKey k
    · have hne : keyEquiv e.1 k = false := by
        cases hq : keyEquiv e.1 k with
        | false => rfl
        | true => exact absurd ((keyEquiv_iff e.1 k).mp hq) (ne_of_lt h)
      simp [h, hne, le_of_lt h]
    · by_cases h2 : ciKey e.1 ≤ ciKey k
      · have heq : ciKey e.1 = ciKey k := le_antisymm h2 (not_lt.mp h)
        simp [h, (keyEquiv_iff e.1 k).mpr heq]
      · simp [h, h2]
  · apply List.filter_congr
    intro e _
    by_cases h : ciKey k < ciKey e.1
    · have hne : keyEquiv e.1 k = false := by
        cases hq : keyEquiv e.1 k with
        | false => rfl
        | true => exact absurd ((keyEquiv_iff e.1 k).mp hq) (ne_of_gt h)
      simp [h, hne]
    · simp [h]

theorem FieldMap.find_eq_none_iff (m : FieldMap) (k : Bytes) :
    FieldMap.find m k = none ↔ ∀ e ∈ m, keyEquiv e.1 k = false := by
  unfold FieldMap.find
  rw [List.find?_eq_none]
  simp

theorem FieldMap.find_eq_head_filter (m : FieldMap) (k : Bytes) :
    FieldMap.find m k = (m.filter (fun e => keyEquiv e.1 k)).head? := by
  unfold FieldMap.find
  induction m with
  | nil => rfl
  | cons x xs ih =>
    cases h : keyEquiv x.1 k with
    | true =>
      rw [List.find?_cons, List.filter_cons]
      simp only [h, if_true, List.head?_cons]
    | false =>
      rw [List.find?_cons, List.filter_cons]
      simp only [h, Bool.false_eq_true, if_false]
      exact ih

theorem keyEquiv_date_year : keyEquiv VorbisCommentIds.date VorbisCommentIds.year = false := by
  decide

theorem keyEquiv_trans_false (a b c : Bytes) (hab : keyEquiv a b = true)
    (hbc : keyEquiv b c = false) : keyEquiv a c = false := by
  cases h : keyEquiv a c with
  | false => rfl
  | true =>
    have h1 := (keyEquiv_iff a b).mp hab
    have h2 := (keyEquiv_iff a c).mp h
    have : keyEquiv b c = true := (keyEquiv_iff b c).mpr (by rw [← h1, h2])
    rw [this] at hbc
    exact absurd hbc (by simp)

/-- The loop of the normalisation: every entry of `range` is inserted under `DATE`. -/
theorem FieldMap.foldl_insert_date (range : FieldMap) :
    ∀ m : FieldMap, FieldMap.Sorted m →
      let m1 := range.foldl (fun acc e => FieldMap.insert acc (VorbisCommentIds.date, e.2)) m
      FieldMap.Sorted m1 ∧
      m1.filter (fun x => keyEquiv x.1 VorbisCommentIds.date) =
        m.filter (fun x => keyEquiv x.1 VorbisCommentIds.date)
          ++ range.map (fun e => (VorbisCommentIds.date, e.2)) ∧
      (∀ q : Bytes × VorbisCommentField → Bool,
        (∀ f, q (VorbisCommentIds.date, f) = false) → m1.filter q = m.filter q) ∧
      m1.length = m.length + range.length := by
  induction range with
  | nil => intro m hm; simp [hm]
  | cons e es ih =>
    intro m hm
    have hs := FieldMap.insert_sorted m (VorbisCommentIds.date, e.2) hm
    obtain ⟨h1, h2, h3, h4⟩ := ih (FieldMap.insert m (VorbisCommentIds.date, e.2)) hs
    simp only [List.foldl_cons]
    refine ⟨h1, ?_, ?_, ?_⟩
    · rw [h2, FieldMap.filter_equiv_insert m _ VorbisCommentIds.date hm ((keyEquiv_iff _ _).mpr rfl)]
      simp
    · intro q hq
      rw [h3 q hq, FieldMap.filter_insert_of_false m _ q (hq e.2)]
    · rw [h4, FieldMap.length_insert, List.length_cons]
      omega

theorem normalizeYear_of_date (m : FieldMap)
    (hd : ∃ e ∈ m, keyEquiv e.1 VorbisCommentIds.date = true) : normalizeYear m = m := by
  unfold normalizeYear
  have : FieldMap.find m VorbisCommentIds.date ≠ none := by
    intro h
    obtain ⟨e, he, hk⟩ := hd
    rw [(FieldMap.find_eq_none_iff m _).mp h e he] at hk
    exact absurd hk (by simp)
  cases hf : FieldMap.find m VorbisCommentIds.date with
  | none => exact absurd hf this
  | some e => simp

theorem normalizeYear_of_no_date (m : FieldMap) (hm : FieldMap.Sorted m)
    (hnd : ∀ e ∈ m, keyEquiv e.1 VorbisCommentIds.date = false) :
    (∀ e ∈ normalizeYear m, keyEquiv e.1 VorbisCommentIds.year = false) ∧
    (normalizeYear m).filter (fun x => keyEquiv x.1 VorbisCommentIds.date) =
      (m.filter (fun x => keyEquiv x.1 VorbisCommentIds.year)).map
        (fun e => (VorbisCommentIds.date, e.2)) ∧
    (∀ q : Bytes × VorbisCommentField → Bool,
      (∀ k f, q (k, f) = true →
        keyEquiv k VorbisCommentIds.date = false ∧ keyEquiv k VorbisCommentIds.year = false) →
      (normalizeYear m).filter q = m.filter q) ∧
    (normalizeYear m).length = m.length := by
  have hfind : FieldMap.find m VorbisCommentIds.date = none :=
    (FieldMap.find_eq_none_iff m _).mpr hnd
  have hrange := FieldMap.equalRange_eq_filter m VorbisCommentIds.year hm
  obtain ⟨hs1, hd1, hq1, hl1⟩ := FieldMap.foldl_insert_date
    (m.filter (fun x => keyEquiv x.1 VorbisCommentIds.year)) m hm
  have hnorm : normalizeYear m =
      ((m.filter (fun x => keyEquiv x.1 VorbisCommentIds.year)).foldl
        (fun acc e => FieldMap.insert acc (VorbisCommentIds.date, e.2)) m).filter
        (fun e => !keyEquiv e.1 VorbisCommentIds.year) := by
    unfold normalizeYear
    simp only [hfind, Option.isNone_none, if_true, hrange]
    exact FieldMap.eraseRange_eq_filter _ _ hs1
  have hmd : m.filter (fun x => keyEquiv x.1 VorbisCommentIds.date) = [] :=
    List.filter_eq_nil_iff.mpr (by intro e he; simp [hnd e he])
  rw [hnorm]
  refine ⟨?_, ?_, ?_, ?_⟩
  · intro e he
    simpa using (List.mem_filter.mp he).2
  · rw [List.filter_filter]
    have : (fun a : Bytes × VorbisCommentField =>
        keyEquiv a.1 VorbisCommentIds.date && !keyEquiv a.1 VorbisCommentIds.year)
        = fun a => keyEquiv a.1 VorbisCommentIds.date := by
      funext a
      cases h : keyEquiv a.1 VorbisCommentIds.date with
      | false => simp
      | true => simp [keyEquiv_trans_false a.1 _ _ h keyEquiv_date_year]
    rw [this, hd1, hmd, List.nil_append]
  · intro q hq
    rw [List.filter_filter]
    have hq2 : (fun a : Bytes × VorbisCommentField => q a && !keyEquiv a.1 VorbisCommentIds.year)
        = q := by
      funext a
      cases h : q a with
      | false => simp
      | true => simp [(hq a.1 a.2 h).2]
    rw [hq2]
    apply hq1 q
    intro f
    cases h : q (VorbisCommentIds.date, f) with
    | false => rfl
    | true =>
      have := (hq _ f h).1
      rw [(keyEquiv_iff _ _).mpr rfl] at this
      exact absurd this (by simp)
  · have hy := hq1 (fun e => keyEquiv e.1 VorbisCommentIds.year) (by
      intro f
      exact keyEquiv_date_year)
    generalize (m.filter (fun x => keyEquiv x.1 VorbisCommentIds.year)).foldl
      (fun acc e => FieldMap.insert acc (VorbisCommentIds.date, e.2)) m = m1 at hl1 hy ⊢
    have hsplit := List.length_eq_length_filter_add (l := m1)
      (fun e => keyEquiv e.1 VorbisCommentIds.year)
    rw [hy, hl1] at hsplit
    omega

theorem VorbisComment.parseFields_tag (parse : FieldParser) :
    ∀ (n : Nat) (tag : VorbisComment) (stream : IStream) (maxSize : Nat) (diag : Diagnostics),
      (VorbisComment.parseFields parse n tag stream maxSize diag).tag =
        ⟨tag.vendor,
          (VorbisComment.parsedFields parse n stream maxSize diag).foldl
            (fun acc f => FieldMap.insert acc (f.id, f)) tag.fields,
          tag.size⟩ := by
  intro n
  induction n with
  | zero => intro tag stream maxSize diag; rfl
  | succ n ih =>
    intro tag stream maxSize diag
    unfold VorbisComment.parseFields VorbisComment.parsedFields
    dsimp only
    cases ho : (parse stream maxSize diag).outcome with
    | returned field =>
      simp only [ho]
      rw [ih]
      rfl
    | threw e =>
      simp only [ho]
      by_cases h1 : e = .TruncatedData
      · simp only [h1, if_true]; rfl
      · simp only [h1, if_false]
        cases h2 : e.isFailure with
        | true => simp only [if_true]; rw [ih]
        | false => simp only [Bool.false_eq_true, if_false]; rfl

theorem VorbisComment.parseAfterSignature_eq (parse : FieldParser) (tag : VorbisComment)
    (stream : IStream) (maxSize : Nat) (flags : VorbisCommentFlags) (diag : Diagnostics)
    (startOffset : Nat) (lenBytes buff sig2 : Bytes) (stream1 stream2 stream3 : IStream)
    (hmax : 4 ≤ maxSize) (hread : stream.read 4 = some (lenBytes, stream1))
    (hlen : LE.toUInt32 lenBytes ≤ maxSize - 4)
    (hvendor : stream1.read (LE.toUInt32 lenBytes) = some (buff, stream2))
    (hmax2 : 4 ≤ maxSize - 4 - LE.toUInt32 lenBytes)
    (hcount : stream2.read 4 = some (sig2, stream3)) :
    VorbisComment.parseAfterSignature parse tag stream maxSize flags diag startOffset =
      let r := VorbisComment.parseFields parse (LE.toUInt32 sig2)
          { tag with vendor := TagValue.assignData buff .Text .Utf8 } stream3
          (maxSize - 4 - LE.toUInt32 lenBytes - 4) diag
      let fs := VorbisComment.parsedFields parse (LE.toUInt32 sig2) stream3
          (maxSize - 4 - LE.toUInt32 lenBytes - 4) diag
      let stream4 :=
        if !(VorbisCommentFlags.and flags VorbisCommentFlags.NoFramingByte) then r.stream.ignore
        else r.stream
      match r.outcome with
      | .threw e => ⟨r.tag, r.stream, r.diag, .threw e⟩
      | .returned _ =>
        ⟨⟨TagValue.assignData buff .Text .Utf8,
            normalizeYear (fs.foldl (fun acc f => FieldMap.insert acc (f.id, f)) tag.fields),
            sizeSince stream4 startOffset⟩,
          stream4, r.diag, .returned ()⟩ := by
  have hc : checkMaxSize maxSize 4 = some (maxSize - 4) := by
    simp [checkMaxSize, Nat.not_lt.mpr hmax]
  have hc2 : checkMaxSize (maxSize - 4 - LE.toUInt32 lenBytes) 4
      = some (maxSize - 4 - LE.toUInt32 lenBytes - 4) := by
    simp [checkMaxSize, Nat.not_lt.mpr hmax2]
  unfold VorbisComment.parseAfterSignature
  simp only [hc, hread, hlen, if_true, hvendor, hc2, hcount]
  cases ho : (VorbisComment.parseFields parse (LE.toUInt32 sig2)
          { tag with vendor := TagValue.assignData buff .Text .Utf8 } stream3
          (maxSize - 4 - LE.toUInt32 lenBytes - 4) diag).outcome with
  | threw e => rfl
  | returned u =>
    simp only [VorbisComment.parseFields_tag]

theorem VorbisComment.catchTruncated_fields (startOffset : Nat) (r : ParseResult) :
    (VorbisComment.catchTruncated startOffset r).tag.fields = r.tag.fields ∧
    (VorbisComment.catchTruncated startOffset r).tag.vendor = r.tag.vendor := by
  unfold VorbisComment.catchTruncated
  split <;> simp

theorem VorbisComment.catchTruncated_of_returned (startOffset : Nat) (r : ParseResult)
    (h : r.outcome = .returned ()) : VorbisComment.catchTruncated startOffset r = r := by
  unfold VorbisComment.catchTruncated
  split
  · next h2 => rw [h] at h2; exact absurd h2 (by simp)
  · rfl

theorem VorbisComment.internalParse_signatureStep_none (parse : FieldParser)
    (tag : VorbisComment) (stream : IStream) (maxSize : Nat) (flags : VorbisCommentFlags)
    (diag : Diagnostics) (hs : signatureStep flags stream maxSize = none) :
    (VorbisComment.internalParse parse tag stream maxSize flags diag).outcome ≠ .returned () := by
  unfold VorbisComment.internalParse
  rw [VorbisComment.catchTruncated_outcome]
  unfold signatureStep at hs
  unfold VorbisComment.internalParseTry
  cases hflag : VorbisCommentFlags.and flags VorbisCommentFlags.NoSignature with
  | true => simp [hflag] at hs
  | false =>
    simp only [hflag, Bool.false_eq_true, if_false] at hs ⊢
    by_cases hmax : 7 ≤ maxSize
    · have hc : checkMaxSize maxSize 7 = some (maxSize - 7) := by
        simp [checkMaxSize, Nat.not_lt.mpr hmax]
      simp only [hmax, if_true] at hs
      simp only [hc]
      cases hread : stream.read 7 with
      | none => simp
      | some p =>
        obtain ⟨sig, s1⟩ := p
        simp only [hread] at hs ⊢
        cases hm : signatureMatches sig 0 with
        | true => simp [hm] at hs
        | false => simp
    · have hc : checkMaxSize maxSize 7 = none := by
        simp [checkMaxSize, Nat.not_le.mp hmax]
      simp [hc]

/-- When `internalParse` returns, its field map is the normalised map of the fields of
the input, inserted in input order into the map the tag had before. -/
theorem VorbisComment.internalParse_fields_of_returned (parse : FieldParser)
    (tag : VorbisComment) (stream : IStream) (maxSize : Nat) (flags : VorbisCommentFlags)
    (diag : Diagnostics)
    (h : (VorbisComment.internalParse parse tag stream maxSize flags diag).outcome
      = .returned ()) :
    (VorbisComment.internalParse parse tag stream maxSize flags diag).tag.fields =
      normalizeYear
        ((VorbisComment.inputFields parse stream maxSize flags diag).foldl
          (fun acc f => FieldMap.insert acc (f.id, f)) tag.fields) := by
  cases hs : signatureStep flags stream maxSize with
  | none =>
    exact absurd h
      (VorbisComment.internalParse_signatureStep_none parse tag stream maxSize flags diag hs)
  | some p =>
    obtain ⟨s1, m1⟩ := p
    rw [VorbisComment.internalParse_of_signatureStep parse tag stream maxSize flags diag s1 m1 hs]
      at h ⊢
    rw [VorbisComment.catchTruncated_outcome] at h
    rw [(VorbisComment.catchTruncated_fields _ _).1]
    unfold VorbisComment.inputFields VorbisComment.fieldLoopStart
    simp only [hs]
    by_cases hmax : 4 ≤ m1
    · cases hread : s1.read 4 with
      | none =>
        have hc : checkMaxSize m1 4 = some (m1 - 4) := by
          simp [checkMaxSize, Nat.not_lt.mpr hmax]
        simp [VorbisComment.parseAfterSignature, hc, hread] at h
      | some q =>
        obtain ⟨lenBytes, s2⟩ := q
        by_cases hlen : LE.toUInt32 lenBytes ≤ m1 - 4
        · cases hvendor : s2.read (LE.toUInt32 lenBytes) with
          | none =>
            have hc : checkMaxSize m1 4 = some (m1 - 4) := by
              simp [checkMaxSize, Nat.not_lt.mpr hmax]
            simp [VorbisComment.parseAfterSignature, hc, hread, hlen, hvendor] at h
          | some q2 =>
            obtain ⟨buff, s3⟩ := q2
            by_cases hmax2 : 4 ≤ m1 - 4 - LE.toUInt32 lenBytes
            · cases hcount : s3.read 4 with
              | none =>
                have hc : checkMaxSize m1 4 = some (m1 - 4) := by
                  simp [checkMaxSize, Nat.not_lt.mpr hmax]
                have hc2 : checkMaxSize (m1 - 4 - LE.toUInt32 lenBytes) 4
                    = some (m1 - 4 - LE.toUInt32 lenBytes - 4) := by
                  simp [checkMaxSize, Nat.not_lt.mpr hmax2]
                simp [VorbisComment.parseAfterSignature, hc, hread, hlen, hvendor, hc2, hcount]
                  at h
              | some q3 =>
                obtain ⟨sig2, s4⟩ := q3
                have heq := VorbisComment.parseAfterSignature_eq parse tag s1 m1 flags diag
                  stream.tellg lenBytes buff sig2 s2 s3 s4 hmax hread hlen hvendor hmax2 hcount
                rw [heq] at h ⊢
                simp only [hmax, if_true, hlen, hvendor, hmax2, hcount]
                dsimp only at h ⊢
                split at h
                · simp at h
                · next u ho => simp only [ho]
            · have hc : checkMaxSize m1 4 = some (m1 - 4) := by
                simp [checkMaxSize, Nat.not_lt.mpr hmax]
              have hc2 : checkMaxSize (m1 - 4 - LE.toUInt32 lenBytes) 4 = none := by
                simp [checkMaxSize, Nat.not_le.mp hmax2]
              simp [VorbisComment.parseAfterSignature, hc, hread, hlen, hvendor, hc2] at h
        · have hc : checkMaxSize m1 4 = some (m1 - 4) := by
            simp [checkMaxSize, Nat.not_lt.mpr hmax]
          simp [VorbisComment.parseAfterSignature, hc, hread, hlen] at h
    · have hc : checkMaxSize m1 4 = none := by
        simp [checkMaxSize, Nat.not_le.mp hmax]
      simp [VorbisComment.parseAfterSignature, hc] at h

/-! ## Vorbis comments: the normalisation of YEAR -/

theorem FieldMap.foldl_insert_fields (fs : List VorbisCommentField) :
    ∀ m : FieldMap, FieldMap.Sorted m →
      FieldMap.Sorted (fs.foldl (fun acc f => FieldMap.insert acc (f.id, f)) m) ∧
      (∀ k : Bytes,
        (fs.foldl (fun acc f => FieldMap.insert acc (f.id, f)) m).filter
            (fun e => keyEquiv e.1 k) =
          m.filter (fun e => keyEquiv e.1 k)
            ++ (fs.filter (fun f => keyEquiv f.id k)).map (fun f => (f.id, f))) ∧
      (fs.foldl (fun acc f => FieldMap.insert acc (f.id, f)) m).length = m.length + fs.length ∧
      (fs.foldl (fun acc f => FieldMap.insert acc (f.id, f)) m).Perm
        (m ++ fs.map (fun f => (f.id, f))) := by
  induction fs with
  | nil => intro m hm; simp [hm]
  | cons f fs ih =>
    intro m hm
    have hs := FieldMap.insert_sorted m (f.id, f) hm
    obtain ⟨h1, h2, h3, h4⟩ := ih (FieldMap.insert m (f.id, f)) hs
    simp only [List.foldl_cons]
    refine ⟨h1, ?_, ?_, ?_⟩
    · intro k
      rw [h2 k]
      cases hk : keyEquiv f.id k with
      | true =>
        rw [FieldMap.filter_equiv_insert m (f.id, f) k hm hk, List.filter_cons]
        simp [hk]
      | false =>
        rw [FieldMap.filter_insert_of_false m (f.id, f) (fun e => keyEquiv e.1 k) hk,
          List.filter_cons]
        simp [hk]
    · rw [h3, FieldMap.length_insert, List.length_cons]; omega
    · refine h4.trans ?_
      rw [List.map_cons]
      refine ((FieldMap.insert_perm m (f.id, f)).append_right _).trans ?_
      simp only [List.cons_append]
      exact List.perm_middle.symm

theorem FieldMap.sorted_nil : FieldMap.Sorted [] := List.Pairwise.nil

theorem FieldMap.foldl_insert_without_date (fs : List VorbisCommentField)
    (hnodate : ∀ f ∈ fs, keyEquiv f.id VorbisCommentIds.date = false) :
    ∀ e ∈ fs.foldl (fun acc f => FieldMap.insert acc (f.id, f)) [],
      keyEquiv e.1 VorbisCommentIds.date = false := by
  obtain ⟨_, hf, _, _⟩ := FieldMap.foldl_insert_fields fs [] FieldMap.sorted_nil
  intro e he
  cases hk : keyEquiv e.1 VorbisCommentIds.date with
  | false => rfl
  | true =>
    have hmem : e ∈ (fs.foldl (fun acc f => FieldMap.insert acc (f.id, f)) []).filter
        (fun e => keyEquiv e.1 VorbisCommentIds.date) := List.mem_filter.mpr ⟨he, hk⟩
    rw [hf, List.filter_nil, List.nil_append, List.mem_map] at hmem
    obtain ⟨f, hfmem, hfe⟩ := hmem
    have h1 := List.mem_filter.mp hfmem
    rw [hnodate f h1.1] at h1
    exact absurd h1.2 (by simp)

/-- C1: when the parse of an input into a tag with an empty field map returns and no
field of the input has an identifier equal to `DATE` (case-insensitively), the
resulting map has no entry keyed `YEAR`; its entries under `DATE` are exactly the
`YEAR` fields of the input, in input order, stored under the key `DATE`; the entries
under every other key are the fields of the input with that identifier, in input
order, each under its own identifier; and the map has as many entries as the input
has fields. -/
theorem VorbisComment.year_becomes_date (parse : FieldParser) (vendor : TagValue)
    (size : Nat) (stream : IStream) (maxSize : Nat) (flags : VorbisCommentFlags)
    (diag : Diagnostics)
    (hret : (VorbisComment.internalParse parse ⟨vendor, [], size⟩ stream maxSize flags
      diag).outcome = .returned ())
    (hnodate : ∀ f ∈ VorbisComment.inputFields parse stream maxSize flags diag,
      keyEquiv f.id VorbisCommentIds.date = false) :
    (∀ e ∈ (VorbisComment.internalParse parse ⟨vendor, [], size⟩ stream maxSize flags
        diag).tag.fields, keyEquiv e.1 VorbisCommentIds.year = false) ∧
    (VorbisComment.internalParse parse ⟨vendor, [], size⟩ stream maxSize flags
        diag).tag.fields.filter (fun e => keyEquiv e.1 VorbisCommentIds.date) =
      ((VorbisComment.inputFields parse stream maxSize flags diag).filter
        (fun f => keyEquiv f.id VorbisCommentIds.year)).map
        (fun f => (VorbisCommentIds.date, f)) ∧
    (∀ k : Bytes, keyEquiv k VorbisCommentIds.date = false →
      keyEquiv k VorbisCommentIds.year = false →
      (VorbisComment.internalParse parse ⟨vendor, [], size⟩ stream maxSize flags
          diag).tag.fields.filter (fun e => keyEquiv e.1 k) =
        ((VorbisComment.inputFields parse stream maxSize flags diag).filter
          (fun f => keyEquiv f.id k)).map (fun f => (f.id, f))) ∧
    (VorbisComment.internalParse parse ⟨vendor, [], size⟩ stream maxSize flags
        diag).tag.fields.length =
      (VorbisComment.inputFields parse stream maxSize flags diag).length := by
  rw [VorbisComment.internalParse_fields_of_returned parse _ stream maxSize flags diag hret]
  obtain ⟨hs, hf, hl, _⟩ := FieldMap.foldl_insert_fields
    (VorbisComment.inputFields parse stream maxSize flags diag) [] FieldMap.sorted_nil
  generalize VorbisComment.inputFields parse stream maxSize flags diag = fs at *
  have hraw := FieldMap.foldl_insert_without_date fs hnodate
  obtain ⟨n1, n2, n3, n4⟩ := normalizeYear_of_no_date _ hs hraw
  refine ⟨n1, ?_, ?_, ?_⟩
  · rw [n2, hf, List.filter_nil, List.nil_append, List.map_map]
    rfl
  · intro k hkd hky
    rw [n3 (fun e => keyEquiv e.1 k) (by
      intro k1 f1 hq
      exact ⟨keyEquiv_trans_false k1 k _ hq hkd, keyEquiv_trans_false k1 k _ hq hky⟩), hf,
      List.filter_nil, List.nil_append]
  · rw [n4, hl]; simp

/-- Witness for C1: the sample comment, whose only field is `YEAR=2021`. -/
theorem VorbisComment.year_becomes_date_witness :
    (∀ e ∈ (VorbisComment.internalParse VorbisCommentField.parse ⟨TagValue.empty, [], 0⟩
        ⟨sampleComment, 0⟩ 35 VorbisCommentFlags.None []).tag.fields,
        keyEquiv e.1 VorbisCommentIds.year = false) ∧
    (VorbisComment.internalParse VorbisCommentField.parse ⟨TagValue.empty, [], 0⟩
        ⟨sampleComment, 0⟩ 35 VorbisCommentFlags.None []).tag.fields.filter
        (fun e => keyEquiv e.1 VorbisCommentIds.date) =
      ((VorbisComment.inputFields VorbisCommentField.parse ⟨sampleComment, 0⟩ 35
        VorbisCommentFlags.None []).filter
        (fun f => keyEquiv f.id VorbisCommentIds.year)).map
        (fun f => (VorbisCommentIds.date, f)) ∧
    (VorbisComment.inputFields VorbisCommentField.parse ⟨sampleComment, 0⟩ 35
        VorbisCommentFlags.None []) = [⟨ascii "YEAR", TagValue.utf8 (ascii "2021")⟩] :=
  have h := VorbisComment.year_becomes_date VorbisCommentField.parse TagValue.empty 0
    ⟨sampleComment, 0⟩ 35 VorbisCommentFlags.None [] (by decide) (by decide)
  ⟨h.1, h.2.1, by decide⟩

/-- C2 fails as stated: the parse of an input with the fields `DATE=2020` and
`YEAR=2021` returns with a map that holds an entry keyed `DATE` together with an
entry keyed `YEAR`; the field that was `YEAR` in the input is not under `DATE`. -/
theorem VorbisComment.year_coexists_with_date :
    (VorbisComment.internalParse VorbisCommentField.parse VorbisComment.fresh
        ⟨sampleCommentDateYear, 0⟩ 48 VorbisCommentFlags.None []).outcome = .returned () ∧
    (VorbisComment.internalParse VorbisCommentField.parse VorbisComment.fresh
        ⟨sampleCommentDateYear, 0⟩ 48 VorbisCommentFlags.None []).tag.fields =
      [(ascii "DATE", ⟨ascii "DATE", TagValue.utf8 (ascii "2020")⟩),
       (ascii "YEAR", ⟨ascii "YEAR", TagValue.utf8 (ascii "2021")⟩)] := by
  decide

/-- C2 as amended: for every input on which the parse (into a tag with an empty field
map) returns: when no field of the input has the identifier `DATE`, the resulting
map has no entry keyed `YEAR` and each field that was `YEAR` in the input is in the
map under the key `DATE`; when the input has a `DATE` field, the map is left as
parsed, every field of the input under its own identifier, `YEAR` fields
included. -/
theorem VorbisComment.year_and_date_after_parse (parse : FieldParser) (vendor : TagValue)
    (size : Nat) (stream : IStream) (maxSize : Nat) (flags : VorbisCommentFlags)
    (diag : Diagnostics)
    (hret : (VorbisComment.internalParse parse ⟨vendor, [], size⟩ stream maxSize flags
      diag).outcome = .returned ()) :
    ((∀ f ∈ VorbisComment.inputFields parse stream maxSize flags diag,
        keyEquiv f.id VorbisCommentIds.date = false) →
      (∀ e ∈ (VorbisComment.internalParse parse ⟨vendor, [], size⟩ stream maxSize flags
          diag).tag.fields, keyEquiv e.1 VorbisCommentIds.year = false) ∧
      (∀ f ∈ VorbisComment.inputFields parse stream maxSize flags diag,
        keyEquiv f.id VorbisCommentIds.year = true →
        (VorbisCommentIds.date, f) ∈ (VorbisComment.internalParse parse ⟨vendor, [], size⟩
          stream maxSize flags diag).tag.fields)) ∧
    ((∃ f ∈ VorbisComment.inputFields parse stream maxSize flags diag,
        keyEquiv f.id VorbisCommentIds.date = true) →
      (VorbisComment.internalParse parse ⟨vendor, [], size⟩ stream maxSize flags
          diag).tag.fields =
        (VorbisComment.inputFields parse stream maxSize flags diag).foldl
          (fun acc f => FieldMap.insert acc (f.id, f)) [] ∧
      (∀ f ∈ VorbisComment.inputFields parse stream maxSize flags diag,
        (f.id, f) ∈ (VorbisComment.internalParse parse ⟨vendor, [], size⟩
          stream maxSize flags diag).tag.fields)) := by
  constructor
  · intro hnodate
    rw [VorbisComment.internalParse_fields_of_returned parse _ stream maxSize flags diag hret]
    obtain ⟨hs, hf, _, _⟩ := FieldMap.foldl_insert_fields
      (VorbisComment.inputFields parse stream maxSize flags diag) [] FieldMap.sorted_nil
    obtain ⟨h1, h2, _, _⟩ := normalizeYear_of_no_date _ hs
      (FieldMap.foldl_insert_without_date _ hnodate)
    refine ⟨h1, ?_⟩
    intro f hfmem hy
    have hmem : (VorbisCommentIds.date, f) ∈
        (((VorbisComment.inputFields parse stream maxSize flags diag).foldl
          (fun acc f => FieldMap.insert acc (f.id, f)) []).filter
          (fun x => keyEquiv x.1 VorbisCommentIds.year)).map
          (fun e => (VorbisCommentIds.date, e.2)) := by
      rw [hf VorbisCommentIds.year, List.filter_nil, List.nil_append, List.map_map]
      exact List.mem_map.mpr ⟨f, List.mem_filter.mpr ⟨hfmem, hy⟩, rfl⟩
    rw [← h2] at hmem
    exact (List.mem_filter.mp hmem).1
  · intro hdate
    rw [VorbisComment.internalParse_fields_of_returned parse _ stream maxSize flags diag hret]
    obtain ⟨_, _, _, hperm⟩ := FieldMap.foldl_insert_fields
      (VorbisComment.inputFields parse stream maxSize flags diag) [] FieldMap.sorted_nil
    have hmemall : ∀ f ∈ VorbisComment.inputFields parse stream maxSize flags diag,
        (f.id, f) ∈ (VorbisComment.inputFields parse stream maxSize flags diag).foldl
          (fun acc f => FieldMap.insert acc (f.id, f)) [] := by
      intro f hf
      rw [hperm.mem_iff, List.nil_append]
      exact List.mem_map.mpr ⟨f, hf, rfl⟩
    have hnorm : normalizeYear
        ((VorbisComment.inputFields parse stream maxSize flags diag).foldl
          (fun acc f => FieldMap.insert acc (f.id, f)) []) =
        (VorbisComment.inputFields parse stream maxSize flags diag).foldl
          (fun acc f => FieldMap.insert acc (f.id, f)) [] := by
      apply normalizeYear_of_date
      obtain ⟨f, hf, hk⟩ := hdate
      exact ⟨(f.id, f), hmemall f hf, hk⟩
    rw [hnorm]
    exact ⟨rfl, hmemall⟩

/-- Witness for C2 as amended: the sample comment (no `DATE` field) and the comment
with both `DATE` and `YEAR`. -/
theorem VorbisComment.year_and_date_after_parse_witness :
    ((VorbisCommentIds.date, (⟨ascii "YEAR", TagValue.utf8 (ascii "2021")⟩ : VorbisCommentField))
      ∈ (VorbisComment.internalParse VorbisCommentField.parse ⟨TagValue.empty, [], 0⟩
          ⟨sampleComment, 0⟩ 35 VorbisCommentFlags.None []).tag.fields) ∧
    ((ascii "YEAR", (⟨ascii "YEAR", TagValue.utf8 (ascii "2021")⟩ : VorbisCommentField))
      ∈ (VorbisComment.internalParse VorbisCommentField.parse ⟨TagValue.empty, [], 0⟩
          ⟨sampleCommentDateYear, 0⟩ 48 VorbisCommentFlags.None []).tag.fields) :=
  ⟨((VorbisComment.year_and_date_after_parse VorbisCommentField.parse TagValue.empty 0
      ⟨sampleComment, 0⟩ 35 VorbisCommentFlags.None [] (by decide)).1 (by decide)).2
      ⟨ascii "YEAR", TagValue.utf8 (ascii "2021")⟩ (by decide) (by decide),
   ((VorbisComment.year_and_date_after_parse VorbisCommentField.parse TagValue.empty 0
      ⟨sampleCommentDateYear, 0⟩ 48 VorbisCommentFlags.None [] (by decide)).2
      ⟨⟨ascii "DATE", TagValue.utf8 (ascii "2020")⟩, by decide, by decide⟩).2
      ⟨ascii "YEAR", TagValue.utf8 (ascii "2021")⟩ (by decide)⟩

/-! ## Vorbis comments: scenario S3 -/

theorem checkMaxSize_of_le (maxSize n : Nat) (h : n ≤ maxSize) :
    checkMaxSize maxSize n = some (maxSize - n) := by
  simp [checkMaxSize, Nat.not_lt.mpr h]

theorem VorbisCommentField.parse_sample_field (maxSize : Nat) (diag : Diagnostics)
    (hmax : 13 ≤ maxSize) :
    VorbisCommentField.parse ⟨sampleComment, 21⟩ maxSize diag =
      ⟨.returned ⟨ascii "YEAR", TagValue.utf8 (ascii "2021")⟩, ⟨sampleComment, 34⟩,
        maxSize - 4 - 9, diag⟩ := by
  have hr1 : (⟨sampleComment, 21⟩ : IStream).read 4 = some ([9, 0, 0, 0], ⟨sampleComment, 25⟩) := by
    decide
  have hsz : LE.toUInt32 [9, 0, 0, 0] = 9 := by decide
  have hr2 : (⟨sampleComment, 25⟩ : IStream).read 9 = some (ascii "YEAR=2021", ⟨sampleComment, 34⟩) := by
    decide
  have hle : 9 ≤ maxSize - 4 := by omega
  unfold VorbisCommentField.parse
  simp only [checkMaxSize_of_le maxSize 4 (by omega), hr1, hsz, hle, if_true, hr2]
  have hid : (ascii "YEAR=2021").takeWhile (fun c => c != 61) = ascii "YEAR" := by decide
  simp only [hid]
  have hv : (if (ascii "YEAR").length + 1 < 9 then
      TagValue.utf8 ((ascii "YEAR=2021").drop ((ascii "YEAR").length + 1))
      else TagValue.empty) = TagValue.utf8 (ascii "2021") := by decide
  rw [hv]

/-- C3: parsing the sample comment (`0x03 vorbis`, vendor `Lavf58`, one field
`YEAR=2021`, framing byte) with the flags `None` and any maximum size that covers
its 34 bytes before the framing byte returns without any diagnostic; the vendor is
`Lavf58`, the field map has exactly one entry, keyed `DATE`, which is the identifier
of `RecordDate`, and `value(RecordDate)` is the text `2021`. -/
theorem VorbisComment.parse_sample_comment (maxSize : Nat) (hmax : 34 ≤ maxSize) :
    (VorbisComment.internalParse VorbisCommentField.parse VorbisComment.fresh
        ⟨sampleComment, 0⟩ maxSize VorbisCommentFlags.None []).outcome = .returned () ∧
    (VorbisComment.internalParse VorbisCommentField.parse VorbisComment.fresh
        ⟨sampleComment, 0⟩ maxSize VorbisCommentFlags.None []).diag = [] ∧
    (VorbisComment.internalParse VorbisCommentField.parse VorbisComment.fresh
        ⟨sampleComment, 0⟩ maxSize VorbisCommentFlags.None []).tag.vendor
      = TagValue.utf8 (ascii "Lavf58") ∧
    (VorbisComment.internalParse VorbisCommentField.parse VorbisComment.fresh
        ⟨sampleComment, 0⟩ maxSize VorbisCommentFlags.None []).tag.fields
      = [(ascii "DATE", ⟨ascii "YEAR", TagValue.utf8 (ascii "2021")⟩)] ∧
    VorbisComment.internallyGetFieldId .RecordDate = ascii "DATE" ∧
    VorbisComment.value (VorbisComment.internalParse VorbisCommentField.parse
        VorbisComment.fresh ⟨sampleComment, 0⟩ maxSize VorbisCommentFlags.None []).tag
        .RecordDate = TagValue.utf8 (ascii "2021") ∧
    (VorbisComment.internalParse VorbisCommentField.parse VorbisComment.fresh
        ⟨sampleComment, 0⟩ maxSize VorbisCommentFlags.None []).tag.size = 35 := by
  have hsig : signatureStep VorbisCommentFlags.None ⟨sampleComment, 0⟩ maxSize
      = some (⟨sampleComment, 7⟩, maxSize - 7) := by
    have h7 : 7 ≤ maxSize := by omega
    have hr : (⟨sampleComment, 0⟩ : IStream).read 7
        = some (makeSignature, ⟨sampleComment, 7⟩) := by decide
    have hm : signatureMatches makeSignature 0 = true := by decide
    have hf : VorbisCommentFlags.and VorbisCommentFlags.None VorbisCommentFlags.NoSignature
        = false := by decide
    simp only [signatureStep, hf, h7, hr, hm, if_true, Bool.false_eq_true, if_false]
  have hr1 : (⟨sampleComment, 7⟩ : IStream).read 4 = some ([6, 0, 0, 0], ⟨sampleComment, 11⟩) := by
    decide
  have hsz : LE.toUInt32 [6, 0, 0, 0] = 6 := by decide
  have hr2 : (⟨sampleComment, 11⟩ : IStream).read (LE.toUInt32 [6, 0, 0, 0])
      = some (ascii "Lavf58", ⟨sampleComment, 17⟩) := by decide
  have hr3 : (⟨sampleComment, 17⟩ : IStream).read 4 = some ([1, 0, 0, 0], ⟨sampleComment, 21⟩) := by
    decide
  have hcnt : LE.toUInt32 [1, 0, 0, 0] = 1 := by decide
  have hfields : ∀ tag : VorbisComment,
      VorbisComment.parseFields VorbisCommentField.parse 1 tag ⟨sampleComment, 21⟩
        (maxSize - 7 - 4 - 6 - 4) [] =
      ⟨⟨tag.vendor,
          FieldMap.insert tag.fields (ascii "YEAR", ⟨ascii "YEAR", TagValue.utf8 (ascii "2021")⟩),
          tag.size⟩,
        ⟨sampleComment, 34⟩, [], .returned ()⟩ := by
    intro tag
    simp only [VorbisComment.parseFields,
      VorbisCommentField.parse_sample_field (maxSize - 7 - 4 - 6 - 4) [] (by omega)]
  have hparsed : VorbisComment.parsedFields VorbisCommentField.parse 1 ⟨sampleComment, 21⟩
        (maxSize - 7 - 4 - 6 - 4) [] = [⟨ascii "YEAR", TagValue.utf8 (ascii "2021")⟩] := by
    simp only [VorbisComment.parsedFields,
      VorbisCommentField.parse_sample_field (maxSize - 7 - 4 - 6 - 4) [] (by omega)]
  have hres : VorbisComment.internalParse VorbisCommentField.parse VorbisComment.fresh
        ⟨sampleComment, 0⟩ maxSize VorbisCommentFlags.None [] =
      ⟨⟨TagValue.utf8 (ascii "Lavf58"),
          [(ascii "DATE", ⟨ascii "YEAR", TagValue.utf8 (ascii "2021")⟩)], 35⟩,
        ⟨sampleComment, 35⟩, [], .returned ()⟩ := by
    rw [VorbisComment.internalParse_of_signatureStep _ _ _ _ _ _ _ _ hsig,
      VorbisComment.parseAfterSignature_eq VorbisCommentField.parse VorbisComment.fresh
        ⟨sampleComment, 7⟩ (maxSize - 7) VorbisCommentFlags.None [] _ [6, 0, 0, 0]
        (ascii "Lavf58") [1, 0, 0, 0] ⟨sampleComment, 11⟩ ⟨sampleComment, 17⟩
        ⟨sampleComment, 21⟩ (by omega) hr1 (by rw [hsz]; omega) hr2 (by rw [hsz]; omega) hr3]
    simp only [hsz, hcnt, hfields, hparsed]
    rw [VorbisComment.catchTruncated_of_returned _ _ rfl]
    decide
  rw [hres]
  decide

/-- Witness for C3: the maximum size 35, the length of the sample comment. -/
theorem VorbisComment.parse_sample_comment_witness :
    sampleComment.length = 35 ∧
    (VorbisComment.internalParse VorbisCommentField.parse VorbisComment.fresh
        ⟨sampleComment, 0⟩ 35 VorbisCommentFlags.None []).tag.fields
      = [(ascii "DATE", ⟨ascii "YEAR", TagValue.utf8 (ascii "2021")⟩)] ∧
    VorbisComment.value (VorbisComment.internalParse VorbisCommentField.parse
        VorbisComment.fresh ⟨sampleComment, 0⟩ 35 VorbisCommentFlags.None []).tag
        .RecordDate = TagValue.utf8 (ascii "2021") :=
  have h := VorbisComment.parse_sample_comment 35 (by decide)
  ⟨by decide, h.2.2.2.1, h.2.2.2.2.2.1⟩

/-! ## Vorbis comments: make followed by parse -/

theorem LE.toUInt32_writeUInt32LE (n : Nat) : LE.toUInt32 (writeUInt32LE n) = n % 2 ^ 32 := by
  simp only [LE.toUInt32, writeUInt32LE, List.getD_cons_zero, List.getD_cons_succ]
  omega

theorem length_writeUInt32LE (n : Nat) : (writeUInt32LE n).length = 4 := rfl

theorem IStream.read_of_drop (data : Bytes) (pos n : Nat) (x rest : Bytes)
    (hpos : pos ≤ data.length) (hn : x.length = n) (h : data.drop pos = x ++ rest) :
    (⟨data, pos⟩ : IStream).read n = some (x, ⟨data, pos + n⟩) ∧
    data.drop (pos + n) = rest ∧ pos + n ≤ data.length := by
  have hlen : data.length - pos = x.length + rest.length := by
    rw [← List.length_drop, h, List.length_append]
  have hle : pos + n ≤ data.length := by omega
  refine ⟨?_, ?_, hle⟩
  · unfold IStream.read
    simp only [hle, if_true, h, Option.some.injEq, Prod.mk.injEq, and_true]
    rw [← hn]
    exact List.take_left x rest
  · rw [← List.drop_drop, h, ← hn]
    exact List.drop_left x rest

theorem OStream.write_at_end (s : OStream) (b : Bytes) (hend : s.pos = s.data.length) :
    s.write b = ⟨s.data ++ b, s.data.length + b.length⟩ := by
  unfold OStream.write
  rw [hend, List.take_length, List.drop_eq_nil_of_le (by omega), List.append_nil]

theorem length_serializeField (f : VorbisCommentField) :
    (serializeField f).length = 4 + (f.value.data.length + f.id.length + 1) := by
  simp only [serializeField, List.length_append, length_writeUInt32LE, List.length_cons,
    List.length_nil]
  omega

theorem takeWhile_ne_of_not_mem (id val : Bytes) (hid : 61 ∉ id) :
    (id ++ [61] ++ val).takeWhile (fun c => c != 61) = id := by
  induction id with
  | nil => simp
  | cons x xs ih =>
    have hx : x ≠ 61 := fun h => hid (by simp [h])
    have hxs : 61 ∉ xs := fun h => hid (List.mem_cons_of_mem _ h)
    simp only [List.cons_append, List.takeWhile_cons, bne_iff_ne, ne_eq, hx, not_false_eq_true,
      if_true, List.cons.injEq, true_and]
    simpa using ih hxs

theorem VorbisCommentField.parse_serializeField (f : VorbisCommentField) (data : Bytes)
    (pos : Nat) (rest : Bytes) (maxSize : Nat) (diag : Diagnostics)
    (htype : f.value.type = .Text) (henc : f.value.encoding = .Utf8)
    (hne : f.value.data ≠ []) (hid : 61 ∉ f.id)
    (hsize : f.value.data.length + f.id.length + 1 < 2 ^ 32)
    (hpos : pos ≤ data.length) (hdrop : data.drop pos = serializeField f ++ rest)
    (hmax : (serializeField f).length ≤ maxSize) :
    VorbisCommentField.parse ⟨data, pos⟩ maxSize diag =
      ⟨.returned f, ⟨data, pos + (serializeField f).length⟩,
        maxSize - (serializeField f).length, diag⟩ ∧
    data.drop (pos + (serializeField f).length) = rest ∧
    pos + (serializeField f).length ≤ data.length := by
  have hlen := length_serializeField f
  have hd1 : data.drop pos = writeUInt32LE (f.value.data.length + f.id.length + 1)
      ++ ((f.id ++ [61] ++ f.value.data) ++ rest) := by
    rw [hdrop, serializeField]; simp only [List.append_assoc]
  obtain ⟨hr1, hd2, hp2⟩ := IStream.read_of_drop data pos 4 _ _ hpos (length_writeUInt32LE _) hd1
  have hsz : LE.toUInt32 (writeUInt32LE (f.value.data.length + f.id.length + 1))
      = f.value.data.length + f.id.length + 1 := by
    rw [LE.toUInt32_writeUInt32LE]; exact Nat.mod_eq_of_lt hsize
  have hbody : (f.id ++ [61] ++ f.value.data).length = f.value.data.length + f.id.length + 1 := by
    simp only [List.length_append, List.length_cons, List.length_nil]; omega
  obtain ⟨hr2, hd3, hp3⟩ := IStream.read_of_drop data (pos + 4)
    (f.value.data.length + f.id.length + 1) _ _ hp2 hbody hd2
  have hvlen : 0 < f.value.data.length := List.length_pos.mpr hne
  have hval : (⟨f.id, TagValue.utf8 f.value.data⟩ : VorbisCommentField) = f := by
    cases f with
    | mk id value =>
      cases value with
      | mk type encoding d =>
        simp only at htype henc
        subst htype henc
        rfl
  refine ⟨?_, by rw [hlen, ← Nat.add_assoc]; exact hd3, by rw [hlen, ← Nat.add_assoc]; exact hp3⟩
  unfold VorbisCommentField.parse
  have hle : f.value.data.length + f.id.length + 1 ≤ maxSize - 4 := by omega
  simp only [checkMaxSize_of_le maxSize 4 (by omega), hr1, hsz, hle, if_true, hr2,
    takeWhile_ne_of_not_mem f.id f.value.data hid]
  have hlt : f.id.length + 1 < f.value.data.length + f.id.length + 1 := by omega
  have hdropv : (f.id ++ [61] ++ f.value.data).drop (f.id.length + 1) = f.value.data := by
    have := List.drop_left (f.id ++ [61]) f.value.data
    simp only [List.length_append, List.length_cons, List.length_nil] at this
    exact this
  simp only [hlt, if_true, hdropv, hval, hlen]
  congr 1
  · congr 1; omega
  · omega

theorem VorbisComment.parseFields_serializeFields :
    ∀ (fields : FieldMap) (tag : VorbisComment) (data : Bytes) (pos : Nat) (rest : Bytes)
      (maxSize : Nat) (diag : Diagnostics),
      (∀ e ∈ fields, e.2.value.type = .Text ∧ e.2.value.encoding = .Utf8 ∧
        e.2.value.data ≠ [] ∧ 61 ∉ e.2.id ∧
        e.2.value.data.length + e.2.id.length + 1 < 2 ^ 32) →
      pos ≤ data.length → data.drop pos = serializeFields fields ++ rest →
      (serializeFields fields).length ≤ maxSize →
      (VorbisComment.parseFields VorbisCommentField.parse fields.length tag ⟨data, pos⟩ maxSize
          diag).outcome = .returned () ∧
      (VorbisComment.parseFields VorbisCommentField.parse fields.length tag ⟨data, pos⟩ maxSize
          diag).stream = ⟨data, pos + (serializeFields fields).length⟩ ∧
      (VorbisComment.parseFields VorbisCommentField.parse fields.length tag ⟨data, pos⟩ maxSize
          diag).diag = diag ∧
      VorbisComment.parsedFields VorbisCommentField.parse fields.length ⟨data, pos⟩ maxSize diag
        = fields.map (fun e => e.2) := by
  intro fields
  induction fields with
  | nil =>
    intro tag data pos rest maxSize diag _ _ _ _
    simp [VorbisComment.parseFields, VorbisComment.parsedFields, serializeFields]
  | cons e es ih =>
    intro tag data pos rest maxSize diag hwf hpos hdrop hmax
    obtain ⟨ht, he, hn, hi, hs⟩ := hwf e (List.mem_cons_self _ _)
    have hdrop1 : data.drop pos = serializeField e.2 ++ (serializeFields es ++ rest) := by
      rw [hdrop, serializeFields, List.append_assoc]
    have hlen : (serializeFields (e :: es)).length
        = (serializeField e.2).length + (serializeFields es).length := by
      rw [serializeFields, List.length_append]
    obtain ⟨hp, hd2, hp2⟩ := VorbisCommentField.parse_serializeField e.2 data pos _ maxSize diag
      ht he hn hi hs hpos hdrop1 (by omega)
    obtain ⟨i1, i2, i3, i4⟩ := ih
      ⟨tag.vendor, FieldMap.insert tag.fields (e.2.id, e.2), tag.size⟩ data
      (pos + (serializeField e.2).length) rest (maxSize - (serializeField e.2).length) diag
      (fun x hx => hwf x (List.mem_cons_of_mem _ hx)) hp2 hd2 (by omega)
    simp only [List.length_cons, VorbisComment.parseFields, VorbisComment.parsedFields, hp,
      List.map_cons, hlen]
    refine ⟨i1, ?_, i3, ?_⟩
    · rw [i2, Nat.add_assoc]
    · rw [i4]

theorem VorbisCommentField.make_text (f : VorbisCommentField) (flags : VorbisCommentFlags)
    (diag : Diagnostics)
    (hcov : VorbisCommentFlags.and flags VorbisCommentFlags.NoCovers = false)
    (htype : f.value.type = .Text) (henc : f.value.encoding = .Utf8) :
    VorbisCommentField.make f flags diag = ⟨.returned true, serializeField f, diag⟩ := by
  unfold VorbisCommentField.make
  simp only [hcov, Bool.and_false, Bool.false_eq_true, if_false, TagValue.toString, htype, henc,
    and_self, if_true, serializeField]

theorem VorbisComment.makeFields_text (flags : VorbisCommentFlags)
    (hcov : VorbisCommentFlags.and flags VorbisCommentFlags.NoCovers = false) :
    ∀ (fields : FieldMap) (stream : OStream) (n : Nat) (diag : Diagnostics),
      (∀ e ∈ fields, e.2.value.type = .Text ∧ e.2.value.encoding = .Utf8 ∧
        e.2.value.data ≠ []) →
      stream.pos = stream.data.length → n < 2 ^ 32 →
      VorbisComment.makeFields VorbisCommentField.make flags fields stream n diag =
        ⟨⟨stream.data ++ serializeFields fields,
            stream.data.length + (serializeFields fields).length⟩,
          (n + fields.length) % 2 ^ 32, diag, .returned ()⟩ := by
  intro fields
  induction fields with
  | nil =>
    intro stream n diag _ hend hn
    cases stream with
    | mk d p =>
      simp only at hend
      subst hend
      have hm : n % 2 ^ 32 = n := Nat.mod_eq_of_lt hn
      simp only [VorbisComment.makeFields, serializeFields, List.append_nil, List.length_nil,
        Nat.add_zero, hm]
  | cons e es ih =>
    intro stream n diag hwf hend hn
    obtain ⟨ht, he, hne⟩ := hwf e (List.mem_cons_self _ _)
    have hempty : e.2.value.isEmpty = false := by
      unfold TagValue.isEmpty
      cases hd : e.2.value.data with
      | nil => exact absurd hd hne
      | cons _ _ => rfl
    have hstep := ih (stream.write (serializeField e.2)) ((n + 1) % 2 ^ 32) diag
      (fun x hx => hwf x (List.mem_cons_of_mem _ hx))
      (by rw [OStream.write_at_end _ _ hend]; simp)
      (Nat.mod_lt _ (by norm_num))
    obtain ⟨k, f⟩ := e
    simp only [VorbisComment.makeFields, hempty, Bool.not_false, if_true,
      VorbisCommentField.make_text f flags diag hcov ht he]
    rw [hstep, OStream.write_at_end _ _ hend]
    simp only [serializeFields, List.append_assoc, List.length_append, List.length_cons,
      MakeFieldsResult.mk.injEq, OStream.mk.injEq, true_and, and_true]
    constructor
    · omega
    · omega

theorem writeUInt32LE_mod (n : Nat) : writeUInt32LE (n % 2 ^ 32) = writeUInt32LE n := by
  simp only [writeUInt32LE, Nat.mod_mod]

theorem OStream.overwrite_middle (a p f c : Bytes) (pos : Nat) (hp : p.length = c.length) :
    ((⟨a ++ p ++ f, pos⟩ : OStream).seekp a.length).write c
      = ⟨a ++ c ++ f, a.length + c.length⟩ := by
  unfold OStream.seekp OStream.write
  simp only [OStream.mk.injEq, and_true]
  have h1 : (a ++ p ++ f).take a.length = a := by
    rw [List.append_assoc]; exact List.take_left a (p ++ f)
  have h2 : (a ++ p ++ f).drop (a.length + c.length) = f := by
    rw [← hp, ← List.length_append]; exact List.drop_left (a ++ p) f
  rw [h1, h2]

theorem VorbisComment.make_text_tag (tag : VorbisComment) (vendor : Bytes)
    (flags : VorbisCommentFlags) (diag : Diagnostics)
    (hvendor : tag.vendor = TagValue.utf8 vendor)
    (hcov : VorbisCommentFlags.and flags VorbisCommentFlags.NoCovers = false)
    (hwf : ∀ e ∈ tag.fields, e.2.value.type = .Text ∧ e.2.value.encoding = .Utf8 ∧
      e.2.value.data ≠ []) :
    VorbisComment.make VorbisCommentField.make tag ⟨[], 0⟩ flags diag =
      ⟨⟨commentBlock flags vendor tag.fields, (commentBlock flags vendor tag.fields).length⟩,
        diag, .returned ()⟩ := by
  have hts : tag.vendor.toString = some vendor := by
    rw [hvendor]; rfl
  -- the stream in front of the field count
  have hhead : ∀ sig : Bytes,
      (((⟨sig, sig.length⟩ : OStream).write (writeUInt32LE vendor.length)).write vendor)
        = ⟨sig ++ writeUInt32LE vendor.length ++ vendor,
            (sig ++ writeUInt32LE vendor.length ++ vendor).length⟩ := by
    intro sig
    rw [OStream.write_at_end ⟨sig, sig.length⟩ (writeUInt32LE vendor.length) rfl]
    rw [OStream.write_at_end _ _ (by simp only [List.length_append])]
    simp only [List.length_append]
  have hsig : (if !(VorbisCommentFlags.and flags VorbisCommentFlags.NoSignature) then
        (⟨[], 0⟩ : OStream).write makeSignature else ⟨[], 0⟩)
      = ⟨(if !(VorbisCommentFlags.and flags VorbisCommentFlags.NoSignature) then makeSignature
          else []),
        (if !(VorbisCommentFlags.and flags VorbisCommentFlags.NoSignature) then makeSignature
          else []).length⟩ := by
    cases VorbisCommentFlags.and flags VorbisCommentFlags.NoSignature <;> rfl
  unfold VorbisComment.make
  simp only [hts, Option.getD_some, hsig, hhead]
  generalize hA : (if !(VorbisCommentFlags.and flags VorbisCommentFlags.NoSignature) then
    makeSignature else []) ++ writeUInt32LE vendor.length ++ vendor = a
  rw [OStream.write_at_end _ _ rfl]
  rw [VorbisComment.makeFields_text flags hcov tag.fields _ 0 diag hwf (by simp) (by norm_num)]
  simp only [OStream.tellp, Nat.zero_add, writeUInt32LE_mod]
  rw [OStream.overwrite_middle a (writeUInt32LE 0) (serializeFields tag.fields)
    (writeUInt32LE tag.fields.length) _ rfl]
  unfold commentBlock
  rw [hA]
  cases VorbisCommentFlags.and flags VorbisCommentFlags.NoFramingByte with
  | true =>
    simp only [Bool.not_true, Bool.false_eq_true, if_false, OStream.seekp, List.append_nil,
      List.length_append, length_writeUInt32LE]
  | false =>
    simp only [Bool.not_false, if_true, OStream.seekp]
    rw [OStream.write_at_end _ _ (by simp only [List.length_append, length_writeUInt32LE])]
    simp only [List.length_append, length_writeUInt32LE]

theorem length_serializeFields_ge (fields : FieldMap) :
    fields.length ≤ (serializeFields fields).length ∧
    ∀ e ∈ fields, (serializeField e.2).length ≤ (serializeFields fields).length := by
  induction fields with
  | nil => simp [serializeFields]
  | cons x xs ih =>
    have hx := length_serializeField x.2
    simp only [serializeFields, List.length_append, List.length_cons]
    refine ⟨by omega, ?_⟩
    intro e he
    rcases List.mem_cons.mp he with h | h
    · rw [h]; omega
    · have := ih.2 e h; omega

theorem signatureStep_commentBlock (flags : VorbisCommentFlags) (rest : Bytes) :
    signatureStep flags
        ⟨(if !(VorbisCommentFlags.and flags VorbisCommentFlags.NoSignature) then makeSignature
          else []) ++ rest, 0⟩
        ((if !(VorbisCommentFlags.and flags VorbisCommentFlags.NoSignature) then makeSignature
          else []) ++ rest).length =
      some (⟨(if !(VorbisCommentFlags.and flags VorbisCommentFlags.NoSignature) then makeSignature
          else []) ++ rest,
          (if !(VorbisCommentFlags.and flags VorbisCommentFlags.NoSignature) then makeSignature
          else []).length⟩, rest.length) := by
  unfold signatureStep
  cases hflag : VorbisCommentFlags.and flags VorbisCommentFlags.NoSignature with
  | true => simp
  | false =>
    simp only [Bool.not_false, if_true, Bool.false_eq_true, if_false]
    have hread := IStream.read_of_drop (makeSignature ++ rest) 0 7 makeSignature rest
      (Nat.zero_le _) rfl rfl
    have h7 : 7 ≤ (makeSignature ++ rest).length := by
      rw [List.length_append]; exact Nat.le_add_right 7 _
    have hm : signatureMatches makeSignature 0 = true := by decide
    simp only [h7, if_true, hread.1, hm, Nat.zero_add, Option.some.injEq, Prod.mk.injEq]
    refine ⟨rfl, ?_⟩
    rw [List.length_append]
    exact Nat.add_sub_cancel_left 7 rest.length

theorem VorbisComment.internalParse_commentBlock (tag0 : VorbisComment)
    (flags : VorbisCommentFlags) (vendor : Bytes) (fields : FieldMap) (diag : Diagnostics)
    (hwf : ∀ e ∈ fields, e.2.value.type = .Text ∧ e.2.value.encoding = .Utf8 ∧
      e.2.value.data ≠ [] ∧ 61 ∉ e.2.id)
    (hsize : (commentBlock flags vendor fields).length < 2 ^ 32) :
    VorbisComment.internalParse VorbisCommentField.parse tag0
        ⟨commentBlock flags vendor fields, 0⟩ (commentBlock flags vendor fields).length flags
        diag =
      ⟨⟨TagValue.utf8 vendor,
          normalizeYear ((fields.map (fun e => e.2)).foldl
            (fun acc f => FieldMap.insert acc (f.id, f)) tag0.fields),
          (commentBlock flags vendor fields).length⟩,
        ⟨commentBlock flags vendor fields, (commentBlock flags vendor fields).length⟩, diag,
        .returned ()⟩ := by
  -- the parts of the block
  generalize hs : (if !(VorbisCommentFlags.and flags VorbisCommentFlags.NoSignature) then
    makeSignature else []) = s at *
  have hblock : commentBlock flags vendor fields =
      s ++ (writeUInt32LE vendor.length ++ (vendor ++ (writeUInt32LE fields.length ++
        (serializeFields fields ++
          (if !(VorbisCommentFlags.and flags VorbisCommentFlags.NoFramingByte) then [0x01]
            else []))))) := by
    unfold commentBlock
    rw [hs]
    simp only [List.append_assoc]
  generalize hfr : (if !(VorbisCommentFlags.and flags VorbisCommentFlags.NoFramingByte) then
    ([0x01] : Bytes) else []) = fr at hblock
  generalize commentBlock flags vendor fields = data at *
  have hlen : data.length = s.length + (4 + (vendor.length + (4 +
      ((serializeFields fields).length + fr.length)))) := by
    rw [hblock]
    simp only [List.length_append, length_writeUInt32LE]
  have hge := length_serializeFields_ge fields
  -- the signature
  have hstep : signatureStep flags ⟨data, 0⟩ data.length = some (⟨data, s.length⟩,
      (writeUInt32LE vendor.length ++ (vendor ++ (writeUInt32LE fields.length ++
        (serializeFields fields ++ fr)))).length) := by
    have := signatureStep_commentBlock flags
      (writeUInt32LE vendor.length ++ (vendor ++ (writeUInt32LE fields.length ++
        (serializeFields fields ++ fr))))
    rw [hs, ← hblock] at this
    exact this
  have hrest : (writeUInt32LE vendor.length ++ (vendor ++ (writeUInt32LE fields.length ++
      (serializeFields fields ++ fr)))).length = data.length - s.length := by
    rw [hlen]
    simp only [List.length_append, length_writeUInt32LE]
    omega
  rw [hrest] at hstep
  rw [VorbisComment.internalParse_of_signatureStep _ _ _ _ _ _ _ _ hstep]
  -- the reads
  have hd0 : data.drop s.length = writeUInt32LE vendor.length ++ (vendor ++
      (writeUInt32LE fields.length ++ (serializeFields fields ++ fr))) := by
    rw [hblock]; exact List.drop_left s _
  obtain ⟨r1, d1, p1⟩ := IStream.read_of_drop data s.length 4 _ _ (by omega)
    (length_writeUInt32LE _) hd0
  have hv : LE.toUInt32 (writeUInt32LE vendor.length) = vendor.length := by
    rw [LE.toUInt32_writeUInt32LE]; exact Nat.mod_eq_of_lt (by omega)
  obtain ⟨r2, d2, p2⟩ := IStream.read_of_drop data (s.length + 4) vendor.length vendor _ p1 rfl d1
  obtain ⟨r3, d3, p3⟩ := IStream.read_of_drop data (s.length + 4 + vendor.length) 4 _ _ p2
    (length_writeUInt32LE _) d2
  have hc : LE.toUInt32 (writeUInt32LE fields.length) = fields.length := by
    rw [LE.toUInt32_writeUInt32LE]; exact Nat.mod_eq_of_lt (by omega)
  have hwf2 : ∀ e ∈ fields, e.2.value.type = .Text ∧ e.2.value.encoding = .Utf8 ∧
      e.2.value.data ≠ [] ∧ 61 ∉ e.2.id ∧
      e.2.value.data.length + e.2.id.length + 1 < 2 ^ 32 := by
    intro e he
    obtain ⟨h1, h2, h3, h4⟩ := hwf e he
    have := hge.2 e he
    have := length_serializeField e.2
    exact ⟨h1, h2, h3, h4, by omega⟩
  obtain ⟨f1, f2, f3, f4⟩ := VorbisComment.parseFields_serializeFields fields
    ⟨TagValue.assignData vendor .Text .Utf8, tag0.fields, tag0.size⟩ data
    (s.length + 4 + vendor.length + 4) fr (data.length - s.length - 4 - vendor.length - 4) diag
    hwf2 p3 d3 (by omega)
  have r2b : (⟨data, s.length + 4⟩ : IStream).read (LE.toUInt32 (writeUInt32LE vendor.length))
      = some (vendor, ⟨data, s.length + 4 + vendor.length⟩) := by
    rw [hv]; exact r2
  rw [VorbisComment.parseAfterSignature_eq VorbisCommentField.parse tag0 ⟨data, s.length⟩
    (data.length - s.length) flags diag _ (writeUInt32LE vendor.length) vendor
    (writeUInt32LE fields.length) ⟨data, s.length + 4⟩ ⟨data, s.length + 4 + vendor.length⟩
    ⟨data, s.length + 4 + vendor.length + 4⟩ (by omega) r1 (by rw [hv]; omega) r2b
    (by rw [hv]; omega) r3]
  simp only [hv, hc, f1, f2, f3, f4]
  rw [VorbisComment.catchTruncated_of_returned _ _ rfl]
  have hpos : (if !(VorbisCommentFlags.and flags VorbisCommentFlags.NoFramingByte) then
      (⟨data, s.length + 4 + vendor.length + 4 + (serializeFields fields).length⟩ : IStream).ignore
      else ⟨data, s.length + 4 + vendor.length + 4 + (serializeFields fields).length⟩)
      = ⟨data, data.length⟩ := by
    cases hb : VorbisCommentFlags.and flags VorbisCommentFlags.NoFramingByte with
    | true =>
      rw [hb] at hfr
      simp only [Bool.not_true, Bool.false_eq_true, if_false] at hfr ⊢
      rw [← hfr] at hlen
      simp only [List.length_nil] at hlen
      congr 1; omega
    | false =>
      rw [hb] at hfr
      simp only [Bool.not_false, if_true] at hfr ⊢
      rw [← hfr] at hlen
      simp only [List.length_cons, List.length_nil] at hlen
      unfold IStream.ignore
      have : s.length + 4 + vendor.length + 4 + (serializeFields fields).length < data.length := by
        omega
      simp only [this, if_true]
      congr 1; omega
  rw [hpos]
  have hsz : sizeSince ⟨data, data.length⟩ (IStream.tellg ⟨data, 0⟩) = data.length := by
    simp only [sizeSince, IStream.tellg]
    omega
  rw [hsz]
  rfl

theorem normalizeYear_of_no_year (m : FieldMap) (hm : FieldMap.Sorted m)
    (hny : ∀ e ∈ m, keyEquiv e.1 VorbisCommentIds.year = false) : normalizeYear m = m := by
  unfold normalizeYear
  split
  · have hrange : FieldMap.equalRange m VorbisCommentIds.year = [] := by
      rw [FieldMap.equalRange_eq_filter m _ hm]
      exact List.filter_eq_nil_iff.mpr (by intro e he; simp [hny e he])
    simp only [hrange, List.foldl_nil]
    rw [FieldMap.eraseRange_eq_filter m _ hm]
    exact List.filter_eq_self.mpr (by intro e he; simp [hny e he])
  · rfl

theorem flags_and_noCovers (flags : Nat) (h : flags < 4) :
    VorbisCommentFlags.and flags VorbisCommentFlags.NoCovers = false := by
  have h4 : flags = 0 ∨ flags = 1 ∨ flags = 2 ∨ flags = 3 := by omega
  rcases h4 with h | h | h | h <;> subst h <;> decide

/-- C4 as amended: for each of the four combinations of `NoSignature` and
`NoFramingByte`, and for every tag whose vendor and field values are non-empty UTF-8
text, whose identifiers contain no `=`, which has no `YEAR` field and whose block
as written by `make` is shorter than 2^32 bytes: `make` returns, and parsing the
bytes written with the same flags and `maxSize` the number of bytes written
returns, consumes exactly the bytes written, sets the size to that number and
yields the same vendor and the same multiset of (identifier, value) fields. -/
theorem VorbisComment.parse_of_make (tag : VorbisComment) (vendor : Bytes)
    (flags : VorbisCommentFlags) (diag diag1 : Diagnostics)
    (hflags : flags < 4)
    (hvendor : tag.vendor = TagValue.utf8 vendor) (_hvendorNonEmpty : vendor ≠ [])
    (hwf : ∀ e ∈ tag.fields, e.2.value.type = .Text ∧ e.2.value.encoding = .Utf8 ∧
      e.2.value.data ≠ [] ∧ 61 ∉ e.2.id ∧ keyEquiv e.2.id VorbisCommentIds.year = false)
    (hsize : (VorbisComment.make VorbisCommentField.make tag ⟨[], 0⟩ flags
      diag).stream.data.length < 2 ^ 32) :
    (VorbisComment.make VorbisCommentField.make tag ⟨[], 0⟩ flags diag).outcome
      = .returned () ∧
    (VorbisComment.internalParse VorbisCommentField.parse VorbisComment.fresh
        ⟨(VorbisComment.make VorbisCommentField.make tag ⟨[], 0⟩ flags diag).stream.data, 0⟩
        (VorbisComment.make VorbisCommentField.make tag ⟨[], 0⟩ flags diag).stream.data.length
        flags diag1).outcome = .returned () ∧
    (VorbisComment.internalParse VorbisCommentField.parse VorbisComment.fresh
        ⟨(VorbisComment.make VorbisCommentField.make tag ⟨[], 0⟩ flags diag).stream.data, 0⟩
        (VorbisComment.make VorbisCommentField.make tag ⟨[], 0⟩ flags diag).stream.data.length
        flags diag1).stream.pos
      = (VorbisComment.make VorbisCommentField.make tag ⟨[], 0⟩ flags diag).stream.data.length ∧
    (VorbisComment.internalParse VorbisCommentField.parse VorbisComment.fresh
        ⟨(VorbisComment.make VorbisCommentField.make tag ⟨[], 0⟩ flags diag).stream.data, 0⟩
        (VorbisComment.make VorbisCommentField.make tag ⟨[], 0⟩ flags diag).stream.data.length
        flags diag1).tag.size
      = (VorbisComment.make VorbisCommentField.make tag ⟨[], 0⟩ flags diag).stream.data.length ∧
    (VorbisComment.internalParse VorbisCommentField.parse VorbisComment.fresh
        ⟨(VorbisComment.make VorbisCommentField.make tag ⟨[], 0⟩ flags diag).stream.data, 0⟩
        (VorbisComment.make VorbisCommentField.make tag ⟨[], 0⟩ flags diag).stream.data.length
        flags diag1).tag.vendor = tag.vendor ∧
    ((VorbisComment.internalParse VorbisCommentField.parse VorbisComment.fresh
        ⟨(VorbisComment.make VorbisCommentField.make tag ⟨[], 0⟩ flags diag).stream.data, 0⟩
        (VorbisComment.make VorbisCommentField.make tag ⟨[], 0⟩ flags diag).stream.data.length
        flags diag1).tag.fields.map (fun e => (e.2.id, e.2.value))).Perm
      (tag.fields.map (fun e => (e.2.id, e.2.value))) := by
  have hmake := VorbisComment.make_text_tag tag vendor flags diag hvendor
    (flags_and_noCovers flags hflags) (fun e he => ⟨(hwf e he).1, (hwf e he).2.1, (hwf e he).2.2.1⟩)
  rw [hmake] at hsize ⊢
  simp only at hsize ⊢
  rw [VorbisComment.internalParse_commentBlock VorbisComment.fresh flags vendor tag.fields diag1
    (fun e he => ⟨(hwf e he).1, (hwf e he).2.1, (hwf e he).2.2.1, (hwf e he).2.2.2.1⟩) hsize]
  obtain ⟨hs, _, _, hperm⟩ := FieldMap.foldl_insert_fields (tag.fields.map (fun e => e.2)) []
    FieldMap.sorted_nil
  have hny : ∀ e ∈ (tag.fields.map (fun e => e.2)).foldl
      (fun acc f => FieldMap.insert acc (f.id, f)) [],
      keyEquiv e.1 VorbisCommentIds.year = false := by
    intro e he
    rw [hperm.mem_iff, List.nil_append, List.map_map, List.mem_map] at he
    obtain ⟨x, hx, hxe⟩ := he
    rw [← hxe]
    exact (hwf x hx).2.2.2.2
  refine ⟨trivial, rfl, rfl, rfl, hvendor.symm, ?_⟩
  simp only [VorbisComment.fresh]
  rw [normalizeYear_of_no_year _ hs hny]
  have h2 := hperm.map (fun e => (e.2.id, e.2.value))
  simp only [List.nil_append, List.map_map] at h2
  exact h2

theorem VorbisComment.vendor_of_length_two_pow_32 (vendor : Bytes)
    (hlen : vendor.length = 2 ^ 32) (diag diag1 : Diagnostics) :
    ¬ ((VorbisComment.internalParse VorbisCommentField.parse VorbisComment.fresh
          ⟨(VorbisComment.make VorbisCommentField.make ⟨TagValue.utf8 vendor, [], 0⟩ ⟨[], 0⟩ 3
            diag).stream.data, 0⟩
          (VorbisComment.make VorbisCommentField.make ⟨TagValue.utf8 vendor, [], 0⟩ ⟨[], 0⟩ 3
            diag).stream.data.length 3 diag1).outcome = .returned () ∧
        (VorbisComment.internalParse VorbisCommentField.parse VorbisComment.fresh
          ⟨(VorbisComment.make VorbisCommentField.make ⟨TagValue.utf8 vendor, [], 0⟩ ⟨[], 0⟩ 3
            diag).stream.data, 0⟩
          (VorbisComment.make VorbisCommentField.make ⟨TagValue.utf8 vendor, [], 0⟩ ⟨[], 0⟩ 3
            diag).stream.data.length 3 diag1).tag.vendor = TagValue.utf8 vendor) := by
  have hmake := VorbisComment.make_text_tag ⟨TagValue.utf8 vendor, [], 0⟩ vendor 3 diag rfl
    (by decide) (by intro e he; simp at he)
  rw [hmake]
  have hblock : commentBlock 3 vendor [] =
      writeUInt32LE vendor.length ++ (vendor.take 4 ++ (vendor.drop 4 ++ writeUInt32LE 0)) := by
    have h1 : VorbisCommentFlags.and 3 VorbisCommentFlags.NoSignature = true := by decide
    have h2 : VorbisCommentFlags.and 3 VorbisCommentFlags.NoFramingByte = true := by decide
    simp only [commentBlock, h1, h2, Bool.not_true, Bool.false_eq_true, if_false, List.nil_append,
      List.append_nil, serializeFields, List.length_nil, List.append_assoc]
    rw [← List.append_assoc (vendor.take 4), List.take_append_drop]
  generalize commentBlock 3 vendor [] = data at *
  have hdlen : data.length = 4 + (2 ^ 32 + 4) := by
    rw [hblock]
    simp only [List.length_append, length_writeUInt32LE, List.length_take, List.length_drop, hlen]
    omega
  have hstep : signatureStep 3 ⟨data, 0⟩ data.length = some (⟨data, 0⟩, data.length) := by
    have h1 : VorbisCommentFlags.and 3 VorbisCommentFlags.NoSignature = true := by decide
    simp only [signatureStep, h1, if_true]
  rw [VorbisComment.internalParse_of_signatureStep _ _ _ _ _ _ _ _ hstep]
  obtain ⟨r1, d1, p1⟩ := IStream.read_of_drop data 0 4 _ _ (Nat.zero_le _)
    (length_writeUInt32LE _) hblock
  have hv : LE.toUInt32 (writeUInt32LE vendor.length) = 0 := by
    rw [LE.toUInt32_writeUInt32LE, hlen]; exact Nat.mod_self _
  have r2 : (⟨data, 0 + 4⟩ : IStream).read (LE.toUInt32 (writeUInt32LE vendor.length))
      = some ([], ⟨data, 0 + 4⟩) := by
    rw [hv]
    have := (IStream.read_of_drop data (0 + 4) 0 [] _ p1 rfl (by rw [d1]; rfl)).1
    exact this
  have h4 : (vendor.take 4).length = 4 := by
    rw [List.length_take, hlen]; exact Nat.min_eq_left (by norm_num)
  obtain ⟨r3, _, _⟩ := IStream.read_of_drop data (0 + 4) 4 _ _ p1 h4 d1
  rw [VorbisComment.parseAfterSignature_eq VorbisCommentField.parse VorbisComment.fresh ⟨data, 0⟩
    data.length 3 diag1 _ (writeUInt32LE vendor.length) [] (vendor.take 4) ⟨data, 0 + 4⟩
    ⟨data, 0 + 4⟩ ⟨data, 0 + 4 + 4⟩ (by omega) r1 (by rw [hv]; omega) r2 (by rw [hv]; omega) r3]
  intro h
  obtain ⟨hout, hvend⟩ := h
  dsimp only at hout hvend
  generalize VorbisComment.parseFields VorbisCommentField.parse (LE.toUInt32 (vendor.take 4))
    ⟨TagValue.assignData [] .Text .Utf8, VorbisComment.fresh.fields, VorbisComment.fresh.size⟩
    ⟨data, 0 + 4 + 4⟩ (data.length - 4 - LE.toUInt32 (writeUInt32LE vendor.length) - 4) diag1
    = r at hout hvend
  cases hro : r.outcome with
  | threw e =>
    simp only [hro] at hout
    rw [VorbisComment.catchTruncated_outcome] at hout
    exact absurd hout (by simp)
  | returned u =>
    simp only [hro] at hvend
    rw [VorbisComment.catchTruncated_of_returned _ _ rfl] at hvend
    simp only [TagValue.assignData, TagValue.utf8, TagValue.mk.injEq, true_and] at hvend
    rw [← hvend] at hlen
    exact absurd hlen (by decide)

/-- C4 fails as stated: the tag whose vendor is a text of 2^32 bytes (and which has no
fields) meets the conditions of the claim, but the vendor length written by `make`
is `2^32` reduced to 32 bits, that is 0, so parsing the bytes written with the same
flags does not return with the same vendor. -/
theorem VorbisComment.huge_vendor_not_restored :
    hugeVendor.length = 2 ^ 32 ∧
    hugeVendorTag.vendor = TagValue.utf8 hugeVendor ∧
    hugeVendorTag.fields = [] ∧
    ¬ ((VorbisComment.internalParse VorbisCommentField.parse VorbisComment.fresh
          ⟨(VorbisComment.make VorbisCommentField.make hugeVendorTag ⟨[], 0⟩ 3
            []).stream.data, 0⟩
          (VorbisComment.make VorbisCommentField.make hugeVendorTag ⟨[], 0⟩ 3
            []).stream.data.length 3 []).outcome = .returned () ∧
        (VorbisComment.internalParse VorbisCommentField.parse VorbisComment.fresh
          ⟨(VorbisComment.make VorbisCommentField.make hugeVendorTag ⟨[], 0⟩ 3
            []).stream.data, 0⟩
          (VorbisComment.make VorbisCommentField.make hugeVendorTag ⟨[], 0⟩ 3
            []).stream.data.length 3 []).tag.vendor = hugeVendorTag.vendor) := by
  have hlen : hugeVendor.length = 2 ^ 32 := by
    unfold hugeVendor
    exact List.length_replicate _ _
  exact ⟨hlen, rfl, rfl, VorbisComment.vendor_of_length_two_pow_32 hugeVendor hlen [] []⟩

/-- Witness for C4 as amended: the sample tag with the flags `None`. -/
theorem VorbisComment.parse_of_make_witness :
    (VorbisComment.make VorbisCommentField.make sampleTag ⟨[], 0⟩ VorbisCommentFlags.None
      []).stream.data.length = 46 ∧
    (VorbisComment.internalParse VorbisCommentField.parse VorbisComment.fresh
        ⟨(VorbisComment.make VorbisCommentField.make sampleTag ⟨[], 0⟩ VorbisCommentFlags.None
          []).stream.data, 0⟩
        (VorbisComment.make VorbisCommentField.make sampleTag ⟨[], 0⟩ VorbisCommentFlags.None
          []).stream.data.length
        VorbisCommentFlags.None []).tag.vendor = sampleTag.vendor ∧
    ((VorbisComment.internalParse VorbisCommentField.parse VorbisComment.fresh
        ⟨(VorbisComment.make VorbisCommentField.make sampleTag ⟨[], 0⟩ VorbisCommentFlags.None
          []).stream.data, 0⟩
        (VorbisComment.make VorbisCommentField.make sampleTag ⟨[], 0⟩ VorbisCommentFlags.None
          []).stream.data.length
        VorbisCommentFlags.None []).tag.fields.map (fun e => (e.2.id, e.2.value))).Perm
      (sampleTag.fields.map (fun e => (e.2.id, e.2.value))) :=
  have h := VorbisComment.parse_of_make sampleTag (ascii "Lavf58") VorbisCommentFlags.None [] []
    (by decide) rfl (by decide) (by decide) (by decide)
  ⟨by decide, h.2.2.2.2.1, h.2.2.2.2.2⟩

/-! ## ADTS: a track without input stream -/

/-- C11: on a track that has no input stream `internalParseHeader` ends with
`NoDataFoundException` at once: the track (size, format, channel configuration,
channel count, sampling frequency and all else) and the diagnostics are as
before. -/
theorem AdtsStream.internalParseHeader_without_stream (env : AdtsCollaborators)
    (track : AdtsStream) (diag : Diagnostics) (hstream : track.istream = none) :
    AdtsStream.internalParseHeader env track diag = ⟨track, diag, .threw .NoDataFound⟩ ∧
    (AdtsStream.internalParseHeader env track diag).track.size = track.size ∧
    (AdtsStream.internalParseHeader env track diag).track.format = track.format ∧
    (AdtsStream.internalParseHeader env track diag).track.channelConfig = track.channelConfig ∧
    (AdtsStream.internalParseHeader env track diag).track.channelCount = track.channelCount ∧
    (AdtsStream.internalParseHeader env track diag).track.samplingFrequency
      = track.samplingFrequency ∧
    (AdtsStream.internalParseHeader env track diag).diag = diag := by
  have h : AdtsStream.internalParseHeader env track diag = ⟨track, diag, .threw .NoDataFound⟩ := by
    unfold AdtsStream.internalParseHeader
    simp only [hstream]
  rw [h]
  exact ⟨rfl, rfl, rfl, rfl, rfl, rfl, rfl⟩

/-- Witness for C11: a track with some settings and no stream. -/
theorem AdtsStream.internalParseHeader_without_stream_witness :
    AdtsStream.internalParseHeader sampleCollaborators ⟨none, 5, 17, 2, 2, 2, 44100, ⟨2, 4, 2⟩⟩
        [⟨.Warning, "earlier", "context"⟩] =
      ⟨⟨none, 5, 17, 2, 2, 2, 44100, ⟨2, 4, 2⟩⟩, [⟨.Warning, "earlier", "context"⟩],
        .threw .NoDataFound⟩ :=
  (AdtsStream.internalParseHeader_without_stream sampleCollaborators
    ⟨none, 5, 17, 2, 2, 2, 44100, ⟨2, 4, 2⟩⟩ [⟨.Warning, "earlier", "context"⟩] rfl).1

/-! ## Vorbis comments: known fields and identifiers -/

theorem keyEquiv_congr_right (x a b : Bytes) (h : ciKey a = ciKey b) :
    keyEquiv x a = keyEquiv x b := by
  cases ha : keyEquiv x a with
  | true =>
    have := (keyEquiv_iff x a).mp ha
    exact ((keyEquiv_iff x b).mpr (this.trans h)).symm
  | false =>
    cases hb : keyEquiv x b with
    | false => rfl
    | true =>
      have := (keyEquiv_iff x b).mp hb
      rw [(keyEquiv_iff x a).mpr (this.trans h.symm)] at ha
      exact absurd ha (by simp)

/-- C13 fails as stated: `Year` has the non-empty identifier `DATE`, and the known
field of `DATE` is `RecordDate`, not `Year`. -/
theorem VorbisComment.year_maps_to_recordDate :
    VorbisComment.internallyGetFieldId .Year = ascii "DATE" ∧
    VorbisComment.internallyGetFieldId .Year ≠ [] ∧
    VorbisComment.internallyGetKnownField (VorbisComment.internallyGetFieldId .Year)
      = .RecordDate ∧
    VorbisComment.internallyGetKnownField (VorbisComment.internallyGetFieldId .Year)
      ≠ .Year := by
  decide

/-- C13 as amended: for every known field other than `Year` and `Language` whose
identifier is not empty, the known field of its identifier is the field itself;
`Year` shares the identifier `DATE` with `RecordDate`, and the known field of that
identifier is `RecordDate`. -/
theorem VorbisComment.knownField_of_fieldId (k : KnownField) (hyear : k ≠ .Year)
    (hlanguage : k ≠ .Language) (hid : VorbisComment.internallyGetFieldId k ≠ []) :
    VorbisComment.internallyGetKnownField (VorbisComment.internallyGetFieldId k) = k ∧
    VorbisComment.internallyGetFieldId .Year = VorbisComment.internallyGetFieldId .RecordDate ∧
    VorbisComment.internallyGetKnownField (VorbisComment.internallyGetFieldId .Year)
      = .RecordDate := by
  refine ⟨?_, rfl, by decide⟩
  cases k with
  | Year => exact absurd rfl hyear
  | Language => exact absurd rfl hlanguage
  | Invalid => exact absurd rfl hid
  | Vendor => exact absurd rfl hid
  | Other code => exact absurd rfl hid
  | _ => decide

/-- Witness for C13 as amended: the album. -/
theorem VorbisComment.knownField_of_fieldId_witness :
    VorbisComment.internallyGetFieldId .Album = ascii "ALBUM" ∧
    VorbisComment.internallyGetKnownField (VorbisComment.internallyGetFieldId .Album)
      = .Album :=
  ⟨by decide,
    (VorbisComment.knownField_of_fieldId .Album (by decide) (by decide) (by decide)).1⟩

/-- The identifier of `Language` is not among the keys of the table of
`internallyGetKnownField`, so its known field is `Invalid`. -/
theorem VorbisComment.language_not_in_table :
    VorbisComment.internallyGetFieldId .Language = VorbisCommentIds.language ∧
    VorbisComment.internallyGetKnownField (VorbisComment.internallyGetFieldId .Language)
      = .Invalid := by
  decide

/-- C14: `internallyGetKnownField` gives the same known field for two identifiers that
differ only in the case of ASCII letters, that is, whose folded characters agree;
`date`, `Date` and `DATE` all give `RecordDate`; an identifier that is equivalent to
none of the 21 identifiers of the table gives `Invalid`. -/
theorem VorbisComment.internallyGetKnownField_ignores_case :
    (∀ a b : Bytes,
      a.map CaseInsensitiveCharComparer.toLower = b.map CaseInsensitiveCharComparer.toLower →
      VorbisComment.internallyGetKnownField a = VorbisComment.internallyGetKnownField b) ∧
    VorbisComment.internallyGetKnownField (ascii "date") = .RecordDate ∧
    VorbisComment.internallyGetKnownField (ascii "Date") = .RecordDate ∧
    VorbisComment.internallyGetKnownField (ascii "DATE") = .RecordDate ∧
    VorbisComment.knownFieldMap.length = 21 ∧
    (∀ id : Bytes,
      (∀ e ∈ VorbisComment.knownFieldMap,
        e.1.map CaseInsensitiveCharComparer.toLower
          ≠ id.map CaseInsensitiveCharComparer.toLower) →
      VorbisComment.internallyGetKnownField id = .Invalid) := by
  refine ⟨?_, by decide, by decide, by decide, by decide, ?_⟩
  · intro a b h
    unfold VorbisComment.internallyGetKnownField
    have hp : (fun e : Bytes × KnownField => keyEquiv e.1 a)
        = (fun e : Bytes × KnownField => keyEquiv e.1 b) := by
      funext e
      exact keyEquiv_congr_right e.1 a b h
    rw [hp]
  · intro id h
    unfold VorbisComment.internallyGetKnownField
    have hnone : VorbisComment.knownFieldMap.find? (fun e => keyEquiv e.1 id) = none := by
      rw [List.find?_eq_none]
      intro e he hk
      exact h e he ((keyEquiv_iff e.1 id).mp hk)
    rw [hnone]

/-- Witness for C14: `tItLe` and `TITLE` differ only in case; `MOOD` is equivalent to
none of the identifiers of the table. -/
theorem VorbisComment.internallyGetKnownField_ignores_case_witness :
    VorbisComment.internallyGetKnownField (ascii "tItLe")
      = VorbisComment.internallyGetKnownField (ascii "TITLE") ∧
    VorbisComment.internallyGetKnownField (ascii "TITLE") = .Title ∧
    VorbisComment.internallyGetKnownField (ascii "MOOD") = .Invalid :=
  ⟨VorbisComment.internallyGetKnownField_ignores_case.1 (ascii "tItLe") (ascii "TITLE")
      (by decide),
    by decide,
    VorbisComment.internallyGetKnownField_ignores_case.2.2.2.2.2 (ascii "MOOD") (by decide)⟩

/-- C15: `setValue(Vendor, v)` returns true, leaves the field map unchanged and makes
`value(Vendor)` equal to `v`; `value(Vendor)` is the vendor whatever the field map
holds; for every other known field `value` and `setValue` are the field-map based
implementations, applied to the same arguments. -/
theorem VorbisComment.vendor_value
    (baseSetValue : VorbisComment → KnownField → TagValue → Bool × VorbisComment)
    (tag : VorbisComment) (v : TagValue) :
    (VorbisComment.setValue baseSetValue tag .Vendor v).1 = true ∧
    (VorbisComment.setValue baseSetValue tag .Vendor v).2.fields = tag.fields ∧
    VorbisComment.value (VorbisComment.setValue baseSetValue tag .Vendor v).2 .Vendor = v ∧
    (∀ fields : FieldMap,
      VorbisComment.value { tag with fields := fields } .Vendor = tag.vendor) ∧
    (∀ field : KnownField, field ≠ .Vendor →
      VorbisComment.value tag field = FieldMapBasedTag.value tag field ∧
      VorbisComment.setValue baseSetValue tag field v = baseSetValue tag field v) := by
  refine ⟨rfl, rfl, rfl, fun _ => rfl, ?_⟩
  intro field hfield
  cases field with
  | Vendor => exact absurd rfl hfield
  | _ => exact ⟨rfl, rfl⟩

/-- Witness for C15: the sample tag, a new vendor, and the title as another field, with
a field-map based `setValue` that refuses every change. -/
theorem VorbisComment.vendor_value_witness :
    VorbisComment.value
        (VorbisComment.setValue (fun t _ _ => (false, t)) sampleTag .Vendor
          (TagValue.utf8 (ascii "libVorbis"))).2 .Vendor = TagValue.utf8 (ascii "libVorbis") ∧
    VorbisComment.value sampleTag .Title = FieldMapBasedTag.value sampleTag .Title ∧
    VorbisComment.setValue (fun t _ _ => (false, t)) sampleTag .Title
        (TagValue.utf8 (ascii "libVorbis")) = (false, sampleTag) :=
  ⟨(VorbisComment.vendor_value (fun t _ _ => (false, t)) sampleTag
      (TagValue.utf8 (ascii "libVorbis"))).2.2.1,
    ((VorbisComment.vendor_value (fun t _ _ => (false, t)) sampleTag
      (TagValue.utf8 (ascii "libVorbis"))).2.2.2.2 .Title (by decide)).1,
    ((VorbisComment.vendor_value (fun t _ _ => (false, t)) sampleTag
      (TagValue.utf8 (ascii "libVorbis"))).2.2.2.2 .Title (by decide)).2⟩

/-! ## MediaFileInfo: track count and settings -/

/-- C16: `trackCount()` is 1 whenever a single track is present, whatever the container
is; it is the track count of the container when there is a container and no single
track; it is 0 when there is neither, as in an object on which nothing has been
parsed yet. -/
theorem MediaFileInfo.trackCount_cases (s : MediaFileInfo) :
    (s.m_singleTrack.isSome = true → s.trackCount = 1) ∧
    (∀ container : AbstractContainer, s.m_singleTrack = none →
      s.m_container = some container → s.trackCount = container.trackCount) ∧
    (s.m_singleTrack = none → s.m_container = none → s.trackCount = 0) := by
  refine ⟨?_, ?_, ?_⟩
  · intro h
    simp only [MediaFileInfo.trackCount, h, if_true]
  · intro container h1 h2
    simp only [MediaFileInfo.trackCount, h1, h2, Option.isSome_none, Bool.false_eq_true, if_false]
  · intro h1 h2
    simp only [MediaFileInfo.trackCount, h1, h2, Option.isSome_none, Bool.false_eq_true, if_false]

/-- Witness for C16: the sample object with a single track and a container of three
tracks, with the container only, and as constructed. -/
theorem MediaFileInfo.trackCount_cases_witness :
    ({ sampleMediaFileInfo with
        m_singleTrack := some ⟨1, 2, 44100⟩, m_container := some ⟨3⟩ }).trackCount = 1 ∧
    ({ sampleMediaFileInfo with m_container := some ⟨3⟩ }).trackCount = 3 ∧
    sampleMediaFileInfo.trackCount = 0 :=
  ⟨(MediaFileInfo.trackCount_cases { sampleMediaFileInfo with
      m_singleTrack := some ⟨1, 2, 44100⟩, m_container := some ⟨3⟩ }).1 rfl,
    (MediaFileInfo.trackCount_cases { sampleMediaFileInfo with m_container := some ⟨3⟩ }).2.1
      ⟨3⟩ rfl rfl,
    (MediaFileInfo.trackCount_cases sampleMediaFileInfo).2.2 rfl rfl⟩

/-! ## MatroskaContainer: the maximal size for a full parse -/

/-- C17: after `setMaxFullParseSize(x)` on any instance, `maxFullParseSize()` is `x`,
whichever instance asks, since the value is the one static member; the instances
themselves (maximal ID and size length, seek infos, attachments, segments and all
other members) are unchanged. -/
theorem MatroskaContainer.maxFullParseSize_shared (p : MatroskaProgram) (self x : Nat) :
    MatroskaContainer.maxFullParseSize (MatroskaContainer.setMaxFullParseSize p self x) = x ∧
    (MatroskaContainer.setMaxFullParseSize p self x).containers = p.containers ∧
    (MatroskaContainer.setMaxFullParseSize p self x).containers.map
        (fun c => (c.maxIdLength, c.maxSizeLength, c.seekInfos, c.attachmentCount,
          c.segmentCount, c.m_segmentCount)) =
      p.containers.map
        (fun c => (c.maxIdLength, c.maxSizeLength, c.seekInfos, c.attachmentCount,
          c.segmentCount, c.m_segmentCount)) ∧
    (∀ (other y : Nat),
      MatroskaContainer.maxFullParseSize
        (MatroskaContainer.setMaxFullParseSize
          (MatroskaContainer.setMaxFullParseSize p self x) other y) = y) :=
  ⟨rfl, rfl, rfl, fun _ _ => rfl⟩

/-! ## MediaFileInfo: the setters -/

/-- C18: each of the twelve setters of `MediaFileInfo` changes its own setting and
nothing else: afterwards the matching getter returns the value passed, the other
eleven settings are as before, and so are the parsing statuses and the container,
track and tag members (`parsedState`); in particular `setForceIndexPosition(b)` makes
`forceIndexPosition()` return `b` and leaves `forceTagPosition()` as it was. -/
theorem MediaFileInfo.setters_frame (s : MediaFileInfo) :
    (∀ v : Bytes,
      (s.setBackupDirectory v).backupDirectory = v ∧
      (s.setBackupDirectory v).settings =
        (v, s.saveFilePath, s.writingApplication, s.isForcingFullParse, s.isForcingRewrite,
          s.minPadding, s.maxPadding, s.preferredPadding, s.tagPosition, s.forceTagPosition,
          s.indexPosition, s.forceIndexPosition) ∧
      (s.setBackupDirectory v).parsedState = s.parsedState) ∧
    (∀ v : Bytes,
      (s.setSaveFilePath v).saveFilePath = v ∧
      (s.setSaveFilePath v).settings =
        (s.backupDirectory, v, s.writingApplication, s.isForcingFullParse, s.isForcingRewrite,
          s.minPadding, s.maxPadding, s.preferredPadding, s.tagPosition, s.forceTagPosition,
          s.indexPosition, s.forceIndexPosition) ∧
      (s.setSaveFilePath v).parsedState = s.parsedState) ∧
    (∀ v : Bytes,
      (s.setWritingApplication v).writingApplication = v ∧
      (s.setWritingApplication v).settings =
        (s.backupDirectory, s.saveFilePath, v, s.isForcingFullParse, s.isForcingRewrite,
          s.minPadding, s.maxPadding, s.preferredPadding, s.tagPosition, s.forceTagPosition,
          s.indexPosition, s.forceIndexPosition) ∧
      (s.setWritingApplication v).parsedState = s.parsedState) ∧
    (∀ v : Bool,
      (s.setForceFullParse v).isForcingFullParse = v ∧
      (s.setForceFullParse v).settings =
        (s.backupDirectory, s.saveFilePath, s.writingApplication, v, s.isForcingRewrite,
          s.minPadding, s.maxPadding, s.preferredPadding, s.tagPosition, s.forceTagPosition,
          s.indexPosition, s.forceIndexPosition) ∧
      (s.setForceFullParse v).parsedState = s.parsedState) ∧
    (∀ v : Bool,
      (s.setForceRewrite v).isForcingRewrite = v ∧
      (s.setForceRewrite v).settings =
        (s.backupDirectory, s.saveFilePath, s.writingApplication, s.isForcingFullParse, v,
          s.minPadding, s.maxPadding, s.preferredPadding, s.tagPosition, s.forceTagPosition,
          s.indexPosition, s.forceIndexPosition) ∧
      (s.setForceRewrite v).parsedState = s.parsedState) ∧
    (∀ v : Nat,
      (s.setMinPadding v).minPadding = v ∧
      (s.setMinPadding v).settings =
        (s.backupDirectory, s.saveFilePath, s.writingApplication, s.isForcingFullParse,
          s.isForcingRewrite, v, s.maxPadding, s.preferredPadding, s.tagPosition,
          s.forceTagPosition, s.indexPosition, s.forceIndexPosition) ∧
      (s.setMinPadding v).parsedState = s.parsedState) ∧
    (∀ v : Nat,
      (s.setMaxPadding v).maxPadding = v ∧
      (s.setMaxPadding v).settings =
        (s.backupDirectory, s.saveFilePath, s.writingApplication, s.isForcingFullParse,
          s.isForcingRewrite, s.minPadding, v, s.preferredPadding, s.tagPosition,
          s.forceTagPosition, s.indexPosition, s.forceIndexPosition) ∧
      (s.setMaxPadding v).parsedState = s.parsedState) ∧
    (∀ v : Nat,
      (s.setPreferredPadding v).preferredPadding = v ∧
      (s.setPreferredPadding v).settings =
        (s.backupDirectory, s.saveFilePath, s.writingApplication, s.isForcingFullParse,
          s.isForcingRewrite, s.minPadding, s.maxPadding, v, s.tagPosition, s.forceTagPosition,
          s.indexPosition, s.forceIndexPosition) ∧
      (s.setPreferredPadding v).parsedState = s.parsedState) ∧
    (∀ v : ElementPosition,
      (s.setTagPosition v).tagPosition = v ∧
      (s.setTagPosition v).settings =
        (s.backupDirectory, s.saveFilePath, s.writingApplication, s.isForcingFullParse,
          s.isForcingRewrite, s.minPadding, s.maxPadding, s.preferredPadding, v, s.forceTagPosition,
          s.indexPosition, s.forceIndexPosition) ∧
      (s.setTagPosition v).parsedState = s.parsedState) ∧
    (∀ v : Bool,
      (s.setForceTagPosition v).forceTagPosition = v ∧
      (s.setForceTagPosition v).settings =
        (s.backupDirectory, s.saveFilePath, s.writingApplication, s.isForcingFullParse,
          s.isForcingRewrite, s.minPadding, s.maxPadding, s.preferredPadding, s.tagPosition, v,
          s.indexPosition, s.forceIndexPosition) ∧
      (s.setForceTagPosition v).parsedState = s.parsedState) ∧
    (∀ v : ElementPosition,
      (s.setIndexPosition v).indexPosition = v ∧
      (s.setIndexPosition v).settings =
        (s.backupDirectory, s.saveFilePath, s.writingApplication, s.isForcingFullParse,
          s.isForcingRewrite, s.minPadding, s.maxPadding, s.preferredPadding, s.tagPosition,
          s.forceTagPosition, v, s.forceIndexPosition) ∧
      (s.setIndexPosition v).parsedState = s.parsedState) ∧
    (∀ v : Bool,
      (s.setForceIndexPosition v).forceIndexPosition = v ∧
      (s.setForceIndexPosition v).settings =
        (s.backupDirectory, s.saveFilePath, s.writingApplication, s.isForcingFullParse,
          s.isForcingRewrite, s.minPadding, s.maxPadding, s.preferredPadding, s.tagPosition,
          s.forceTagPosition, s.indexPosition, v) ∧
      (s.setForceIndexPosition v).parsedState = s.parsedState) ∧
    (∀ b : Bool,
      (s.setForceIndexPosition b).forceIndexPosition = b ∧
      (s.setForceIndexPosition b).forceTagPosition = s.forceTagPosition) :=
  ⟨fun _ => ⟨rfl, rfl, rfl⟩, fun _ => ⟨rfl, rfl, rfl⟩, fun _ => ⟨rfl, rfl, rfl⟩, fun _ => ⟨rfl,
    rfl, rfl⟩, fun _ => ⟨rfl, rfl, rfl⟩, fun _ => ⟨rfl, rfl, rfl⟩, fun _ => ⟨rfl, rfl, rfl⟩, fun _
    => ⟨rfl, rfl, rfl⟩, fun _ => ⟨rfl, rfl, rfl⟩, fun _ => ⟨rfl, rfl, rfl⟩, fun _ => ⟨rfl, rfl,
    rfl⟩, fun _ => ⟨rfl, rfl, rfl⟩, fun _ => ⟨rfl, rfl⟩⟩

/-! ## Vorbis comments: fields which fail to parse -/

theorem VorbisComment.parseFields_vendor (parse : FieldParser) (v : TagValue) :
    ∀ (n : Nat) (tag : VorbisComment) (stream : IStream) (maxSize : Nat) (diag : Diagnostics),
      VorbisComment.parseFields parse n ⟨v, tag.fields, tag.size⟩ stream maxSize diag =
        ⟨⟨v, (VorbisComment.parseFields parse n tag stream maxSize diag).tag.fields,
            (VorbisComment.parseFields parse n tag stream maxSize diag).tag.size⟩,
          (VorbisComment.parseFields parse n tag stream maxSize diag).stream,
          (VorbisComment.parseFields parse n tag stream maxSize diag).diag,
          (VorbisComment.parseFields parse n tag stream maxSize diag).outcome⟩ := by
  intro n
  induction n with
  | zero => intro tag stream maxSize diag; rfl
  | succ n ih =>
    intro tag stream maxSize diag
    unfold VorbisComment.parseFields
    dsimp only
    cases ho : (parse stream maxSize diag).outcome with
    | returned field =>
      simp only [ho]
      exact ih ⟨tag.vendor, FieldMap.insert tag.fields (field.id, field), tag.size⟩ _ _ _
    | threw e =>
      simp only [ho]
      by_cases h1 : e = .TruncatedData
      · simp only [h1, if_true]
      · simp only [h1, if_false]
        cases h2 : e.isFailure with
        | true => simp only [if_true]; exact ih tag _ _ _
        | false => simp only [Bool.false_eq_true, if_false]

theorem VorbisComment.length_parsedFields_le (parse : FieldParser) :
    ∀ (n : Nat) (stream : IStream) (maxSize : Nat) (diag : Diagnostics),
      (VorbisComment.parsedFields parse n stream maxSize diag).length ≤ n := by
  intro n
  induction n with
  | zero => intro stream maxSize diag; exact Nat.le_refl 0
  | succ n ih =>
    intro stream maxSize diag
    unfold VorbisComment.parsedFields
    dsimp only
    cases ho : (parse stream maxSize diag).outcome with
    | returned field =>
      simp only [ho, List.length_cons]
      exact Nat.succ_le_succ (ih _ _ _)
    | threw e =>
      simp only [ho]
      by_cases h1 : e = .TruncatedData
      · simp only [h1, if_true, List.length_nil]; omega
      · simp only [h1, if_false]
        cases h2 : e.isFailure with
        | true => simp only [if_true]; exact Nat.le_succ_of_le (ih _ _ _)
        | false => simp only [Bool.false_eq_true, if_false, List.length_nil]; omega

/-- When the parse reaches the field loop, `internalParse` is the handler applied to
what the loop and the code behind it leave, for the vendor read before the loop. -/
theorem VorbisComment.internalParse_of_fieldLoopStart (parse : FieldParser)
    (tag : VorbisComment) (stream : IStream) (maxSize : Nat) (flags : VorbisCommentFlags)
    (diag : Diagnostics) (n : Nat) (s1 : IStream) (m1 : Nat)
    (hstart : VorbisComment.fieldLoopStart flags stream maxSize = some (n, s1, m1)) :
    ∃ v : TagValue,
      VorbisComment.internalParse parse tag stream maxSize flags diag =
        VorbisComment.catchTruncated stream.tellg
          (match (VorbisComment.parseFields parse n tag s1 m1 diag).outcome with
          | .threw e =>
            ⟨⟨v, (VorbisComment.parseFields parse n tag s1 m1 diag).tag.fields,
                (VorbisComment.parseFields parse n tag s1 m1 diag).tag.size⟩,
              (VorbisComment.parseFields parse n tag s1 m1 diag).stream,
              (VorbisComment.parseFields parse n tag s1 m1 diag).diag, .threw e⟩
          | .returned _ =>
            ⟨⟨v,
                normalizeYear ((VorbisComment.parsedFields parse n s1 m1 diag).foldl
                  (fun acc f => FieldMap.insert acc (f.id, f)) tag.fields),
                sizeSince
                  (if !(VorbisCommentFlags.and flags VorbisCommentFlags.NoFramingByte) then
                    (VorbisComment.parseFields parse n tag s1 m1 diag).stream.ignore
                  else (VorbisComment.parseFields parse n tag s1 m1 diag).stream)
                  stream.tellg⟩,
              (if !(VorbisCommentFlags.and flags VorbisCommentFlags.NoFramingByte) then
                (VorbisComment.parseFields parse n tag s1 m1 diag).stream.ignore
              else (VorbisComment.parseFields parse n tag s1 m1 diag).stream),
              (VorbisComment.parseFields parse n tag s1 m1 diag).diag, .returned ()⟩) := by
  unfold VorbisComment.fieldLoopStart at hstart
  cases hs : signatureStep flags stream maxSize with
  | none => simp [hs] at hstart
  | some p =>
    obtain ⟨t1, k1⟩ := p
    simp only [hs] at hstart
    by_cases hmax : 4 ≤ k1
    · simp only [hmax, if_true] at hstart
      cases hread : t1.read 4 with
      | none => simp [hread] at hstart
      | some q =>
        obtain ⟨sig, t2⟩ := q
        simp only [hread] at hstart
        by_cases hlen : LE.toUInt32 sig ≤ k1 - 4
        · simp only [hlen, if_true] at hstart
          cases hvendor : t2.read (LE.toUInt32 sig) with
          | none => simp [hvendor] at hstart
          | some q2 =>
            obtain ⟨buff, t3⟩ := q2
            simp only [hvendor] at hstart
            by_cases hmax2 : 4 ≤ k1 - 4 - LE.toUInt32 sig
            · simp only [hmax2, if_true] at hstart
              cases hcount : t3.read 4 with
              | none => simp [hcount] at hstart
              | some q3 =>
                obtain ⟨sig2, t4⟩ := q3
                simp only [hcount, Option.some.injEq, Prod.mk.injEq] at hstart
                obtain ⟨hn, hs1, hm1⟩ := hstart
                subst hn hs1 hm1
                refine ⟨TagValue.assignData buff .Text .Utf8, ?_⟩
                rw [VorbisComment.internalParse_of_signatureStep parse tag stream maxSize flags
                    diag t1 k1 hs,
                  VorbisComment.parseAfterSignature_eq parse tag t1 k1 flags diag _ sig buff sig2
                    t2 t3 t4 hmax hread hlen hvendor hmax2 hcount]
                dsimp only
                rw [VorbisComment.parseFields_vendor]
            · simp [hmax2] at hstart
        · simp [hlen] at hstart
    · simp [hmax] at hstart

theorem length_normalizeYear (m : FieldMap) (hm : FieldMap.Sorted m) :
    (normalizeYear m).length = m.length := by
  by_cases hd : ∃ e ∈ m, keyEquiv e.1 VorbisCommentIds.date = true
  · rw [normalizeYear_of_date m hd]
  · refine (normalizeYear_of_no_date m hm ?_).2.2.2
    intro e he
    cases hk : keyEquiv e.1 VorbisCommentIds.date with
    | false => rfl
    | true => exact absurd ⟨e, he, hk⟩ hd

theorem sizeSince_of_lt (s : IStream) (start : IStream) (h1 : start.pos ≤ s.pos)
    (h2 : s.pos < 2 ^ 64) (h3 : s.pos - start.pos < 2 ^ 32) :
    sizeSince s start.tellg = s.pos - start.pos := by
  unfold sizeSince IStream.tellg
  have e1 : s.pos % 2 ^ 64 = s.pos := Nat.mod_eq_of_lt h2
  have e2 : start.pos % 2 ^ 64 = start.pos := Nat.mod_eq_of_lt (by omega)
  rw [e1, e2]
  have e3 : s.pos + 2 ^ 64 - start.pos = (s.pos - start.pos) + 2 ^ 64 := by omega
  rw [e3, Nat.add_mod_right, Nat.mod_eq_of_lt (a := s.pos - start.pos) (by omega),
    Nat.mod_eq_of_lt h3]

/-- C19 as amended: when the parse reaches the field loop (`n` declared fields, the
stream at `s1`, `m1` of the maximum size left): a field whose parsing throws a
`Failure` other than `TruncatedDataException` is dropped and the loop goes on with
the next field, so that a parse which returns has added at most `n` entries, and
fewer than `n` when the first field failed in this way; a `TruncatedDataException`
from a field ends the loop, and `internalParse` then throws it again with the map
holding the fields inserted so far, each under its own identifier, with `size()`
the number of bytes consumed so far reduced to 32 bits, and with the Critical
diagnostic `Vorbis comment is truncated.` appended. -/
theorem VorbisComment.failing_fields (parse : FieldParser) (tag : VorbisComment)
    (stream : IStream) (maxSize : Nat) (flags : VorbisCommentFlags) (diag : Diagnostics)
    (n : Nat) (s1 : IStream) (m1 : Nat)
    (hstart : VorbisComment.fieldLoopStart flags stream maxSize = some (n, s1, m1)) :
    (∀ (k : Nat) (t : VorbisComment) (s : IStream) (m : Nat) (d : Diagnostics) (e : Exn),
      (parse s m d).outcome = .threw e → e ≠ .TruncatedData → e.isFailure = true →
      VorbisComment.parseFields parse (k + 1) t s m d =
        VorbisComment.parseFields parse k t (parse s m d).stream (parse s m d).maxSize
          (parse s m d).diag) ∧
    (∀ (k : Nat) (t : VorbisComment) (s : IStream) (m : Nat) (d : Diagnostics),
      (parse s m d).outcome = .threw .TruncatedData →
      VorbisComment.parseFields parse (k + 1) t s m d =
        ⟨t, (parse s m d).stream, (parse s m d).diag, .threw .TruncatedData⟩) ∧
    ((VorbisComment.internalParse parse tag stream maxSize flags diag).outcome = .returned () →
      FieldMap.Sorted tag.fields →
      (VorbisComment.internalParse parse tag stream maxSize flags diag).tag.fields.length
        = tag.fields.length + (VorbisComment.parsedFields parse n s1 m1 diag).length ∧
      (VorbisComment.parsedFields parse n s1 m1 diag).length ≤ n ∧
      (∀ e : Exn, 0 < n → (parse s1 m1 diag).outcome = .threw e → e ≠ .TruncatedData →
        e.isFailure = true →
        (VorbisComment.internalParse parse tag stream maxSize flags diag).tag.fields.length
          < tag.fields.length + n)) ∧
    ((VorbisComment.parseFields parse n tag s1 m1 diag).outcome = .threw .TruncatedData →
      (VorbisComment.internalParse parse tag stream maxSize flags diag).outcome
        = .threw .TruncatedData ∧
      (VorbisComment.internalParse parse tag stream maxSize flags diag).tag.fields
        = (VorbisComment.parsedFields parse n s1 m1 diag).foldl
            (fun acc f => FieldMap.insert acc (f.id, f)) tag.fields ∧
      (VorbisComment.internalParse parse tag stream maxSize flags diag).stream
        = (VorbisComment.parseFields parse n tag s1 m1 diag).stream ∧
      (VorbisComment.internalParse parse tag stream maxSize flags diag).tag.size
        = ((VorbisComment.internalParse parse tag stream maxSize flags diag).stream.pos % 2 ^ 64
            + 2 ^ 64 - stream.pos % 2 ^ 64) % 2 ^ 64 % 2 ^ 32 ∧
      (stream.pos ≤ (VorbisComment.internalParse parse tag stream maxSize flags diag).stream.pos →
        (VorbisComment.internalParse parse tag stream maxSize flags diag).stream.pos < 2 ^ 64 →
        (VorbisComment.internalParse parse tag stream maxSize flags diag).stream.pos - stream.pos
          < 2 ^ 32 →
        (VorbisComment.internalParse parse tag stream maxSize flags diag).tag.size
          = (VorbisComment.internalParse parse tag stream maxSize flags diag).stream.pos
            - stream.pos) ∧
      (VorbisComment.internalParse parse tag stream maxSize flags diag).diag
        = (VorbisComment.parseFields parse n tag s1 m1 diag).diag
          ++ [⟨.Critical, "Vorbis comment is truncated.", parseContext⟩]) := by
  obtain ⟨v, hv⟩ := VorbisComment.internalParse_of_fieldLoopStart parse tag stream maxSize flags
    diag n s1 m1 hstart
  refine ⟨?_, ?_, ?_, ?_⟩
  · intro k t s m d e ho h1 h2
    rw [VorbisComment.parseFields]
    simp only [ho, h1, if_false, h2, if_true]
  · intro k t s m d ho
    rw [VorbisComment.parseFields]
    simp only [ho, if_true]
  · intro hret hsorted
    have hfields := VorbisComment.internalParse_fields_of_returned parse tag stream maxSize flags
      diag hret
    have hin : VorbisComment.inputFields parse stream maxSize flags diag
        = VorbisComment.parsedFields parse n s1 m1 diag := by
      simp only [VorbisComment.inputFields, hstart]
    rw [hin] at hfields
    have hfold := FieldMap.foldl_insert_fields (VorbisComment.parsedFields parse n s1 m1 diag)
      tag.fields hsorted
    have hlen : (VorbisComment.internalParse parse tag stream maxSize flags diag).tag.fields.length
        = tag.fields.length + (VorbisComment.parsedFields parse n s1 m1 diag).length := by
      rw [hfields, length_normalizeYear _ hfold.1, hfold.2.2.1]
    refine ⟨hlen, VorbisComment.length_parsedFields_le parse n s1 m1 diag, ?_⟩
    intro e hn ho h1 h2
    rw [hlen]
    obtain ⟨k, hk⟩ : ∃ k, n = k + 1 := ⟨n - 1, by omega⟩
    subst hk
    have hle : (VorbisComment.parsedFields parse (k + 1) s1 m1 diag).length ≤ k := by
      rw [VorbisComment.parsedFields]
      simp only [ho, h1, if_false, h2, if_true]
      exact VorbisComment.length_parsedFields_le parse k _ _ _
    omega
  · intro hL
    have hres : VorbisComment.internalParse parse tag stream maxSize flags diag =
        ⟨⟨v, (VorbisComment.parseFields parse n tag s1 m1 diag).tag.fields,
            sizeSince (VorbisComment.parseFields parse n tag s1 m1 diag).stream stream.tellg⟩,
          (VorbisComment.parseFields parse n tag s1 m1 diag).stream,
          (VorbisComment.parseFields parse n tag s1 m1 diag).diag
            ++ [⟨.Critical, "Vorbis comment is truncated.", parseContext⟩],
          .threw .TruncatedData⟩ := by
      rw [hv]
      simp only [hL, VorbisComment.catchTruncated]
    rw [hres]
    refine ⟨rfl, ?_, rfl, rfl, ?_, rfl⟩
    · simp only [VorbisComment.parseFields_tag]
    · intro h1 h2 h3
      exact sizeSince_of_lt _ stream h1 h2 h3

theorem VorbisComment.internalParse_truncated_after_two_pow_32 (v : Bytes)
    (hlen : v.length = 2 ^ 32 - 1) :
    VorbisComment.internalParse VorbisCommentField.parse VorbisComment.fresh
        ⟨[255, 255, 255, 255] ++ v ++ [1, 0, 0, 0], 0⟩ (2 ^ 32 + 7)
        VorbisCommentFlags.NoSignature [] =
      ⟨⟨TagValue.assignData v .Text .Utf8, [], 7⟩,
        ⟨[255, 255, 255, 255] ++ v ++ [1, 0, 0, 0], 2 ^ 32 + 7⟩,
        [⟨.Critical, "Field expected.", "parsing Vorbis comment field"⟩,
          ⟨.Critical, "Vorbis comment is truncated.", parseContext⟩],
        .threw .TruncatedData⟩ := by
  have hblock : [255, 255, 255, 255] ++ v ++ [1, 0, 0, 0]
      = [255, 255, 255, 255] ++ (v ++ ([1, 0, 0, 0] ++ [])) := by
    simp only [List.append_assoc, List.append_nil]
  generalize [255, 255, 255, 255] ++ v ++ [1, 0, 0, 0] = data at *
  have hstep : signatureStep VorbisCommentFlags.NoSignature ⟨data, 0⟩ (2 ^ 32 + 7)
      = some (⟨data, 0⟩, 2 ^ 32 + 7) := by
    have h1 : VorbisCommentFlags.and VorbisCommentFlags.NoSignature
        VorbisCommentFlags.NoSignature = true := by decide
    simp only [signatureStep, h1, if_true]
  have hsz : LE.toUInt32 [255, 255, 255, 255] = 2 ^ 32 - 1 := by decide
  have hcnt : LE.toUInt32 [1, 0, 0, 0] = 1 := by decide
  obtain ⟨r1, d1, p1⟩ := IStream.read_of_drop data 0 4 [255, 255, 255, 255] _ (Nat.zero_le _)
    rfl hblock
  obtain ⟨r2, d2, p2⟩ := IStream.read_of_drop data (0 + 4) (2 ^ 32 - 1) v _ p1 hlen d1
  obtain ⟨r3, d3, p3⟩ := IStream.read_of_drop data (0 + 4 + (2 ^ 32 - 1)) 4 [1, 0, 0, 0] _ p2
    rfl d2
  rw [VorbisComment.internalParse_of_signatureStep _ _ _ _ _ _ _ _ hstep]
  rw [VorbisComment.parseAfterSignature_eq VorbisCommentField.parse VorbisComment.fresh ⟨data, 0⟩
    (2 ^ 32 + 7) VorbisCommentFlags.NoSignature [] _ [255, 255, 255, 255] v [1, 0, 0, 0]
    ⟨data, 0 + 4⟩ ⟨data, 0 + 4 + (2 ^ 32 - 1)⟩ ⟨data, 0 + 4 + (2 ^ 32 - 1) + 4⟩ (by omega) r1
    (by rw [hsz]; omega) (by rw [hsz]; exact r2) (by rw [hsz]; omega) r3]
  have hmax : 2 ^ 32 + 7 - 4 - LE.toUInt32 [255, 255, 255, 255] - 4 = 0 := by
    rw [hsz]
    norm_num
  have hfield : ∀ s : IStream, VorbisCommentField.parse s 0 [] =
      ⟨.threw .TruncatedData, s, 0,
        [⟨.Critical, "Field expected.", "parsing Vorbis comment field"⟩]⟩ := by
    intro s
    simp [VorbisCommentField.parse, checkMaxSize]
  rw [hmax, hcnt]
  simp only [VorbisComment.parseFields, hfield, if_true, VorbisComment.catchTruncated]
  have hpos : (0 + 4 + (2 ^ 32 - 1) + 4 : Nat) = 2 ^ 32 + 7 := by norm_num
  rw [hpos]
  have hsize : sizeSince ⟨data, 2 ^ 32 + 7⟩ (IStream.tellg ⟨data, 0⟩) = 7 := by
    unfold sizeSince IStream.tellg
    show ((2 ^ 32 + 7) % 2 ^ 64 + 2 ^ 64 - 0 % 2 ^ 64) % 2 ^ 64 % 2 ^ 32 = 7
    omega
  rw [hsize]
  rfl

theorem length_tail_of_length (l : Bytes) (h : l.length = 2 ^ 32) :
    l.tail.length = 2 ^ 32 - 1 := by
  rw [List.length_tail, h]

theorem length_hugeVendor_tail : hugeVendor.tail.length = 2 ^ 32 - 1 := by
  refine length_tail_of_length hugeVendor ?_
  unfold hugeVendor
  exact List.length_replicate _ _

theorem length_truncated_block (v : Bytes) (hlen : v.length = 2 ^ 32 - 1) :
    ([255, 255, 255, 255] ++ v ++ [1, 0, 0, 0]).length = 2 ^ 32 + 7 := by
  simp only [List.length_append, hlen, List.length_cons, List.length_nil]
  norm_num

/-- C19 fails as stated: a comment without signature of 2^32 + 7 bytes, with a vendor
of 2^32 - 1 bytes and one declared field which is not there: the field throws a
`TruncatedDataException` with 2^32 + 7 bytes consumed, and `size()` is set to 7. -/
theorem VorbisComment.size_wraps_when_truncated :
    hugeTruncatedComment.length = 2 ^ 32 + 7 ∧
    (VorbisComment.internalParse VorbisCommentField.parse VorbisComment.fresh
        ⟨hugeTruncatedComment, 0⟩ (2 ^ 32 + 7) VorbisCommentFlags.NoSignature []).outcome
      = .threw .TruncatedData ∧
    (VorbisComment.internalParse VorbisCommentField.parse VorbisComment.fresh
        ⟨hugeTruncatedComment, 0⟩ (2 ^ 32 + 7) VorbisCommentFlags.NoSignature []).stream.pos
      = 2 ^ 32 + 7 ∧
    (VorbisComment.internalParse VorbisCommentField.parse VorbisComment.fresh
        ⟨hugeTruncatedComment, 0⟩ (2 ^ 32 + 7) VorbisCommentFlags.NoSignature []).tag.size
      = 7 := by
  have h := VorbisComment.internalParse_truncated_after_two_pow_32 hugeVendor.tail
    length_hugeVendor_tail
  have hl : hugeTruncatedComment.length = 2 ^ 32 + 7 := by
    unfold hugeTruncatedComment
    exact length_truncated_block _ length_hugeVendor_tail
  refine ⟨hl, ?_⟩
  unfold hugeTruncatedComment
  rw [h]
  exact ⟨rfl, rfl, rfl⟩

/-- Witness for C19 as amended: a comment which declares the fields `=x` and
`YEAR=2021`, with a field parser that refuses a field without identifier: the parse
returns with one field; and a comment whose second field is truncated: the parse
throws with the first field under its own identifier `YEAR` and the size 38. -/
theorem VorbisComment.failing_fields_witness :
    (VorbisComment.internalParse sampleStrictFieldParser VorbisComment.fresh
        ⟨sampleCommentEmptyId, 0⟩ 41 VorbisCommentFlags.None []).tag.fields.length
      < VorbisComment.fresh.fields.length + 2 ∧
    (VorbisComment.internalParse VorbisCommentField.parse VorbisComment.fresh
        ⟨sampleCommentTruncated, 0⟩ 40 VorbisCommentFlags.None []).outcome
      = .threw .TruncatedData ∧
    (VorbisComment.internalParse VorbisCommentField.parse VorbisComment.fresh
        ⟨sampleCommentTruncated, 0⟩ 40 VorbisCommentFlags.None []).tag.fields
      = [(ascii "YEAR", ⟨ascii "YEAR", TagValue.utf8 (ascii "2021")⟩)] ∧
    (VorbisComment.internalParse VorbisCommentField.parse VorbisComment.fresh
        ⟨sampleCommentTruncated, 0⟩ 40 VorbisCommentFlags.None []).tag.size = 38 :=
  ⟨((VorbisComment.failing_fields sampleStrictFieldParser VorbisComment.fresh
      ⟨sampleCommentEmptyId, 0⟩ 41 VorbisCommentFlags.None [] 2 ⟨sampleCommentEmptyId, 21⟩ 20
      (by decide)).2.2.1 (by decide) FieldMap.sorted_nil).2.2 .InvalidData (by decide)
      (by decide) (by decide) (by decide),
    ((VorbisComment.failing_fields VorbisCommentField.parse VorbisComment.fresh
      ⟨sampleCommentTruncated, 0⟩ 40 VorbisCommentFlags.None [] 2 ⟨sampleCommentTruncated, 21⟩ 19
      (by decide)).2.2.2 (by decide)).1,
    (((VorbisComment.failing_fields VorbisCommentField.parse VorbisComment.fresh
      ⟨sampleCommentTruncated, 0⟩ 40 VorbisCommentFlags.None [] 2 ⟨sampleCommentTruncated, 21⟩ 19
      (by decide)).2.2.2 (by decide)).2.1).trans (by decide),
    (((VorbisComment.failing_fields VorbisCommentField.parse VorbisComment.fresh
      ⟨sampleCommentTruncated, 0⟩ 40 VorbisCommentFlags.None [] 2 ⟨sampleCommentTruncated, 21⟩ 19
      (by decide)).2.2.2 (by decide)).2.2.2.2.1 (by decide) (by decide) (by decide)).trans
      (by decide)⟩

/-! ## Vorbis comments: key and identifier after the normalisation -/

/-- C20: when the parse of an input into a tag with an empty field map returns and no
field of the input has the identifier `DATE`: every entry under `DATE` has the key
`DATE` and is a field of the input whose identifier is `YEAR` in the casing of the
input, so its key differs from its `id()`; every `YEAR` field of the input is
stored in this way, unchanged; and every other entry is a field of the input under
its own identifier. -/
theorem VorbisComment.rekeyed_field_keeps_id (parse : FieldParser) (vendor : TagValue)
    (size : Nat) (stream : IStream) (maxSize : Nat) (flags : VorbisCommentFlags)
    (diag : Diagnostics)
    (hret : (VorbisComment.internalParse parse ⟨vendor, [], size⟩ stream maxSize flags
      diag).outcome = .returned ())
    (hnodate : ∀ f ∈ VorbisComment.inputFields parse stream maxSize flags diag,
      keyEquiv f.id VorbisCommentIds.date = false) :
    (∀ e ∈ (VorbisComment.internalParse parse ⟨vendor, [], size⟩ stream maxSize flags
        diag).tag.fields, keyEquiv e.1 VorbisCommentIds.date = true →
      e.1 = VorbisCommentIds.date ∧
      e.2 ∈ VorbisComment.inputFields parse stream maxSize flags diag ∧
      keyEquiv e.2.id VorbisCommentIds.year = true ∧
      e.1 ≠ e.2.id) ∧
    (∀ f ∈ VorbisComment.inputFields parse stream maxSize flags diag,
      keyEquiv f.id VorbisCommentIds.year = true →
      (VorbisCommentIds.date, f) ∈ (VorbisComment.internalParse parse ⟨vendor, [], size⟩
        stream maxSize flags diag).tag.fields) ∧
    (∀ e ∈ (VorbisComment.internalParse parse ⟨vendor, [], size⟩ stream maxSize flags
        diag).tag.fields, keyEquiv e.1 VorbisCommentIds.date = false →
      e.1 = e.2.id ∧ e.2 ∈ VorbisComment.inputFields parse stream maxSize flags diag) := by
  rw [VorbisComment.internalParse_fields_of_returned parse _ stream maxSize flags diag hret]
  obtain ⟨hs, hf, _, hperm⟩ := FieldMap.foldl_insert_fields
    (VorbisComment.inputFields parse stream maxSize flags diag) [] FieldMap.sorted_nil
  generalize VorbisComment.inputFields parse stream maxSize flags diag = fs at *
  have hraw := FieldMap.foldl_insert_without_date fs hnodate
  obtain ⟨n1, n2, n3, _⟩ := normalizeYear_of_no_date _ hs hraw
  dsimp only at n1 n2 n3 hf hperm ⊢
  generalize fs.foldl (fun acc f => FieldMap.insert acc (f.id, f)) [] = m at *
  have hdate : (normalizeYear m).filter (fun x => keyEquiv x.1 VorbisCommentIds.date) =
      (fs.filter (fun f => keyEquiv f.id VorbisCommentIds.year)).map
        (fun f => (VorbisCommentIds.date, f)) := by
    rw [n2, hf, List.filter_nil, List.nil_append, List.map_map]
    rfl
  refine ⟨?_, ?_, ?_⟩
  · intro e he hk
    have hmem : e ∈ (normalizeYear m).filter (fun x => keyEquiv x.1 VorbisCommentIds.date) :=
      List.mem_filter.mpr ⟨he, hk⟩
    rw [hdate] at hmem
    obtain ⟨f, hfmem, hfe⟩ := List.mem_map.mp hmem
    have hf2 := List.mem_filter.mp hfmem
    subst hfe
    refine ⟨rfl, hf2.1, hf2.2, ?_⟩
    intro heq
    have hy : keyEquiv f.id VorbisCommentIds.year = true := hf2.2
    have heq2 : VorbisCommentIds.date = f.id := heq
    rw [← heq2, keyEquiv_date_year] at hy
    exact absurd hy (by simp)
  · intro f hfmem hy
    have hmem : (VorbisCommentIds.date, f) ∈
        (normalizeYear m).filter (fun x => keyEquiv x.1 VorbisCommentIds.date) := by
      rw [hdate]
      exact List.mem_map.mpr ⟨f, List.mem_filter.mpr ⟨hfmem, hy⟩, rfl⟩
    exact (List.mem_filter.mp hmem).1
  · intro e he hk
    have hy := n1 e he
    have hq := n3 (fun x => decide (x = e)) (by
      intro k f hkf
      have : (k, f) = e := of_decide_eq_true hkf
      subst this
      exact ⟨hk, hy⟩)
    have hmem : e ∈ (normalizeYear m).filter (fun x => decide (x = e)) :=
      List.mem_filter.mpr ⟨he, decide_eq_true rfl⟩
    rw [hq] at hmem
    have hm : e ∈ m := (List.mem_filter.mp hmem).1
    have hm2 := hperm.mem_iff.mp hm
    rw [List.nil_append] at hm2
    obtain ⟨f, hfmem, hfe⟩ := List.mem_map.mp hm2
    subst hfe
    exact ⟨rfl, hfmem⟩

/-- Witness for C20: the comment with the fields `Year=2021` and `ALBUM=x`: the map
holds the field with the identifier `Year` under the key `DATE`, and the album under
its own identifier. -/
theorem VorbisComment.rekeyed_field_keeps_id_witness :
    ((VorbisCommentIds.date, (⟨ascii "Year", TagValue.utf8 (ascii "2021")⟩ : VorbisCommentField))
      ∈ (VorbisComment.internalParse VorbisCommentField.parse ⟨TagValue.empty, [], 0⟩
          ⟨sampleCommentYearCased, 0⟩ 46 VorbisCommentFlags.None []).tag.fields) ∧
    (VorbisCommentIds.date
      ≠ (⟨ascii "Year", TagValue.utf8 (ascii "2021")⟩ : VorbisCommentField).id) ∧
    (VorbisComment.internalParse VorbisCommentField.parse ⟨TagValue.empty, [], 0⟩
        ⟨sampleCommentYearCased, 0⟩ 46 VorbisCommentFlags.None []).tag.fields
      = [(ascii "ALBUM", ⟨ascii "ALBUM", TagValue.utf8 (ascii "x")⟩),
         (ascii "DATE", ⟨ascii "Year", TagValue.utf8 (ascii "2021")⟩)] :=
  have h := VorbisComment.rekeyed_field_keeps_id VorbisCommentField.parse TagValue.empty 0
    ⟨sampleCommentYearCased, 0⟩ 46 VorbisCommentFlags.None [] (by decide) (by decide)
  have hmem := h.2.1 ⟨ascii "Year", TagValue.utf8 (ascii "2021")⟩ (by decide) (by decide)
  ⟨hmem, (h.1 _ hmem (by decide)).2.2.2, by decide⟩

/-! ## Vorbis comments: the field count written by make -/

theorem VorbisComment.makeFields_results (fieldMake : FieldMaker) (flags : VorbisCommentFlags) :
    ∀ (fields : FieldMap) (stream : OStream) (n : Nat) (diag : Diagnostics),
      stream.pos = stream.data.length → n < 2 ^ 32 →
      (∀ r ∈ VorbisComment.fieldMakeResults fieldMake flags fields diag, ∀ e : Exn,
        r.outcome = .threw e → e.isFailure = true) →
      (VorbisComment.makeFields fieldMake flags fields stream n diag).stream =
        ⟨stream.data ++ madeBytes (VorbisComment.fieldMakeResults fieldMake flags fields diag),
          stream.data.length
            + (madeBytes (VorbisComment.fieldMakeResults fieldMake flags fields diag)).length⟩ ∧
      (VorbisComment.makeFields fieldMake flags fields stream n diag).fieldsWritten =
        (n + madeCount (VorbisComment.fieldMakeResults fieldMake flags fields diag)) % 2 ^ 32 ∧
      (VorbisComment.makeFields fieldMake flags fields stream n diag).outcome = .returned () ∧
      (VorbisComment.fieldMakeResults fieldMake flags fields diag).length =
        (fields.filter (fun e => !e.2.value.isEmpty)).length := by
  intro fields
  induction fields with
  | nil =>
    intro stream n diag hend hn _
    cases stream with
    | mk d p =>
      simp only at hend
      subst hend
      simp only [VorbisComment.makeFields, VorbisComment.fieldMakeResults, madeBytes, madeCount,
        List.append_nil, List.length_nil, Nat.add_zero, List.filter_nil, Nat.mod_eq_of_lt hn,
        and_self]
  | cons e es ih =>
    intro stream n diag hend hn hthrow
    obtain ⟨k, f⟩ := e
    cases hempty : f.value.isEmpty with
    | true =>
      have hres : VorbisComment.fieldMakeResults fieldMake flags ((k, f) :: es) diag
          = VorbisComment.fieldMakeResults fieldMake flags es diag := by
        simp only [VorbisComment.fieldMakeResults, hempty, Bool.not_true, Bool.false_eq_true,
          if_false]
      rw [hres] at hthrow ⊢
      have hstep := ih stream n diag hend hn hthrow
      simp only [VorbisComment.makeFields, hempty, Bool.not_true, Bool.false_eq_true, if_false,
        List.filter_cons]
      exact hstep
    | false =>
      have hend1 : (stream.write (fieldMake f flags diag).written).pos
          = (stream.write (fieldMake f flags diag).written).data.length := by
        rw [OStream.write_at_end _ _ hend]
        simp only [List.length_append]
      have hdata1 : (stream.write (fieldMake f flags diag).written).data
          = stream.data ++ (fieldMake f flags diag).written := by
        rw [OStream.write_at_end _ _ hend]
      cases ho : (fieldMake f flags diag).outcome with
      | returned b =>
        have hres : VorbisComment.fieldMakeResults fieldMake flags ((k, f) :: es) diag
            = fieldMake f flags diag ::
              VorbisComment.fieldMakeResults fieldMake flags es (fieldMake f flags diag).diag := by
          simp only [VorbisComment.fieldMakeResults, hempty, Bool.not_false, if_true, ho]
        rw [hres] at hthrow ⊢
        have hthrow1 : ∀ r ∈ VorbisComment.fieldMakeResults fieldMake flags es
            (fieldMake f flags diag).diag, ∀ e : Exn, r.outcome = .threw e → e.isFailure = true :=
          fun r hr => hthrow r (List.mem_cons_of_mem _ hr)
        cases b with
        | true =>
          obtain ⟨i1, i2, i3, i4⟩ := ih (stream.write (fieldMake f flags diag).written)
            ((n + 1) % 2 ^ 32) (fieldMake f flags diag).diag hend1
            (Nat.mod_lt _ (by norm_num)) hthrow1
          simp only [VorbisComment.makeFields, hempty, Bool.not_false, if_true, ho]
          rw [i1, i2, i3, hdata1]
          refine ⟨?_, ?_, rfl, ?_⟩
          · simp only [madeBytes, List.append_assoc, List.length_append, OStream.mk.injEq,
              true_and]
            omega
          · simp only [madeCount, List.filter_cons, ho, decide_True, if_true, List.length_cons]
            omega
          · simp only [List.length_cons, i4, List.filter_cons, hempty, Bool.not_false, if_true]
        | false =>
          obtain ⟨i1, i2, i3, i4⟩ := ih (stream.write (fieldMake f flags diag).written)
            n (fieldMake f flags diag).diag hend1 hn hthrow1
          simp only [VorbisComment.makeFields, hempty, Bool.not_false, if_true, ho]
          rw [i1, i2, i3, hdata1]
          refine ⟨?_, ?_, rfl, ?_⟩
          · simp only [madeBytes, List.append_assoc, List.length_append, OStream.mk.injEq,
              true_and]
            omega
          · simp [madeCount, List.filter_cons, ho]
          · simp only [List.length_cons, i4, List.filter_cons, hempty, Bool.not_false, if_true]
      | threw x =>
        have hx : x.isFailure = true := by
          refine hthrow (fieldMake f flags diag) ?_ x ho
          simp only [VorbisComment.fieldMakeResults, hempty, Bool.not_false, if_true, ho]
          cases x.isFailure <;> simp
        have hres : VorbisComment.fieldMakeResults fieldMake flags ((k, f) :: es) diag
            = fieldMake f flags diag ::
              VorbisComment.fieldMakeResults fieldMake flags es (fieldMake f flags diag).diag := by
          simp only [VorbisComment.fieldMakeResults, hempty, Bool.not_false, if_true, ho, hx]
        rw [hres] at hthrow ⊢
        have hthrow1 : ∀ r ∈ VorbisComment.fieldMakeResults fieldMake flags es
            (fieldMake f flags diag).diag, ∀ e : Exn, r.outcome = .threw e → e.isFailure = true :=
          fun r hr => hthrow r (List.mem_cons_of_mem _ hr)
        obtain ⟨i1, i2, i3, i4⟩ := ih (stream.write (fieldMake f flags diag).written)
          n (fieldMake f flags diag).diag hend1 hn hthrow1
        simp only [VorbisComment.makeFields, hempty, Bool.not_false, if_true, ho, hx]
        rw [i1, i2, i3, hdata1]
        refine ⟨?_, ?_, rfl, ?_⟩
        · simp only [madeBytes, List.append_assoc, List.length_append, OStream.mk.injEq,
            true_and]
          omega
        · simp [madeCount, List.filter_cons, ho]
        · simp only [List.length_cons, i4, List.filter_cons, hempty, Bool.not_false, if_true]

theorem VorbisComment.make_stream (fieldMake : FieldMaker) (tag : VorbisComment)
    (stream : OStream) (flags : VorbisCommentFlags) (diag : Diagnostics)
    (hend : stream.pos = stream.data.length)
    (hthrow : ∀ r ∈ VorbisComment.fieldMakeResults fieldMake flags tag.fields
        (VorbisComment.makeDiag tag diag), ∀ e : Exn,
      r.outcome = .threw e → e.isFailure = true) :
    (VorbisComment.make fieldMake tag stream flags diag).outcome = .returned () ∧
    (VorbisComment.make fieldMake tag stream flags diag).stream =
      ⟨stream.data
          ++ (if !(VorbisCommentFlags.and flags VorbisCommentFlags.NoSignature) then makeSignature
            else [])
          ++ writeUInt32LE (VorbisComment.vendorString tag).length
          ++ VorbisComment.vendorString tag
          ++ writeUInt32LE (madeCount (VorbisComment.fieldMakeResults fieldMake flags tag.fields
            (VorbisComment.makeDiag tag diag)))
          ++ madeBytes (VorbisComment.fieldMakeResults fieldMake flags tag.fields
            (VorbisComment.makeDiag tag diag))
          ++ (if !(VorbisCommentFlags.and flags VorbisCommentFlags.NoFramingByte) then [0x01]
            else []),
        (stream.data
          ++ (if !(VorbisCommentFlags.and flags VorbisCommentFlags.NoSignature) then makeSignature
            else [])
          ++ writeUInt32LE (VorbisComment.vendorString tag).length
          ++ VorbisComment.vendorString tag
          ++ writeUInt32LE (madeCount (VorbisComment.fieldMakeResults fieldMake flags tag.fields
            (VorbisComment.makeDiag tag diag)))
          ++ madeBytes (VorbisComment.fieldMakeResults fieldMake flags tag.fields
            (VorbisComment.makeDiag tag diag))
          ++ (if !(VorbisCommentFlags.and flags VorbisCommentFlags.NoFramingByte) then [0x01]
            else [])).length⟩ := by
  have hhead : ∀ (a v : Bytes),
      (((⟨a, a.length⟩ : OStream).write (writeUInt32LE v.length)).write v)
        = ⟨a ++ writeUInt32LE v.length ++ v, (a ++ writeUInt32LE v.length ++ v).length⟩ := by
    intro a v
    rw [OStream.write_at_end ⟨a, a.length⟩ (writeUInt32LE v.length) rfl]
    rw [OStream.write_at_end _ _ (by simp only [List.length_append])]
    simp only [List.length_append]
  have hsig : (if !(VorbisCommentFlags.and flags VorbisCommentFlags.NoSignature) then
        stream.write makeSignature else stream)
      = ⟨stream.data ++ (if !(VorbisCommentFlags.and flags VorbisCommentFlags.NoSignature) then
          makeSignature else []),
        (stream.data ++ (if !(VorbisCommentFlags.and flags VorbisCommentFlags.NoSignature) then
          makeSignature else [])).length⟩ := by
    cases VorbisCommentFlags.and flags VorbisCommentFlags.NoSignature with
    | true =>
      cases stream with
      | mk d p =>
        simp only at hend
        subst hend
        simp only [Bool.not_true, Bool.false_eq_true, if_false, List.append_nil]
    | false =>
      simp only [Bool.not_false, if_true]
      rw [OStream.write_at_end _ _ hend]
      simp only [List.length_append]
  unfold VorbisComment.make
  simp only [VorbisComment.vendorString, VorbisComment.makeDiag] at hthrow ⊢
  simp only [hsig, hhead]
  generalize hA : stream.data ++ (if !(VorbisCommentFlags.and flags VorbisCommentFlags.NoSignature)
    then makeSignature else []) ++ writeUInt32LE ((tag.vendor.toString).getD []).length
    ++ (tag.vendor.toString).getD [] = a
  rw [OStream.write_at_end _ _ rfl]
  obtain ⟨i1, i2, i3, _⟩ := VorbisComment.makeFields_results fieldMake flags tag.fields
    ⟨a ++ writeUInt32LE 0, a.length + (writeUInt32LE 0).length⟩ 0
    (match tag.vendor.toString with
      | some _ => diag
      | none =>
        diag ++ [⟨.Warning, "Can not convert the assigned vendor to string.",
          "making Vorbis comment"⟩])
    (by simp only [List.length_append]) (by norm_num) hthrow
  simp only [i1, i2, i3, OStream.tellp, Nat.zero_add, writeUInt32LE_mod]
  generalize VorbisComment.fieldMakeResults fieldMake flags tag.fields _ = rs
  rw [OStream.overwrite_middle a (writeUInt32LE 0) (madeBytes rs) (writeUInt32LE (madeCount rs)) _
    rfl]
  refine ⟨trivial, ?_⟩
  cases VorbisCommentFlags.and flags VorbisCommentFlags.NoFramingByte with
  | true =>
    simp only [Bool.not_true, Bool.false_eq_true, if_false, OStream.seekp, List.append_nil,
      List.length_append, length_writeUInt32LE]
  | false =>
    simp only [Bool.not_false, if_true, OStream.seekp]
    rw [OStream.write_at_end _ _ (by simp only [List.length_append, length_writeUInt32LE])]
    simp only [List.length_append, length_writeUInt32LE, List.length_cons, List.length_nil]

theorem take_drop_middle (p c r t : Bytes) (n : Nat) (hn : p.length = n) (hc : c.length = 4) :
    ((p ++ c ++ r ++ t).drop n).take 4 = c := by
  rw [List.append_assoc, List.append_assoc, ← hn, List.drop_left, ← hc, List.take_left]

theorem madeCount_le_length (results : List FieldMakeResult) :
    madeCount results ≤ results.length := by
  unfold madeCount
  exact List.length_filter_le _ _

theorem VorbisComment.fieldMakeResults_text (flags : VorbisCommentFlags)
    (hcov : VorbisCommentFlags.and flags VorbisCommentFlags.NoCovers = false) :
    ∀ (fields : FieldMap) (diag : Diagnostics),
      (∀ e ∈ fields, e.2.value.type = .Text ∧ e.2.value.encoding = .Utf8 ∧
        e.2.value.data ≠ []) →
      (∀ r ∈ VorbisComment.fieldMakeResults VorbisCommentField.make flags fields diag,
        r.outcome = .returned true) ∧
      madeCount (VorbisComment.fieldMakeResults VorbisCommentField.make flags fields diag)
        = fields.length := by
  intro fields
  induction fields with
  | nil =>
    intro diag _
    simp [VorbisComment.fieldMakeResults, madeCount]
  | cons e es ih =>
    intro diag hwf
    obtain ⟨ht, he, hne⟩ := hwf e (List.mem_cons_self _ _)
    have hempty : e.2.value.isEmpty = false := by
      unfold TagValue.isEmpty
      cases hd : e.2.value.data with
      | nil => exact absurd hd hne
      | cons _ _ => rfl
    obtain ⟨i1, i2⟩ := ih diag (fun x hx => hwf x (List.mem_cons_of_mem _ hx))
    obtain ⟨k, f⟩ := e
    have hres : VorbisComment.fieldMakeResults VorbisCommentField.make flags ((k, f) :: es) diag
        = ⟨.returned true, serializeField f, diag⟩ ::
            VorbisComment.fieldMakeResults VorbisCommentField.make flags es diag := by
      simp only [VorbisComment.fieldMakeResults, hempty, Bool.not_false, if_true,
        VorbisCommentField.make_text f flags diag hcov ht he]
    rw [hres]
    constructor
    · intro r hr
      cases List.mem_cons.mp hr with
      | inl h => rw [h]
      | inr h => exact i1 r h
    · unfold madeCount at i2 ⊢
      simp only [List.filter_cons, decide_True, if_true, List.length_cons, i2]

theorem VorbisComment.make_count_of_two_pow_32_fields (fields : FieldMap)
    (hlen : fields.length = 2 ^ 32)
    (hall : ∀ e ∈ fields, e = (ascii "A", ⟨ascii "A", TagValue.utf8 (ascii "x")⟩)) :
    (∀ r ∈ VorbisComment.fieldMakeResults VorbisCommentField.make VorbisCommentFlags.None fields
      [], r.outcome = .returned true) ∧
    madeCount (VorbisComment.fieldMakeResults VorbisCommentField.make VorbisCommentFlags.None
      fields []) = 2 ^ 32 ∧
    (VorbisComment.make VorbisCommentField.make ⟨TagValue.utf8 (ascii "x"), fields, 0⟩ ⟨[], 0⟩
      VorbisCommentFlags.None []).outcome = .returned () ∧
    LE.toUInt32 (((VorbisComment.make VorbisCommentField.make
      ⟨TagValue.utf8 (ascii "x"), fields, 0⟩ ⟨[], 0⟩ VorbisCommentFlags.None []).stream.data.drop
        12).take 4) = 0 := by
  have hwf : ∀ e ∈ fields, e.2.value.type = .Text ∧ e.2.value.encoding = .Utf8 ∧
      e.2.value.data ≠ [] := by
    intro e he
    rw [hall e he]
    decide
  obtain ⟨t1, t2⟩ := VorbisComment.fieldMakeResults_text VorbisCommentFlags.None (by decide)
    fields [] hwf
  have hdiag : VorbisComment.makeDiag ⟨TagValue.utf8 (ascii "x"), fields, 0⟩ [] = [] := rfl
  obtain ⟨m1, m2⟩ := VorbisComment.make_stream VorbisCommentField.make
    ⟨TagValue.utf8 (ascii "x"), fields, 0⟩ ⟨[], 0⟩ VorbisCommentFlags.None [] rfl (by
      rw [hdiag]
      intro r hr e he
      rw [t1 r hr] at he
      exact absurd he (by simp))
  refine ⟨t1, by rw [t2, hlen], m1, ?_⟩
  rw [m2, hdiag]
  dsimp only
  rw [take_drop_middle _ (writeUInt32LE _) _ _ 12 ?_ (length_writeUInt32LE _),
    LE.toUInt32_writeUInt32LE, t2, hlen, Nat.mod_self]
  rfl

theorem throws_failures_of_all (results : List FieldMakeResult)
    (h : results.all (fun r =>
      match r.outcome with
      | .threw e => e.isFailure
      | .returned _ => true) = true) :
    ∀ r ∈ results, ∀ e : Exn, r.outcome = .threw e → e.isFailure = true := by
  intro r hr e he
  have h1 := List.all_eq_true.mp h r hr
  simp only [he] at h1
  exact h1

/-- C12 as amended: when `make` starts at the end of the stream and no call of
`VorbisCommentField::make` throws anything but a `Failure`, it returns; the bytes
written are the signature (unless `NoSignature`), the vendor length and vendor, the
field count, the bytes of the field calls in map order and the framing byte `0x01`
(unless `NoFramingByte`), which is then the last byte, the write position being at
the end; the four bytes directly behind the vendor hold the number of calls which
returned true, reduced to 32 bits, hence that number itself when it is below 2^32;
the calls are those for the fields with a non-empty value, so a field with an empty
value is neither made nor counted, and a call which throws a `Failure` or returns
false is not counted. -/
theorem VorbisComment.make_field_count (fieldMake : FieldMaker) (tag : VorbisComment)
    (stream : OStream) (flags : VorbisCommentFlags) (diag : Diagnostics)
    (hend : stream.pos = stream.data.length)
    (hthrow : ∀ r ∈ VorbisComment.fieldMakeResults fieldMake flags tag.fields
        (VorbisComment.makeDiag tag diag), ∀ e : Exn,
      r.outcome = .threw e → e.isFailure = true) :
    (VorbisComment.make fieldMake tag stream flags diag).outcome = .returned () ∧
    (VorbisComment.make fieldMake tag stream flags diag).stream.data =
      stream.data
        ++ (if !(VorbisCommentFlags.and flags VorbisCommentFlags.NoSignature) then makeSignature
          else [])
        ++ writeUInt32LE (VorbisComment.vendorString tag).length
        ++ VorbisComment.vendorString tag
        ++ writeUInt32LE (madeCount (VorbisComment.fieldMakeResults fieldMake flags tag.fields
          (VorbisComment.makeDiag tag diag)))
        ++ madeBytes (VorbisComment.fieldMakeResults fieldMake flags tag.fields
          (VorbisComment.makeDiag tag diag))
        ++ (if !(VorbisCommentFlags.and flags VorbisCommentFlags.NoFramingByte) then [0x01]
          else []) ∧
    (VorbisComment.make fieldMake tag stream flags diag).stream.pos =
      (VorbisComment.make fieldMake tag stream flags diag).stream.data.length ∧
    LE.toUInt32 (((VorbisComment.make fieldMake tag stream flags diag).stream.data.drop
        (stream.data.length
          + (if !(VorbisCommentFlags.and flags VorbisCommentFlags.NoSignature) then makeSignature
            else []).length
          + 4 + (VorbisComment.vendorString tag).length)).take 4) =
      madeCount (VorbisComment.fieldMakeResults fieldMake flags tag.fields
        (VorbisComment.makeDiag tag diag)) % 2 ^ 32 ∧
    (madeCount (VorbisComment.fieldMakeResults fieldMake flags tag.fields
        (VorbisComment.makeDiag tag diag)) < 2 ^ 32 →
      LE.toUInt32 (((VorbisComment.make fieldMake tag stream flags diag).stream.data.drop
          (stream.data.length
            + (if !(VorbisCommentFlags.and flags VorbisCommentFlags.NoSignature) then makeSignature
              else []).length
            + 4 + (VorbisComment.vendorString tag).length)).take 4) =
        madeCount (VorbisComment.fieldMakeResults fieldMake flags tag.fields
          (VorbisComment.makeDiag tag diag))) ∧
    (VorbisComment.fieldMakeResults fieldMake flags tag.fields
        (VorbisComment.makeDiag tag diag)).length =
      (tag.fields.filter (fun e => !e.2.value.isEmpty)).length ∧
    madeCount (VorbisComment.fieldMakeResults fieldMake flags tag.fields
        (VorbisComment.makeDiag tag diag)) ≤
      (tag.fields.filter (fun e => !e.2.value.isEmpty)).length ∧
    (VorbisCommentFlags.and flags VorbisCommentFlags.NoFramingByte = false →
      (VorbisComment.make fieldMake tag stream flags diag).stream.data.getLast? = some 0x01) := by
  obtain ⟨m1, m2⟩ := VorbisComment.make_stream fieldMake tag stream flags diag hend hthrow
  have hlen := (VorbisComment.makeFields_results fieldMake flags tag.fields ⟨[], 0⟩ 0
    (VorbisComment.makeDiag tag diag) rfl (by norm_num) hthrow).2.2.2
  have hcount : LE.toUInt32 (((VorbisComment.make fieldMake tag stream flags diag).stream.data.drop
        (stream.data.length
          + (if !(VorbisCommentFlags.and flags VorbisCommentFlags.NoSignature) then makeSignature
            else []).length
          + 4 + (VorbisComment.vendorString tag).length)).take 4) =
      madeCount (VorbisComment.fieldMakeResults fieldMake flags tag.fields
        (VorbisComment.makeDiag tag diag)) % 2 ^ 32 := by
    rw [m2]
    dsimp only
    rw [take_drop_middle _ (writeUInt32LE _) _ _ _ ?_ (length_writeUInt32LE _),
      LE.toUInt32_writeUInt32LE]
    simp only [List.length_append, length_writeUInt32LE]
  refine ⟨m1, by rw [m2], by rw [m2], hcount, ?_, hlen, ?_, ?_⟩
  · intro hlt
    rw [hcount, Nat.mod_eq_of_lt hlt]
  · rw [← hlen]
    exact madeCount_le_length _
  · intro hfr
    rw [m2]
    simp only [hfr, Bool.not_false, if_true, List.getLast?_concat]

/-- C12 fails as stated: for the tag with the vendor `x` and 2^32 fields `A=x`, every
call of `VorbisCommentField::make` returns true, so 2^32 fields are counted, and the
field count stored behind the vendor (at offset 12) is 0. -/
theorem VorbisComment.field_count_wraps :
    hugeFieldsTag.fields.length = 2 ^ 32 ∧
    (∀ r ∈ VorbisComment.fieldMakeResults VorbisCommentField.make VorbisCommentFlags.None
      hugeFieldsTag.fields [], r.outcome = .returned true) ∧
    madeCount (VorbisComment.fieldMakeResults VorbisCommentField.make VorbisCommentFlags.None
      hugeFieldsTag.fields []) = 2 ^ 32 ∧
    (VorbisComment.make VorbisCommentField.make hugeFieldsTag ⟨[], 0⟩
      VorbisCommentFlags.None []).outcome = .returned () ∧
    LE.toUInt32 (((VorbisComment.make VorbisCommentField.make hugeFieldsTag ⟨[], 0⟩
      VorbisCommentFlags.None []).stream.data.drop 12).take 4) = 0 := by
  have hlen : hugeFieldMap.length = 2 ^ 32 := by
    unfold hugeFieldMap
    exact List.length_replicate _ _
  have hall : ∀ e ∈ hugeFieldMap,
      e = (ascii "A", (⟨ascii "A", TagValue.utf8 (ascii "x")⟩ : VorbisCommentField)) := by
    intro e he
    unfold hugeFieldMap at he
    exact List.eq_of_mem_replicate he
  exact ⟨hlen, VorbisComment.make_count_of_two_pow_32_fields hugeFieldMap hlen hall⟩

/-- Witness for C12 as amended: the tag with an album, a comment with an empty value, a
cover and a title with binary data, made with `NoCovers`: three calls, of which one
returns true, one returns false and one throws a `Failure`; the stored count is 1
and the framing byte is the last byte. -/
theorem VorbisComment.make_field_count_witness :
    LE.toUInt32 (((VorbisComment.make VorbisCommentField.make sampleMixedTag ⟨[], 0⟩
      VorbisCommentFlags.NoCovers []).stream.data.drop 17).take 4) =
      madeCount (VorbisComment.fieldMakeResults VorbisCommentField.make
        VorbisCommentFlags.NoCovers sampleMixedTag.fields []) ∧
    madeCount (VorbisComment.fieldMakeResults VorbisCommentField.make
      VorbisCommentFlags.NoCovers sampleMixedTag.fields []) = 1 ∧
    (VorbisComment.fieldMakeResults VorbisCommentField.make
      VorbisCommentFlags.NoCovers sampleMixedTag.fields []).map (fun r => r.outcome) =
      [.returned true, .returned false, .threw .Failure] ∧
    (VorbisComment.make VorbisCommentField.make sampleMixedTag ⟨[], 0⟩
      VorbisCommentFlags.NoCovers []).stream.data.getLast? = some 0x01 := by
  have h := VorbisComment.make_field_count VorbisCommentField.make sampleMixedTag ⟨[], 0⟩
    VorbisCommentFlags.NoCovers [] rfl
    (throws_failures_of_all
      (VorbisComment.fieldMakeResults VorbisCommentField.make VorbisCommentFlags.NoCovers
        sampleMixedTag.fields (VorbisComment.makeDiag sampleMixedTag []))
      (by decide))
  have hd : VorbisComment.makeDiag sampleMixedTag [] = [] := rfl
  rw [hd] at h
  exact ⟨h.2.2.2.2.1 (by decide), by decide, by decide, h.2.2.2.2.2.2.2 (by decide)⟩

/-! ## VorbisCommentFlags: the operators -/

theorem VorbisCommentFlags.land_ne_zero_iff (x y : Nat) :
    ((x % 256) &&& (y % 256)) ≠ 0 ↔
      ∃ i, i < 8 ∧ Nat.testBit x i = true ∧ Nat.testBit y i = true := by
  have h256 : (256 : Nat) = 2 ^ 8 := by norm_num
  constructor
  · intro h
    obtain ⟨i, hi⟩ := Nat.ne_zero_implies_bit_true h
    rw [Nat.testBit_and, h256, Nat.testBit_mod_two_pow, Nat.testBit_mod_two_pow] at hi
    simp only [Bool.and_eq_true, decide_eq_true_eq] at hi
    exact ⟨i, hi.1.1, hi.1.2, hi.2.2⟩
  · intro h
    obtain ⟨i, hi, hx, hy⟩ := h
    intro hz
    have hbit : Nat.testBit ((x % 256) &&& (y % 256)) i = true := by
      rw [Nat.testBit_and, h256, Nat.testBit_mod_two_pow, Nat.testBit_mod_two_pow]
      simp only [hi, decide_True, hx, hy, Bool.and_self]
    rw [hz, Nat.zero_testBit] at hbit
    exact absurd hbit (by simp)

theorem VorbisCommentFlags.and_eq_true_iff (x y : Nat) :
    VorbisCommentFlags.and x y = true ↔
      ∃ i, i < 8 ∧ Nat.testBit x i = true ∧ Nat.testBit y i = true := by
  unfold VorbisCommentFlags.and
  rw [bne_iff_ne]
  exact VorbisCommentFlags.land_ne_zero_iff x y

theorem VorbisCommentFlags.testBit_or (x y i : Nat) :
    Nat.testBit (VorbisCommentFlags.or x y) i =
      (decide (i < 8) && (Nat.testBit x i || Nat.testBit y i)) := by
  have h256 : (256 : Nat) = 2 ^ 8 := by norm_num
  unfold VorbisCommentFlags.or
  rw [Nat.testBit_or, h256, Nat.testBit_mod_two_pow, Nat.testBit_mod_two_pow]
  cases decide (i < 8) <;> simp

theorem VorbisCommentFlags.testBit_of_lt (x i : Nat) (hx : x < 256) (hi : 8 ≤ i) :
    Nat.testBit x i = false := by
  have h : x < 2 ^ i :=
    Nat.lt_of_lt_of_le hx (by
      have : (256 : Nat) = 2 ^ 8 := by norm_num
      rw [this]
      exact Nat.pow_le_pow_right (by norm_num) hi)
  exact Nat.testBit_lt_two_pow h

theorem VorbisCommentFlags.or_lt (x y : Nat) : VorbisCommentFlags.or x y < 256 := by
  unfold VorbisCommentFlags.or
  have h256 : (256 : Nat) = 2 ^ 8 := by norm_num
  rw [h256]
  exact Nat.or_lt_two_pow (Nat.mod_lt _ (by norm_num)) (Nat.mod_lt _ (by norm_num))

/-- C21: for flags `a`, `b`, `c` that are 8-bit masks: `operator&` gives true exactly
when `a` and `c` have a set bit in common; `operator|` is the bitwise union and
again an 8-bit mask; `(a | b) & c` is `(a & c) || (b & c)`; `None & c` is false;
`a | None` is `a`; and `operator|` is commutative, associative and idempotent. -/
theorem VorbisCommentFlags.operators (a b c : VorbisCommentFlags)
    (ha : a < 256) (hb : b < 256) (hc : c < 256) :
    (VorbisCommentFlags.and a c = true ↔
      ∃ i, Nat.testBit a i = true ∧ Nat.testBit c i = true) ∧
    (∀ i, Nat.testBit (VorbisCommentFlags.or a b) i = (Nat.testBit a i || Nat.testBit b i)) ∧
    VorbisCommentFlags.or a b < 256 ∧
    VorbisCommentFlags.and (VorbisCommentFlags.or a b) c =
      (VorbisCommentFlags.and a c || VorbisCommentFlags.and b c) ∧
    VorbisCommentFlags.and VorbisCommentFlags.None c = false ∧
    VorbisCommentFlags.or a VorbisCommentFlags.None = a ∧
    VorbisCommentFlags.or a b = VorbisCommentFlags.or b a ∧
    VorbisCommentFlags.or (VorbisCommentFlags.or a b) c =
      VorbisCommentFlags.or a (VorbisCommentFlags.or b c) ∧
    VorbisCommentFlags.or a a = a := by
  have hbits : ∀ (x y : Nat), x < 256 → y < 256 → ∀ i,
      Nat.testBit (VorbisCommentFlags.or x y) i = (Nat.testBit x i || Nat.testBit y i) := by
    intro x y hx hy i
    rw [VorbisCommentFlags.testBit_or]
    by_cases hi : i < 8
    · simp only [hi, decide_True, Bool.true_and]
    · rw [VorbisCommentFlags.testBit_of_lt x i hx (by omega),
        VorbisCommentFlags.testBit_of_lt y i hy (by omega)]
      simp only [hi, decide_False, Bool.false_and, Bool.or_self]
  have hnone : ∀ i, Nat.testBit VorbisCommentFlags.None i = false := by
    intro i
    exact Nat.zero_testBit i
  refine ⟨?_, hbits a b ha hb, VorbisCommentFlags.or_lt a b, ?_, ?_, ?_, ?_, ?_, ?_⟩
  · rw [VorbisCommentFlags.and_eq_true_iff]
    constructor
    · intro h
      obtain ⟨i, _, h1, h2⟩ := h
      exact ⟨i, h1, h2⟩
    · intro h
      obtain ⟨i, h1, h2⟩ := h
      refine ⟨i, ?_, h1, h2⟩
      by_cases hi : i < 8
      · exact hi
      · rw [VorbisCommentFlags.testBit_of_lt a i ha (by omega)] at h1
        exact absurd h1 (by simp)
  · rw [Bool.eq_iff_iff]
    simp only [Bool.or_eq_true, VorbisCommentFlags.and_eq_true_iff]
    constructor
    · intro h
      obtain ⟨i, hi, h1, h2⟩ := h
      rw [hbits a b ha hb i, Bool.or_eq_true] at h1
      cases h1 with
      | inl h1 => exact Or.inl ⟨i, hi, h1, h2⟩
      | inr h1 => exact Or.inr ⟨i, hi, h1, h2⟩
    · intro h
      cases h with
      | inl h =>
        obtain ⟨i, hi, h1, h2⟩ := h
        exact ⟨i, hi, by rw [hbits a b ha hb i, h1, Bool.true_or], h2⟩
      | inr h =>
        obtain ⟨i, hi, h1, h2⟩ := h
        exact ⟨i, hi, by rw [hbits a b ha hb i, h1, Bool.or_true], h2⟩
  · cases h : VorbisCommentFlags.and VorbisCommentFlags.None c with
    | false => rfl
    | true =>
      obtain ⟨i, _, h1, _⟩ := (VorbisCommentFlags.and_eq_true_iff _ _).mp h
      rw [hnone i] at h1
      exact absurd h1 (by simp)
  · apply Nat.eq_of_testBit_eq
    intro i
    rw [hbits a VorbisCommentFlags.None ha (by decide) i, hnone i, Bool.or_false]
  · apply Nat.eq_of_testBit_eq
    intro i
    rw [hbits a b ha hb i, hbits b a hb ha i, Bool.or_comm]
  · apply Nat.eq_of_testBit_eq
    intro i
    rw [hbits _ c (VorbisCommentFlags.or_lt a b) hc i, hbits a b ha hb i,
      hbits a _ ha (VorbisCommentFlags.or_lt b c) i, hbits b c hb hc i, Bool.or_assoc]
  · apply Nat.eq_of_testBit_eq
    intro i
    rw [hbits a a ha ha i, Bool.or_self]

/-- Witness for C21: `NoSignature`, `NoFramingByte` and `NoCovers`: the union of the
first two has no bit in common with the third, the union of all three has. -/
theorem VorbisCommentFlags.operators_witness :
    VorbisCommentFlags.and
        (VorbisCommentFlags.or VorbisCommentFlags.NoSignature VorbisCommentFlags.NoFramingByte)
        VorbisCommentFlags.NoCovers = false ∧
    VorbisCommentFlags.or VorbisCommentFlags.NoSignature VorbisCommentFlags.NoFramingByte = 3 ∧
    VorbisCommentFlags.and
        (VorbisCommentFlags.or
          (VorbisCommentFlags.or VorbisCommentFlags.NoSignature VorbisCommentFlags.NoFramingByte)
          VorbisCommentFlags.NoCovers)
        VorbisCommentFlags.NoCovers = true ∧
    VorbisCommentFlags.or VorbisCommentFlags.NoCovers VorbisCommentFlags.None
      = VorbisCommentFlags.NoCovers :=
  ⟨((VorbisCommentFlags.operators VorbisCommentFlags.NoSignature VorbisCommentFlags.NoFramingByte
      VorbisCommentFlags.NoCovers (by decide) (by decide) (by decide)).2.2.2.1).trans (by decide),
    by decide,
    ((VorbisCommentFlags.operators
      (VorbisCommentFlags.or VorbisCommentFlags.NoSignature VorbisCommentFlags.NoFramingByte)
      VorbisCommentFlags.NoCovers VorbisCommentFlags.NoCovers (by decide) (by decide)
      (by decide)).2.2.2.1).trans (by decide),
    (VorbisCommentFlags.operators VorbisCommentFlags.NoCovers VorbisCommentFlags.NoFramingByte
      VorbisCommentFlags.NoSignature (by decide) (by decide) (by decide)).2.2.2.2.2.1⟩

end TagParser
